import Mathlib

/-!
# AKSynthOneDSPKernel

A shallow embedding of `AKSynthOneDSPKernel.hpp`, the realtime kernel of the
AudioKit Synth One synthesizer: parameter table and clamping, voices
(`NoteState`), the voice pool with note stealing, the held-note registry and
the note entry points.

Conventions of the embedding.

* `float`, `double` and `AUValue` are rationals: every comparison, `std::min`,
  `std::max` and the four arithmetic operations are exact on them.  Rounding,
  infinities and NaN are outside the model.
* `int` is `Int`; note numbers use `-1` as the "no note" sentinel, as in the
  source.
* The unit generators of Soundpipe are black boxes.  The only one whose result
  feeds back into the control state is the ADSR envelope; its state is an
  abstract type `A` and `sp_adsr_init`, `sp_adsr_compute` are fields of `Env`.
* Messages posted to the main thread (`AEMessageQueuePerformSelectorOnMainThread`)
  are appended to the list `messageQueue`.
* `heldNoteNumbers` and its realtime mirror `heldNoteNumbersAE` are always
  updated together; they are one list here.
-/

namespace AKSynthOne

/-! ## Constants (`#define`s at the top of the header) -/

def SAMPLE_RATE : ℚ := 44100
def MAX_POLYPHONY : Int := 6
def NUM_MIDI_NOTES : Int := 128
def RELEASE_AMPLITUDE_THRESHOLD : ℚ := 0.00001

/-! ## Parameter table -/

/-- One row of `aks1p`: `typedef struct AKS1Param`.  `param` is the value of the
`AKSynthOneParameter` constant written in the row. -/
structure AKS1Param where
  param : Nat
  min : ℚ
  defaultValue : ℚ
  max : ℚ
  presetKey : String

/-! The enumeration `AKSynthOneParameter` is declared in `AKSynthOneParameter.h`,
which is not among the sources.  Its constants are numbered here by the rows
of the table `aks1p`, which is indexed by them. -/

namespace AKSynthOneParameter

def index1 : Nat := 0
def index2 : Nat := 1
def morphBalance : Nat := 2
def morph1SemitoneOffset : Nat := 3
def morph2SemitoneOffset : Nat := 4
def morph1Volume : Nat := 5
def morph2Volume : Nat := 6
def subVolume : Nat := 7
def subOctaveDown : Nat := 8
def subIsSquare : Nat := 9
def fmVolume : Nat := 10
def fmAmount : Nat := 11
def noiseVolume : Nat := 12
def lfo1Index : Nat := 13
def lfo1Amplitude : Nat := 14
def lfo1Rate : Nat := 15
def cutoff : Nat := 16
def resonance : Nat := 17
def filterMix : Nat := 18
def filterADSRMix : Nat := 19
def isMono : Nat := 20
def glide : Nat := 21
def filterAttackDuration : Nat := 22
def filterDecayDuration : Nat := 23
def filterSustainLevel : Nat := 24
def filterReleaseDuration : Nat := 25
def attackDuration : Nat := 26
def decayDuration : Nat := 27
def sustainLevel : Nat := 28
def releaseDuration : Nat := 29
def morph2Detuning : Nat := 30
def detuningMultiplier : Nat := 31
def masterVolume : Nat := 32
def bitCrushDepth : Nat := 33
def bitCrushSampleRate : Nat := 34
def autoPanAmount : Nat := 35
def autoPanFrequency : Nat := 36
def reverbOn : Nat := 37
def reverbFeedback : Nat := 38
def reverbHighPass : Nat := 39
def reverbMix : Nat := 40
def delayOn : Nat := 41
def delayFeedback : Nat := 42
def delayTime : Nat := 43
def delayMix : Nat := 44
def lfo2Index : Nat := 45
def lfo2Amplitude : Nat := 46
def lfo2Rate : Nat := 47
def cutoffLFO : Nat := 48
def resonanceLFO : Nat := 49
def oscMixLFO : Nat := 50
def sustainLFO : Nat := 51
def decayLFO : Nat := 52
def noiseLFO : Nat := 53
def fmLFO : Nat := 54
def detuneLFO : Nat := 55
def filterEnvLFO : Nat := 56
def pitchLFO : Nat := 57
def bitcrushLFO : Nat := 58
def autopanLFO : Nat := 59
def arpDirection : Nat := 60
def arpInterval : Nat := 61
def arpIsOn : Nat := 62
def arpOctave : Nat := 63
def arpRate : Nat := 64
def arpIsSequencer : Nat := 65
def arpTotalSteps : Nat := 66
def arpSeqPattern00 : Nat := 67
def arpSeqPattern01 : Nat := 68
def arpSeqPattern02 : Nat := 69
def arpSeqPattern03 : Nat := 70
def arpSeqPattern04 : Nat := 71
def arpSeqPattern05 : Nat := 72
def arpSeqPattern06 : Nat := 73
def arpSeqPattern07 : Nat := 74
def arpSeqPattern08 : Nat := 75
def arpSeqPattern09 : Nat := 76
def arpSeqPattern10 : Nat := 77
def arpSeqPattern11 : Nat := 78
def arpSeqPattern12 : Nat := 79
def arpSeqPattern13 : Nat := 80
def arpSeqPattern14 : Nat := 81
def arpSeqPattern15 : Nat := 82
def arpSeqOctBoost00 : Nat := 83
def arpSeqOctBoost01 : Nat := 84
def arpSeqOctBoost02 : Nat := 85
def arpSeqOctBoost03 : Nat := 86
def arpSeqOctBoost04 : Nat := 87
def arpSeqOctBoost05 : Nat := 88
def arpSeqOctBoost06 : Nat := 89
def arpSeqOctBoost07 : Nat := 90
def arpSeqOctBoost08 : Nat := 91
def arpSeqOctBoost09 : Nat := 92
def arpSeqOctBoost10 : Nat := 93
def arpSeqOctBoost11 : Nat := 94
def arpSeqOctBoost12 : Nat := 95
def arpSeqOctBoost13 : Nat := 96
def arpSeqOctBoost14 : Nat := 97
def arpSeqOctBoost15 : Nat := 98
def arpSeqNoteOn00 : Nat := 99
def arpSeqNoteOn01 : Nat := 100
def arpSeqNoteOn02 : Nat := 101
def arpSeqNoteOn03 : Nat := 102
def arpSeqNoteOn04 : Nat := 103
def arpSeqNoteOn05 : Nat := 104
def arpSeqNoteOn06 : Nat := 105
def arpSeqNoteOn07 : Nat := 106
def arpSeqNoteOn08 : Nat := 107
def arpSeqNoteOn09 : Nat := 108
def arpSeqNoteOn10 : Nat := 109
def arpSeqNoteOn11 : Nat := 110
def arpSeqNoteOn12 : Nat := 111
def arpSeqNoteOn13 : Nat := 112
def arpSeqNoteOn14 : Nat := 113
def arpSeqNoteOn15 : Nat := 114
def filterType : Nat := 115
def phaserMix : Nat := 116
def phaserRate : Nat := 117
def phaserFeedback : Nat := 118
def phaserNotchWidth : Nat := 119
def monoIsLegato : Nat := 120
def AKSynthOneParameterCount : Nat := 121
end AKSynthOneParameter

open AKSynthOneParameter

/-- The table `aks1p` (min, default, max and preset key of every parameter). -/
def aks1p : List AKS1Param := [
  AKS1Param.mk index1 0 0 1 "index1",
  AKS1Param.mk index2 0 0 1 "index2",
  AKS1Param.mk morphBalance 0 0.5 1 "morphBalance",
  AKS1Param.mk morph1SemitoneOffset (-12) 0 12 "morph1SemitoneOffset",
  AKS1Param.mk morph2SemitoneOffset (-12) 0 12 "morph2SemitoneOffset",
  AKS1Param.mk morph1Volume 0 0.8 1 "morph1Volume",
  AKS1Param.mk morph2Volume 0 0.8 1 "morph2Volume",
  AKS1Param.mk subVolume 0 0 1 "subVolume",
  AKS1Param.mk subOctaveDown 0 0 1 "subOctaveDown",
  AKS1Param.mk subIsSquare 0 0 1 "subIsSquare",
  AKS1Param.mk fmVolume 0 0 1 "fmVolume",
  AKS1Param.mk fmAmount 0 0 15 "fmAmount",
  AKS1Param.mk noiseVolume 0 0 0.25 "noiseVolume",
  AKS1Param.mk lfo1Index 0 0 3 "lfo1Index",
  AKS1Param.mk lfo1Amplitude 0 0 1 "lfo1Amplitude",
  AKS1Param.mk lfo1Rate 0 0.25 10 "lfo1Rate",
  AKS1Param.mk cutoff 256 2000 28000 "cutoff",
  AKS1Param.mk resonance 0 0.1 0.75 "resonance",
  AKS1Param.mk filterMix 0 1 1 "filterMix",
  AKS1Param.mk filterADSRMix 0 0 1.2 "filterADSRMix",
  AKS1Param.mk isMono 0 0 1 "isMono",
  AKS1Param.mk glide 0 0 0.2 "glide",
  AKS1Param.mk filterAttackDuration 0.0005 0.05 2 "filterAttackDuration",
  AKS1Param.mk filterDecayDuration 0.005 0.05 2 "filterDecayDuration",
  AKS1Param.mk filterSustainLevel 0 1 1 "filterSustainLevel",
  AKS1Param.mk filterReleaseDuration 0 0.5 2 "filterReleaseDuration",
  AKS1Param.mk attackDuration 0.0005 0.05 2 "attackDuration",
  AKS1Param.mk decayDuration 0 0.005 2 "decayDuration",
  AKS1Param.mk sustainLevel 0 0.8 1 "sustainLevel",
  AKS1Param.mk releaseDuration 0.004 0.05 2 "releaseDuration",
  AKS1Param.mk morph2Detuning (-4) 0 4 "morph2Detuning",
  AKS1Param.mk detuningMultiplier 1 1 2 "detuningMultiplier",
  AKS1Param.mk masterVolume 0 0.5 2 "masterVolume",
  AKS1Param.mk bitCrushDepth 1 24 24 "bitCrushDepth",
  AKS1Param.mk bitCrushSampleRate 4096 44100 44100 "bitCrushSampleRate",
  AKS1Param.mk autoPanAmount 0 0 1 "autoPanAmount",
  AKS1Param.mk autoPanFrequency 0 0.25 10 "autoPanFrequency",
  AKS1Param.mk reverbOn 0 1 1 "reverbOn",
  AKS1Param.mk reverbFeedback 0 0.5 1 "reverbFeedback",
  AKS1Param.mk reverbHighPass 80 700 900 "reverbHighPass",
  AKS1Param.mk reverbMix 0 0 1 "reverbMix",
  AKS1Param.mk delayOn 0 0 1 "delayOn",
  AKS1Param.mk delayFeedback 0 0.1 0.9 "delayFeedback",
  AKS1Param.mk delayTime 0.1 0.5 1.5 "delayTime",
  AKS1Param.mk delayMix 0 0.125 1 "delayMix",
  AKS1Param.mk lfo2Index 0 0 3 "lfo2Index",
  AKS1Param.mk lfo2Amplitude 0 0 1 "lfo2Amplitude",
  AKS1Param.mk lfo2Rate 0 0.25 10 "lfo2Rate",
  AKS1Param.mk cutoffLFO 0 0 2 "cutoffLFO",
  AKS1Param.mk resonanceLFO 0 0 2 "resonanceLFO",
  AKS1Param.mk oscMixLFO 0 0 2 "oscMixLFO",
  AKS1Param.mk sustainLFO 0 0 2 "sustainLFO",
  AKS1Param.mk decayLFO 0 0 2 "decayLFO",
  AKS1Param.mk noiseLFO 0 0 2 "noiseLFO",
  AKS1Param.mk fmLFO 0 0 2 "fmLFO",
  AKS1Param.mk detuneLFO 0 0 2 "detuneLFO",
  AKS1Param.mk filterEnvLFO 0 0 2 "filterEnvLFO",
  AKS1Param.mk pitchLFO 0 0 2 "pitchLFO",
  AKS1Param.mk bitcrushLFO 0 0 2 "bitcrushLFO",
  AKS1Param.mk autopanLFO 0 0 2 "autopanLFO",
  AKS1Param.mk arpDirection 0 1 2 "arpDirection",
  AKS1Param.mk arpInterval 0 12 12 "arpInterval",
  AKS1Param.mk arpIsOn 0 0 1 "arpIsOn",
  AKS1Param.mk arpOctave 0 1 3 "arpOctave",
  AKS1Param.mk arpRate 1 64 256 "arpRate",
  AKS1Param.mk arpIsSequencer 0 0 1 "arpIsSequencer",
  AKS1Param.mk arpTotalSteps 1 4 16 "arpTotalSteps",
  AKS1Param.mk arpSeqPattern00 (-24) 0 24 "arpSeqPattern00",
  AKS1Param.mk arpSeqPattern01 (-24) 0 24 "arpSeqPattern01",
  AKS1Param.mk arpSeqPattern02 (-24) 0 24 "arpSeqPattern02",
  AKS1Param.mk arpSeqPattern03 (-24) 0 24 "arpSeqPattern03",
  AKS1Param.mk arpSeqPattern04 (-24) 0 24 "arpSeqPattern04",
  AKS1Param.mk arpSeqPattern05 (-24) 0 24 "arpSeqPattern05",
  AKS1Param.mk arpSeqPattern06 (-24) 0 24 "arpSeqPattern06",
  AKS1Param.mk arpSeqPattern07 (-24) 0 24 "arpSeqPattern07",
  AKS1Param.mk arpSeqPattern08 (-24) 0 24 "arpSeqPattern08",
  AKS1Param.mk arpSeqPattern09 (-24) 0 24 "arpSeqPattern09",
  AKS1Param.mk arpSeqPattern10 (-24) 0 24 "arpSeqPattern10",
  AKS1Param.mk arpSeqPattern11 (-24) 0 24 "arpSeqPattern11",
  AKS1Param.mk arpSeqPattern12 (-24) 0 24 "arpSeqPattern12",
  AKS1Param.mk arpSeqPattern13 (-24) 0 24 "arpSeqPattern13",
  AKS1Param.mk arpSeqPattern14 (-24) 0 24 "arpSeqPattern14",
  AKS1Param.mk arpSeqPattern15 (-24) 0 24 "arpSeqPattern15",
  AKS1Param.mk arpSeqOctBoost00 0 0 1 "arpSeqOctBoost00",
  AKS1Param.mk arpSeqOctBoost01 0 0 1 "arpSeqOctBoost01",
  AKS1Param.mk arpSeqOctBoost02 0 0 1 "arpSeqOctBoost02",
  AKS1Param.mk arpSeqOctBoost03 0 0 1 "arpSeqOctBoost03",
  AKS1Param.mk arpSeqOctBoost04 0 0 1 "arpSeqOctBoost04",
  AKS1Param.mk arpSeqOctBoost05 0 0 1 "arpSeqOctBoost05",
  AKS1Param.mk arpSeqOctBoost06 0 0 1 "arpSeqOctBoost06",
  AKS1Param.mk arpSeqOctBoost07 0 0 1 "arpSeqOctBoost07",
  AKS1Param.mk arpSeqOctBoost08 0 0 1 "arpSeqOctBoost08",
  AKS1Param.mk arpSeqOctBoost09 0 0 1 "arpSeqOctBoost09",
  AKS1Param.mk arpSeqOctBoost10 0 0 1 "arpSeqOctBoost10",
  AKS1Param.mk arpSeqOctBoost11 0 0 1 "arpSeqOctBoost11",
  AKS1Param.mk arpSeqOctBoost12 0 0 1 "arpSeqOctBoost12",
  AKS1Param.mk arpSeqOctBoost13 0 0 1 "arpSeqOctBoost13",
  AKS1Param.mk arpSeqOctBoost14 0 0 1 "arpSeqOctBoost14",
  AKS1Param.mk arpSeqOctBoost15 0 0 1 "arpSeqOctBoost15",
  AKS1Param.mk arpSeqNoteOn00 0 0 1 "arpSeqNoteOn00",
  AKS1Param.mk arpSeqNoteOn01 0 0 1 "arpSeqNoteOn01",
  AKS1Param.mk arpSeqNoteOn02 0 0 1 "arpSeqNoteOn02",
  AKS1Param.mk arpSeqNoteOn03 0 0 1 "arpSeqNoteOn03",
  AKS1Param.mk arpSeqNoteOn04 0 0 1 "arpSeqNoteOn04",
  AKS1Param.mk arpSeqNoteOn05 0 0 1 "arpSeqNoteOn05",
  AKS1Param.mk arpSeqNoteOn06 0 0 1 "arpSeqNoteOn06",
  AKS1Param.mk arpSeqNoteOn07 0 0 1 "arpSeqNoteOn07",
  AKS1Param.mk arpSeqNoteOn08 0 0 1 "arpSeqNoteOn08",
  AKS1Param.mk arpSeqNoteOn09 0 0 1 "arpSeqNoteOn09",
  AKS1Param.mk arpSeqNoteOn10 0 0 1 "arpSeqNoteOn10",
  AKS1Param.mk arpSeqNoteOn11 0 0 1 "arpSeqNoteOn11",
  AKS1Param.mk arpSeqNoteOn12 0 0 1 "arpSeqNoteOn12",
  AKS1Param.mk arpSeqNoteOn13 0 0 1 "arpSeqNoteOn13",
  AKS1Param.mk arpSeqNoteOn14 0 0 1 "arpSeqNoteOn14",
  AKS1Param.mk arpSeqNoteOn15 0 0 1 "arpSeqNoteOn15",
  AKS1Param.mk filterType 0 0 2 "filterType",
  AKS1Param.mk phaserMix 0 0 1 "phaserMix",
  AKS1Param.mk phaserRate 12 12 300 "phaserRate",
  AKS1Param.mk phaserFeedback 0 0.0 0.8 "phaserFeedback",
  AKS1Param.mk phaserNotchWidth 100 800 1000 "phaserNotchWidth",
  AKS1Param.mk monoIsLegato 0 0 1 "monoIsLegato"
]

/-- Row `i` of `aks1p`.  The index is an `AKSynthOneParameter`, so it is below
`AKSynthOneParameterCount` in the source; other indices read a zero row. -/
def aks1pAt (i : Nat) : AKS1Param := aks1p.getD i ⟨0, 0, 0, 0, ""⟩

/-- Embeds `parameterMin`. -/
def parameterMin (i : Nat) : ℚ := (aks1pAt i).min

/-- Embeds `parameterMax`. -/
def parameterMax (i : Nat) : ℚ := (aks1pAt i).max

/-- Embeds `parameterClamp`: `std::min(std::max(inputValue, paramMin), paramMax)`, on
the values that are not NaN.  The function on every `float`, NaN included, is
`parameterClampFloat` below. -/
def parameterClamp (i : Nat) (inputValue : ℚ) : ℚ :=
  let param := aks1pAt i
  let paramMin := param.min
  let paramMax := param.max
  let retVal := min (max inputValue paramMin) paramMax
  retVal

/-- Embeds `parameterDefault`. -/
def parameterDefault (i : Nat) : ℚ := parameterClamp i (aks1pAt i).defaultValue

/-! ## Voices -/

/-- Embeds `enum NoteStateStage`. -/
inductive NoteStateStage where
  | stageOff
  | stageOn
  | stageRelease
  deriving DecidableEq, Repr

open NoteStateStage

/-- Embeds `struct NoteState`, the state of one voice.  `adsr` and `fadsr` are the
states of the two envelope generators; of the oscillators only the fields the
kernel writes outside `run` are kept (`freq`, `amp`). -/
structure NoteState (A : Type) where
  stage : NoteStateStage
  internalGate : ℚ
  amp : ℚ
  filter : ℚ
  rootNoteNumber : Int
  adsr : A
  fadsr : A
  oscmorph1_freq : ℚ
  oscmorph1_amp : ℚ
  oscmorph2_freq : ℚ
  oscmorph2_amp : ℚ
  subOsc_freq : ℚ
  subOsc_amp : ℚ
  fmOsc_freq : ℚ
  fmOsc_amp : ℚ
  noise_amp : ℚ

/-- Embeds `struct SeqNoteNumber`, one step of the arp/seq pattern. -/
structure SeqNoteNumber where
  noteNumber : Int
  onOff : Int
  deriving DecidableEq, Repr

/-- The selectors the kernel posts to the main thread. -/
inductive Notification where
  | arpBeatCounterDidChange
  | playingNotesDidChange
  | heldNotesDidChange
  deriving DecidableEq, Repr

/-- The member variables of `AKSynthOneDSPKernel` that the control logic reads or
writes.  `noteStates` is the `malloc`ed array of `MAX_POLYPHONY` voices, seen as
a map from the index. -/
structure AKSynthOneDSPKernel (A : Type) where
  resetted : Bool
  arpBeatCounter : Int
  p : Nat → ℚ
  monoFrequency : ℚ
  lfo1 : ℚ
  lfo2 : ℚ
  noteStates : Int → NoteState A
  monoNote : NoteState A
  initializedNoteStates : Bool
  playingNoteStatesIndex : Int
  previousProcessMonoPolyStatus : ℚ
  arpSampleCounter : ℚ
  arpTime : ℚ
  notesPerOctave : Int
  arpSeqNotes : List SeqNoteNumber
  arpSeqNotes2 : List Int
  arpSeqLastNotes : List Int
  heldNoteNumbers : List Int
  messageQueue : List Notification

/-- The collaborators of the kernel that are not part of the header: the unit
generators of Soundpipe as far as the control logic sees them, `exp2` of the C
library and the tuning table's `npo`. -/
structure Env (A : Type) where
  /-- State of an envelope after `sp_adsr_create` and `sp_adsr_init`. -/
  sp_adsr_init : A
  /-- The call `sp_adsr_compute(sp, adsr, &gate, &out)`: new envelope state and `out`. -/
  sp_adsr_compute : A → ℚ → A × ℚ
  /-- The fields `freq` and `amp` left by `sp_osc_init`. -/
  sp_osc_init : ℚ × ℚ
  /-- The fields `freq` and `amp` left by `sp_fosc_init`. -/
  sp_fosc_init : ℚ × ℚ
  /-- The field `amp` left by `sp_noise_init`. -/
  sp_noise_init : ℚ
  /-- The envelope after `run` has assigned its fields `atk`, `dec`, `sus`, `rel`. -/
  sp_adsr_set : A → ℚ → ℚ → ℚ → ℚ → A
  /-- The function `exp2` of the C library. -/
  exp2 : ℚ → ℚ
  /-- The value of `AKPolyphonicNode.tuningTable.npo`. -/
  npo : Int

variable {A : Type}

/-- The constant member `polyphony`. -/
def polyphony : Int := MAX_POLYPHONY

/-- The constant member `maxArpSeqNotes`. -/
def maxArpSeqNotes : Nat := 1024

/-- Embeds `pow2`. -/
def pow2 (x : ℚ) : ℚ := x * x

/-- Embeds `noteToHz`: `440.f * exp2((noteNumber - 69.f)/12.f)`. -/
def noteToHz (env : Env A) (noteNumber : Int) : ℚ :=
  440 * env.exp2 (((noteNumber : ℚ) - 69) / 12)

/-! ## Parameter access -/

/-- Embeds `setAK1Parameter`. -/
def setAK1Parameter (k : AKSynthOneDSPKernel A) (param : Nat) (inputValue : ℚ) :
    AKSynthOneDSPKernel A :=
  let value := parameterClamp param inputValue
  if k.p param ≠ value then
    { k with p := Function.update k.p param value }
  else k

/-- Embeds `getAK1Parameter`. -/
def getAK1Parameter (k : AKSynthOneDSPKernel A) (param : Nat) : ℚ := k.p param

/-- Embeds `setParameters`: copies the first `AKSynthOneParameterCount` entries
of `params`. -/
def setParameters (k : AKSynthOneDSPKernel A) (params : Nat → ℚ) : AKSynthOneDSPKernel A :=
  { k with p := fun i => if i < AKSynthOneParameterCount then params i else k.p i }

/-- Embeds `setParameter`. -/
def setParameter (k : AKSynthOneDSPKernel A) (address : Nat) (value : ℚ) :
    AKSynthOneDSPKernel A :=
  let i := address
  let oldValue := k.p i
  let changed := oldValue ≠ value
  if changed then { k with p := Function.update k.p i value } else k

/-- Embeds `getParameter`. -/
def getParameter (k : AKSynthOneDSPKernel A) (address : Nat) : ℚ := k.p address

/-! ## Messages to the main thread -/

/-- Embeds `beatCounterDidChange`. -/
def beatCounterDidChange (k : AKSynthOneDSPKernel A) : AKSynthOneDSPKernel A :=
  { k with messageQueue := k.messageQueue ++ [Notification.arpBeatCounterDidChange] }

/-- Embeds `playingNotesDidChange`. -/
def playingNotesDidChange (k : AKSynthOneDSPKernel A) : AKSynthOneDSPKernel A :=
  { k with messageQueue := k.messageQueue ++ [Notification.playingNotesDidChange] }

/-- Embeds `heldNotesDidChange`. -/
def heldNotesDidChange (k : AKSynthOneDSPKernel A) : AKSynthOneDSPKernel A :=
  { k with messageQueue := k.messageQueue ++ [Notification.heldNotesDidChange] }

/-! ## `NoteState` member functions -/

/-- Embeds `NoteState::init`: creates the unit generators of the voice.  The
members `stage`, `internalGate`, `amp`, `filter` and `rootNoteNumber` are not
written. -/
def NoteState.init (env : Env A) (n : NoteState A) : NoteState A :=
  { n with
    adsr := env.sp_adsr_init
    fadsr := env.sp_adsr_init
    oscmorph1_freq := 0
    oscmorph1_amp := 0
    oscmorph2_freq := 0
    oscmorph2_amp := 0
    subOsc_freq := env.sp_osc_init.1
    subOsc_amp := env.sp_osc_init.2
    fmOsc_freq := env.sp_fosc_init.1
    fmOsc_amp := env.sp_fosc_init.2
    noise_amp := env.sp_noise_init }

/-- Embeds `NoteState::clear`. -/
def NoteState.clear (n : NoteState A) : NoteState A :=
  { n with internalGate := 0, stage := stageOff, amp := 0, rootNoteNumber := -1 }

/-- Embeds `NoteState::startNoteHelper`. -/
def NoteState.startNoteHelper (n : NoteState A) (noteNumber velocity : Int) (frequency : ℚ) :
    NoteState A :=
  let amplitude := pow2 ((velocity : ℚ) / 127)
  { n with
    oscmorph1_freq := frequency
    oscmorph2_freq := frequency
    subOsc_freq := frequency
    fmOsc_freq := frequency
    oscmorph1_amp := amplitude
    oscmorph2_amp := amplitude
    subOsc_amp := amplitude
    fmOsc_amp := amplitude
    noise_amp := amplitude
    stage := stageOn
    internalGate := 1
    rootNoteNumber := noteNumber }

/-- The release reset both in `turnOnKey` and in `turnOffKey`: gate to 0, stage to
release, then one `sp_adsr_compute` on each of the two envelopes. -/
def NoteState.releaseReset (env : Env A) (note : NoteState A) : NoteState A :=
  let note := { note with internalGate := 0 }
  let note := { note with stage := stageRelease }
  let r := env.sp_adsr_compute note.adsr note.internalGate
  let note := { note with adsr := r.1, amp := r.2 }
  let r := env.sp_adsr_compute note.fadsr note.internalGate
  { note with fadsr := r.1, filter := r.2 }

/-! ## Initialisation -/

/-- The values of `i` in `for (int i = 0; i < n; i++)`. -/
def loopIndices (n : Int) : List Int := (List.range n.toNat).map Int.ofNat

/-- The loop `for (int i = 0; i < MAX_POLYPHONY; i++) noteStates[i] = f(noteStates[i])`. -/
def forEachNoteState (f : NoteState A → NoteState A) (noteStates : Int → NoteState A) :
    Int → NoteState A :=
  fun i => if 0 ≤ i ∧ i < MAX_POLYPHONY then f (noteStates i) else noteStates i

/-- Embeds `init` together with the default member initialisers.  `malloc` is the
content of the freshly allocated voice array.  The unit generator pointers of
`monoNote` are unset until `NoteState::init`; they are shown as fresh envelopes
and zeros. -/
def init (env : Env A) (malloc : Int → NoteState A) : AKSynthOneDSPKernel A :=
  let p : Nat → ℚ := fun i => if i < AKSynthOneParameterCount then parameterDefault i else 0
  { resetted := false
    arpBeatCounter := 0
    p := p
    monoFrequency := 440 * env.exp2 (((60 : ℚ) - 69) / 12)
    lfo1 := 0
    lfo2 := 0
    noteStates := malloc
    monoNote :=
      { stage := stageOff, internalGate := 0, amp := 0, filter := 0, rootNoteNumber := 0
        adsr := env.sp_adsr_init, fadsr := env.sp_adsr_init
        oscmorph1_freq := 0, oscmorph1_amp := 0, oscmorph2_freq := 0, oscmorph2_amp := 0
        subOsc_freq := 0, subOsc_amp := 0, fmOsc_freq := 0, fmOsc_amp := 0, noise_amp := 0 }
    initializedNoteStates := false
    playingNoteStatesIndex := 0
    previousProcessMonoPolyStatus := p isMono
    arpSampleCounter := 0
    arpTime := 0
    notesPerOctave := 12
    arpSeqNotes := []
    arpSeqNotes2 := []
    arpSeqLastNotes := List.replicate maxArpSeqNotes 0
    heldNoteNumbers := []
    messageQueue := [] }

/-- Embeds `initializeNoteStates`. -/
def initializeNoteStates (env : Env A) (k : AKSynthOneDSPKernel A) : AKSynthOneDSPKernel A :=
  if k.initializedNoteStates = false then
    { k with
      initializedNoteStates := true
      noteStates := forEachNoteState
        (fun state => { state.init env with stage := stageOff, rootNoteNumber := -1 }) k.noteStates
      monoNote := { k.monoNote.init env with stage := stageOff, rootNoteNumber := -1 } }
  else k

/-! ## Note allocation -/

/-- The search loop shared by `turnOnKey` and `turnOffKey`:
`int index = -1; for (i < polyphony) if (noteStates[i].rootNoteNumber == noteNumber) { index = i; break; }`. -/
def indexOfNote (k : AKSynthOneDSPKernel A) (noteNumber : Int) : Int :=
  ((loopIndices polyphony).find?
    (fun i => decide ((k.noteStates i).rootNoteNumber = noteNumber))).getD (-1)

/-- The idle-slot loop of `turnOnKey`:
`for (i < polyphony) { modIndex = (playingNoteStatesIndex + i) % polyphony;
if (noteStates[modIndex].rootNoteNumber == -1) { index = modIndex; break; } }`,
entered with `index == -1`. -/
def indexOfIdle (k : AKSynthOneDSPKernel A) : Int :=
  (((loopIndices polyphony).map (fun i => (k.playingNoteStatesIndex + i).tmod polyphony)).find?
    (fun modIndex => decide ((k.noteStates modIndex).rootNoteNumber = -1))).getD (-1)

/-- Embeds `turnOnKey(int noteNumber, int velocity, float frequency)`. -/
def turnOnKey (env : Env A) (k : AKSynthOneDSPKernel A) (noteNumber velocity : Int)
    (frequency : ℚ) : AKSynthOneDSPKernel A :=
  if noteNumber < 0 ∨ noteNumber ≥ NUM_MIDI_NOTES then k
  else
    let k := initializeNoteStates env k
    let k :=
      if k.p isMono = 1 then
        let k := { k with monoFrequency := frequency }
        let note := k.monoNote
        let note := if k.p monoIsLegato = 0 then note.releaseReset env else note
        { k with monoNote := note.startNoteHelper noteNumber velocity frequency }
      else
        let index := indexOfNote k noteNumber
        let k :=
          if index ≠ -1 then { k with playingNoteStatesIndex := index }
          else
            let index := indexOfIdle k
            if index = -1 then
              { k with playingNoteStatesIndex := (k.playingNoteStatesIndex + 1).tmod polyphony }
            else { k with playingNoteStatesIndex := index }
        let note := k.noteStates k.playingNoteStatesIndex
        let note := note.startNoteHelper noteNumber velocity frequency
        { k with noteStates := Function.update k.noteStates k.playingNoteStatesIndex note }
    playingNotesDidChange (heldNotesDidChange k)

/-- Embeds `turnOnKey(int noteNumber, int velocity)`. -/
def turnOnKey2 (env : Env A) (k : AKSynthOneDSPKernel A) (noteNumber velocity : Int) :
    AKSynthOneDSPKernel A :=
  if noteNumber < 0 ∨ noteNumber ≥ NUM_MIDI_NOTES then k
  else
    let frequency := noteToHz env noteNumber
    turnOnKey env k noteNumber velocity frequency

/-- Embeds `turnOffKey`. -/
def turnOffKey (env : Env A) (k : AKSynthOneDSPKernel A) (noteNumber : Int) :
    AKSynthOneDSPKernel A :=
  if noteNumber < 0 ∨ noteNumber ≥ NUM_MIDI_NOTES then k
  else
    let k := initializeNoteStates env k
    let k :=
      if k.p isMono = 1 then
        if k.heldNoteNumbers.length = 0 ∨ k.p arpIsOn = 1 then
          { k with monoNote := { k.monoNote with stage := stageRelease, internalGate := 0 } }
        else
          let headNN := k.heldNoteNumbers.headD 0
          let k := { k with monoFrequency := noteToHz env headNN }
          let note := { k.monoNote with rootNoteNumber := headNN }
          let k := { k with monoFrequency := noteToHz env headNN }
          let note := { note with
            oscmorph1_freq := k.monoFrequency
            oscmorph2_freq := k.monoFrequency
            subOsc_freq := k.monoFrequency
            fmOsc_freq := k.monoFrequency }
          let note := if k.p monoIsLegato = 0 then note.releaseReset env else note
          { k with monoNote := { note with stage := stageOn, internalGate := 1 } }
      else
        let index := indexOfNote k noteNumber
        if index ≠ -1 then
          let note := k.noteStates index
          let note := { note with stage := stageRelease, internalGate := 0 }
          { k with noteStates := Function.update k.noteStates index note }
        else k
    playingNotesDidChange (heldNotesDidChange k)

/-! ## Note entry points -/

/-- Embeds `startNote(int noteNumber, int velocity, float frequency)`.  The two
messages to `heldNoteNumbers` are `removeObject:` (every occurrence) and
`insertObject:atIndex:0`. -/
def startNote (env : Env A) (k : AKSynthOneDSPKernel A) (noteNumber velocity : Int)
    (frequency : ℚ) : AKSynthOneDSPKernel A :=
  if noteNumber < 0 ∨ noteNumber ≥ NUM_MIDI_NOTES then k
  else
    let k := { k with heldNoteNumbers := k.heldNoteNumbers.filter (fun n => n ≠ noteNumber) }
    let k := { k with heldNoteNumbers := noteNumber :: k.heldNoteNumbers }
    if k.p arpIsOn = 1 then k
    else turnOnKey env k noteNumber velocity frequency

/-- Embeds `startNote(int noteNumber, int velocity)`. -/
def startNote2 (env : Env A) (k : AKSynthOneDSPKernel A) (noteNumber velocity : Int) :
    AKSynthOneDSPKernel A :=
  if noteNumber < 0 ∨ noteNumber ≥ NUM_MIDI_NOTES then k
  else
    let frequency := noteToHz env noteNumber
    startNote env k noteNumber velocity frequency

/-- Embeds `stopNote`. -/
def stopNote (env : Env A) (k : AKSynthOneDSPKernel A) (noteNumber : Int) :
    AKSynthOneDSPKernel A :=
  if noteNumber < 0 ∨ noteNumber ≥ NUM_MIDI_NOTES then k
  else
    let k := { k with heldNoteNumbers := k.heldNoteNumbers.filter (fun n => n ≠ noteNumber) }
    if k.p arpIsOn = 1 then k
    else turnOffKey env k noteNumber

/-- Embeds `reset`. -/
def reset (k : AKSynthOneDSPKernel A) : AKSynthOneDSPKernel A :=
  let k := { k with noteStates := forEachNoteState NoteState.clear k.noteStates }
  let k := { k with monoNote := k.monoNote.clear }
  { k with resetted := true }

/-- Embeds `resetDSP`. -/
def resetDSP (k : AKSynthOneDSPKernel A) : AKSynthOneDSPKernel A :=
  let k := { k with heldNoteNumbers := [] }
  let k := { k with arpSeqLastNotes := [], arpSeqNotes := [], arpSeqNotes2 := [] }
  let k := { k with arpBeatCounter := 0 }
  let k := { k with p := Function.update k.p arpIsOn 0 }
  let k := { k with monoNote := k.monoNote.clear }
  { k with noteStates := forEachNoteState NoteState.clear k.noteStates }

/-- Embeds `stopAllNotes`. -/
def stopAllNotes (env : Env A) (k : AKSynthOneDSPKernel A) : AKSynthOneDSPKernel A :=
  let k := { k with heldNoteNumbers := [] }
  if k.p isMono = 1 then stopNote env k 60
  else (loopIndices NUM_MIDI_NOTES).foldl (fun k i => stopNote env k i) k

/-! ## The render callback `process`

The control part of `process` is embedded in full: the per-buffer preamble that
retires released voices, and for every frame the mono/poly switch, the arp/seq
scheduler and the envelope generators of the voices that are rendered.  The
oscillators, filters and the effects chain write the output buffers and their
own unit generators only, and are left out.  The values that the two LFO
phasors leave in `lfo1` and `lfo2` in a frame are an input of the frame. -/

/-- Conversion of a `float` to `int`: truncation toward zero. -/
def toInt (x : ℚ) : Int := if 0 ≤ x then ⌊x⌋ else ⌈x⌉

/-- The function `fmod` of the C library on finite arguments. -/
def fmod (x y : ℚ) : ℚ := x - y * (toInt (x / y) : ℚ)

/-- The test `stage == stageRelease && amp < RELEASE_AMPLITUDE_THRESHOLD`. -/
def NoteState.isReleased (note : NoteState A) : Bool :=
  decide (note.stage = stageRelease ∧ note.amp < RELEASE_AMPLITUDE_THRESHOLD)

/-- The block of `process` commented "transition playing notes from release to
off". -/
def transitionToOff (k : AKSynthOneDSPKernel A) : AKSynthOneDSPKernel A :=
  if k.p isMono = 1 then
    if k.monoNote.isReleased then
      let k := { k with monoNote := k.monoNote.clear }
      playingNotesDidChange k
    else k
  else
    let transitionedToOff := (loopIndices polyphony).any (fun i => (k.noteStates i).isReleased)
    let k := { k with noteStates := fun i =>
      if 0 ≤ i ∧ i < polyphony ∧ (k.noteStates i).isReleased then (k.noteStates i).clear
      else k.noteStates i }
    if transitionedToOff then playingNotesDidChange k else k

/-- The statements of `vector::insert(begin() + index, x)`. -/
def vectorInsert {α : Type} (v : List α) (index : Nat) (x : α) : List α := v.insertIdx index x

/-- The doubly nested loop of "ARP Up": appends at `index` the notes
`arpSeqNotes2[i] + octave * arpIntervalUp`, octaves ascending, notes ascending. -/
def arpUp (arpSeqNotes2 : List Int) (arpOctaves arpIntervalUp : Int)
    (acc : List SeqNoteNumber × Nat) : List SeqNoteNumber × Nat :=
  (loopIndices arpOctaves).foldl (fun acc octave =>
    (loopIndices arpSeqNotes2.length).foldl (fun acc i =>
      let nn := arpSeqNotes2.getD i.toNat 0 + octave * arpIntervalUp
      (vectorInsert acc.1 acc.2 ⟨nn, 1⟩, acc.2 + 1)) acc) acc

/-- The doubly nested loop of "ARP Down" (`skipEnds = false`) and of "down, minus
head and tail" (`skipEnds = true`): octaves descending, notes descending. -/
def arpDown (skipEnds : Bool) (arpSeqNotes2 : List Int) (arpOctaves arpIntervalUp : Int)
    (acc : List SeqNoteNumber × Nat) : List SeqNoteNumber × Nat :=
  let heldNotesCount : Int := arpSeqNotes2.length
  (loopIndices arpOctaves).reverse.foldl (fun acc octave =>
    (loopIndices heldNotesCount).reverse.foldl (fun acc i =>
      let firstNote := decide (i = heldNotesCount - 1 ∧ octave = arpOctaves - 1)
      let lastNote := decide (i = 0 ∧ octave = 0)
      if skipEnds && (firstNote || lastNote) then acc
      else
        let nn := arpSeqNotes2.getD i.toNat 0 + octave * arpIntervalUp
        (vectorInsert acc.1 acc.2 ⟨nn, 1⟩, acc.2 + 1)) acc) acc

/-- The sequencer loop of the rebuild: one step per `i < numSteps`, pushed at the
back of the cleared `arpSeqNotes`. -/
def sequencerPattern (p : Nat → ℚ) (notesPerOctave : Int) : List SeqNoteNumber :=
  let npof : ℚ := (notesPerOctave : ℚ) / 12
  let numSteps : Int := if p arpTotalSteps > 16 then 16 else toInt (p arpTotalSteps)
  (loopIndices numSteps).foldl (fun arpSeqNotes i =>
    let onOff := p (i.toNat + arpSeqNoteOn00)
    let octBoost := toInt (p (i.toNat + arpSeqOctBoost00))
    let nn := toInt (p (i.toNat + arpSeqPattern00) * npof)
    let nnob := if nn < 0 then nn - octBoost * notesPerOctave else nn + octBoost * notesPerOctave
    arpSeqNotes ++ [⟨nnob, toInt onOff⟩]) []

/-- The loop commented "reverse": every held note is inserted at the front of the
cleared `arpSeqNotes2`. -/
def reversedHeldNotes (heldNoteNumbers : List Int) : List Int :=
  heldNoteNumbers.foldl (fun arpSeqNotes2 note => vectorInsert arpSeqNotes2 0 note) []

/-- The three direction branches of the rebuild, starting from the cleared
`arpSeqNotes`. -/
def arpeggiatorPattern (p : Nat → ℚ) (notesPerOctave : Int) (arpSeqNotes2 : List Int) :
    List SeqNoteNumber :=
  let npof : ℚ := (notesPerOctave : ℚ) / 12
  let arpIntervalUp := toInt (p arpInterval * npof)
  let arpOctaves := toInt (p arpOctave) + 1
  if p arpDirection = 0 then
    (arpUp arpSeqNotes2 arpOctaves arpIntervalUp ([], 0)).1
  else if p arpDirection = 1 then
    let up := arpUp arpSeqNotes2 arpOctaves arpIntervalUp ([], 0)
    (arpDown true arpSeqNotes2 arpOctaves arpIntervalUp up).1
  else if p arpDirection = 2 then
    (arpDown false arpSeqNotes2 arpOctaves arpIntervalUp ([], 0)).1
  else []

/-- The block "NEW beatCounter: Create Arp/Seq array based on held notes and/or
sequence parameters", entered when `p[arpIsOn] == 1`. -/
def arpSeqRebuild (env : Env A) (k : AKSynthOneDSPKernel A) : AKSynthOneDSPKernel A :=
  let notesPerOctave := if env.npo ≤ 0 then 12 else env.npo
  if k.p arpIsSequencer = 1 then
    { k with
      notesPerOctave := notesPerOctave
      arpSeqNotes2 := []
      arpSeqNotes := sequencerPattern k.p notesPerOctave }
  else
    { k with
      notesPerOctave := notesPerOctave
      arpSeqNotes2 := reversedHeldNotes k.heldNoteNumbers
      arpSeqNotes := arpeggiatorPattern k.p notesPerOctave (reversedHeldNotes k.heldNoteNumbers) }

/-- The statements `turnOnKey(note, 127); arpSeqLastNotes.push_back(note);` under
their guard `note >= 0 && note < NUM_MIDI_NOTES`. -/
def arpSeqTurnOn (env : Env A) (k : AKSynthOneDSPKernel A) (note : Int) : AKSynthOneDSPKernel A :=
  if note ≥ 0 ∧ note < NUM_MIDI_NOTES then
    let k := turnOnKey2 env k note 127
    { k with arpSeqLastNotes := k.arpSeqLastNotes ++ [note] }
  else k

/-- The block "turnOn the note of the sequence" with the advance of the beat
counter before it. -/
def arpSeqFire (env : Env A) (k : AKSynthOneDSPKernel A) : AKSynthOneDSPKernel A :=
  let seqNotePosition := k.arpBeatCounter.tmod k.arpSeqNotes.length
  let k := { k with arpBeatCounter := k.arpBeatCounter + 1 }
  let k := beatCounterDidChange k
  let snn := k.arpSeqNotes.getD seqNotePosition.toNat ⟨0, 0⟩
  if k.p arpIsSequencer = 1 then
    if snn.onOff = 1 then
      k.heldNoteNumbers.foldl (fun k baseNote => arpSeqTurnOn env k (baseNote + snn.noteNumber)) k
    else k
  else arpSeqTurnOn env k snn.noteNumber

/-- The blocks "turnOff previous beat's notes" and "Remove last played notes". -/
def arpSeqTurnOffLastNotes (env : Env A) (k : AKSynthOneDSPKernel A) : AKSynthOneDSPKernel A :=
  let k := k.arpSeqLastNotes.foldl (fun k note => turnOffKey env k note) k
  { k with arpSeqLastNotes := [] }

/-- The two "NOP" guards of a beat and, past them, the firing of the current step.
The flag is true when the frame ends with `continue`. -/
def arpSeqStep (env : Env A) (k : AKSynthOneDSPKernel A) : AKSynthOneDSPKernel A × Bool :=
  if k.heldNoteNumbers.length = 0 then
    if k.arpBeatCounter > 0 then
      (beatCounterDidChange { k with arpBeatCounter := 0 }, true)
    else (k, true)
  else if k.arpSeqNotes.length = 0 then (k, true)
  else (arpSeqFire env k, false)

/-- The body of `if (r1 < r0 || oldArpTime >= arpTime)`: what happens on a beat
boundary. -/
def arpSeqBeat (env : Env A) (k : AKSynthOneDSPKernel A) : AKSynthOneDSPKernel A × Bool :=
  let k := if k.p arpIsOn = 1 then arpSeqRebuild env k else k
  let k := arpSeqTurnOffLastNotes env k
  arpSeqStep env k

/-- The block `//MARK: ARP/SEQ` of one frame. -/
def arpSeq (env : Env A) (secPerBeat : ℚ) (k : AKSynthOneDSPKernel A) :
    AKSynthOneDSPKernel A × Bool :=
  if k.p arpIsOn = 1 ∨ k.arpSeqLastNotes.length ≠ 0 then
    let oldArpTime := k.arpTime
    let r0 := fmod oldArpTime secPerBeat
    let k := { k with arpTime := k.arpSampleCounter / SAMPLE_RATE }
    let r1 := fmod k.arpTime secPerBeat
    let k := { k with arpSampleCounter := k.arpSampleCounter + 1 }
    if r1 < r0 ∨ oldArpTime ≥ k.arpTime then arpSeqBeat env k else (k, false)
  else (k, false)

/-- The two envelope generators in `NoteState::run`: the ADSR fields are set from
the parameters and the LFOs, then each envelope computes one sample. -/
def NoteState.run (env : Env A) (k : AKSynthOneDSPKernel A) (note : NoteState A) : NoteState A :=
  let lfo1_0_1 := (1 / 2) * (1 + k.lfo1) * k.p lfo1Amplitude
  let lfo2_0_1 := (1 / 2) * (1 + k.lfo2) * k.p lfo2Amplitude
  let dec := k.p decayDuration
  let dec := if k.p decayLFO = 1 then dec * lfo1_0_1
    else if k.p decayLFO = 2 then dec * lfo2_0_1 else dec
  let dec := parameterClamp decayDuration dec
  let sus := k.p sustainLevel
  let sus := if k.p sustainLFO = 1 then sus * lfo1_0_1
    else if k.p sustainLFO = 2 then sus * lfo2_0_1 else sus
  let sus := parameterClamp sustainLevel sus
  let adsr := env.sp_adsr_set note.adsr (k.p attackDuration) dec sus (k.p releaseDuration)
  let fadsr := env.sp_adsr_set note.fadsr (k.p filterAttackDuration) (k.p filterDecayDuration)
    (k.p filterSustainLevel) (k.p filterReleaseDuration)
  let r := env.sp_adsr_compute adsr note.internalGate
  let note := { note with adsr := r.1, amp := r.2 }
  let r := env.sp_adsr_compute fadsr note.internalGate
  { note with fadsr := r.1, filter := r.2 }

/-- The test guarding `run` in the render loop. -/
def NoteState.isRendered (note : NoteState A) : Bool :=
  decide (note.rootNoteNumber ≠ -1 ∧ note.stage ≠ stageOff)

/-- The block "RENDER NoteState into (outL, outR)" of one frame. -/
def renderNoteStates (env : Env A) (k : AKSynthOneDSPKernel A) : AKSynthOneDSPKernel A :=
  if k.p isMono = 1 then
    if k.monoNote.isRendered then { k with monoNote := k.monoNote.run env k } else k
  else
    { k with noteStates := fun i =>
      if 0 ≤ i ∧ i < polyphony ∧ (k.noteStates i).isRendered then (k.noteStates i).run env k
      else k.noteStates i }

/-- The block "Clear all notes when changing Mono <==> Poly" of one frame. -/
def monoPolySwitch (k : AKSynthOneDSPKernel A) : AKSynthOneDSPKernel A :=
  if k.p isMono ≠ k.previousProcessMonoPolyStatus then
    let k := { k with previousProcessMonoPolyStatus := k.p isMono }
    let k := reset k
    { k with arpSeqLastNotes := [] }
  else k

/-- One iteration of the render loop.  `lfo` holds the values of `lfo1` and `lfo2`
after the two LFO blocks of this frame. -/
def processFrame (env : Env A) (secPerBeat : ℚ) (k : AKSynthOneDSPKernel A) (lfo : ℚ × ℚ) :
    AKSynthOneDSPKernel A :=
  let k := monoPolySwitch k
  let r := arpSeq env secPerBeat k
  if r.2 then r.1
  else
    let k := r.1
    let k := { k with lfo1 := lfo.1, lfo2 := lfo.2 }
    renderNoteStates env k

/-- Embeds `process`: the preamble, then `frameCount` frames. -/
def process (env : Env A) (k : AKSynthOneDSPKernel A) (frameCount : Nat) (lfo : Nat → ℚ × ℚ) :
    AKSynthOneDSPKernel A :=
  let k := initializeNoteStates env k
  let k := transitionToOff k
  let arpTempo := k.p arpRate
  let secPerBeat : ℚ := (1 / 2) * (1 / 2) * 60 / arpTempo
  (List.range frameCount).foldl (fun k frameIndex => processFrame env secPerBeat k (lfo frameIndex)) k

/-! ## MIDI -/

/-- The fields of `AUMIDIEvent` that `handleMIDIEvent` reads. -/
structure AUMIDIEvent where
  length : Nat
  data0 : Nat
  data1 : Nat
  data2 : Nat

/-- Embeds `handleMIDIEvent`.  The data bytes are `uint8_t`. -/
def handleMIDIEvent (env : Env A) (k : AKSynthOneDSPKernel A) (midiEvent : AUMIDIEvent) :
    AKSynthOneDSPKernel A :=
  if midiEvent.length ≠ 3 then k
  else
    let status := midiEvent.data0 % 256 &&& 0xF0
    if status = 0x80 then
      let note := midiEvent.data1 % 256
      if note > 127 then k else stopNote env k note
    else if status = 0x90 then
      let note := midiEvent.data1 % 256
      let veloc := midiEvent.data2 % 256
      if note > 127 ∨ veloc > 127 then k else startNote2 env k note veloc
    else if status = 0xB0 then
      let num := midiEvent.data1 % 256
      if num = 123 then stopAllNotes env k else k
    else k

/-! ## Reachable states -/

/-- One call of a member function of the kernel by the control thread or by the
audio thread. -/
inductive Step (env : Env A) : AKSynthOneDSPKernel A → AKSynthOneDSPKernel A → Prop where
  | turnOnKey (k noteNumber velocity frequency) :
      Step env k (turnOnKey env k noteNumber velocity frequency)
  | turnOnKey2 (k noteNumber velocity) : Step env k (turnOnKey2 env k noteNumber velocity)
  | turnOffKey (k noteNumber) : Step env k (turnOffKey env k noteNumber)
  | startNote (k noteNumber velocity frequency) :
      Step env k (startNote env k noteNumber velocity frequency)
  | startNote2 (k noteNumber velocity) : Step env k (startNote2 env k noteNumber velocity)
  | stopNote (k noteNumber) : Step env k (stopNote env k noteNumber)
  | stopAllNotes (k) : Step env k (stopAllNotes env k)
  | handleMIDIEvent (k midiEvent) : Step env k (handleMIDIEvent env k midiEvent)
  | reset (k) : Step env k (reset k)
  | resetDSP (k) : Step env k (resetDSP k)
  | setAK1Parameter (k param inputValue) (h : param < AKSynthOneParameterCount) :
      Step env k (setAK1Parameter k param inputValue)
  | setParameter (k address value) (h : address < AKSynthOneParameterCount) :
      Step env k (setParameter k address value)
  | setParameters (k params) : Step env k (setParameters k params)
  | process (k frameCount lfo) : Step env k (process env k frameCount lfo)

/-- The states reachable from `k₀` by calls of the member functions. -/
def Reachable (env : Env A) (k₀ k : AKSynthOneDSPKernel A) : Prop :=
  Relation.ReflTransGen (Step env) k₀ k

/-- The engine after `init` and the first `initializeNoteStates`. -/
def initialised (env : Env A) (malloc : Int → NoteState A) : AKSynthOneDSPKernel A :=
  initializeNoteStates env (init env malloc)

/-! ## A concrete environment

Used to evaluate the embedding on concrete inputs: the envelope state is its
level, which moves halfway to the gate on every sample; `exp2` is the Taylor
polynomial of degree 8 of `exp (x * ln 2)` with `ln 2` rounded to six places. -/

/-- A rational stand-in for `exp2`. -/
def exp2Poly (x : ℚ) : ℚ :=
  let y := x * 0.693147
  1 + y + y ^ 2 / 2 + y ^ 3 / 6 + y ^ 4 / 24 + y ^ 5 / 120 + y ^ 6 / 720 + y ^ 7 / 5040
    + y ^ 8 / 40320

/-- The concrete environment. -/
def testEnv : Env ℚ where
  sp_adsr_init := 0
  sp_adsr_compute := fun a gate => ((a + gate) / 2, (a + gate) / 2)
  sp_osc_init := (440, 0.2)
  sp_fosc_init := (440, 0.4)
  sp_noise_init := 1
  sp_adsr_set := fun a _ _ _ _ => a
  exp2 := exp2Poly
  npo := 12

/-- A voice array with every field zero, standing for freshly allocated memory. -/
def zeroMalloc : Int → NoteState ℚ := fun _ =>
  { stage := stageOff, internalGate := 0, amp := 0, filter := 0, rootNoteNumber := 0
    adsr := 0, fadsr := 0
    oscmorph1_freq := 0, oscmorph1_amp := 0, oscmorph2_freq := 0, oscmorph2_amp := 0
    subOsc_freq := 0, subOsc_amp := 0, fmOsc_freq := 0, fmOsc_amp := 0, noise_amp := 0 }

/-- The concrete engine right after initialisation. -/
def testKernel : AKSynthOneDSPKernel ℚ := initialised testEnv zeroMalloc

/-! ## Invariants of the voice pool -/

/-- The two states have the same voices: the same pool, mono voice, assignment
index and initialisation flag. -/
def SameVoices (k k' : AKSynthOneDSPKernel A) : Prop :=
  k'.noteStates = k.noteStates ∧ k'.monoNote = k.monoNote
    ∧ k'.playingNoteStatesIndex = k.playingNoteStatesIndex
    ∧ k'.initializedNoteStates = k.initializedNoteStates

/-- A property of the voices that the operations on voices preserve.  With `modal`
the property may also depend on `p[isMono]`. -/
structure VoiceInvariant (env : Env A) (modal : Prop) (P : AKSynthOneDSPKernel A → Prop) :
    Prop where
  frame : ∀ k k', SameVoices k k' → (modal → k'.p isMono = k.p isMono) → P k → P k'
  initializeNoteStates : ∀ k, P k → P (initializeNoteStates env k)
  turnOnKey : ∀ k noteNumber velocity frequency, P k →
    P (turnOnKey env k noteNumber velocity frequency)
  turnOffKey : ∀ k noteNumber, P k → P (turnOffKey env k noteNumber)
  reset : ∀ k, P k → P (reset k)
  transitionToOff : ∀ k, P k → P (transitionToOff k)
  renderNoteStates : ∀ k, P k → P (renderNoteStates env k)

/-- No two voices of the pool hold the same note: voices with equal
`rootNoteNumber` other than `-1` are the same voice. -/
def NoDuplicateNotes (k : AKSynthOneDSPKernel A) : Prop :=
  ∀ i j : Int, 0 ≤ i → i < polyphony → 0 ≤ j → j < polyphony →
    (k.noteStates i).rootNoteNumber = (k.noteStates j).rootNoteNumber →
    (k.noteStates i).rootNoteNumber ≠ -1 → i = j

/-- The number of voices of the pool that hold `noteNumber`. -/
def voicesHolding (k : AKSynthOneDSPKernel A) (noteNumber : Int) : Nat :=
  ((loopIndices polyphony).filter
    (fun i => decide ((k.noteStates i).rootNoteNumber = noteNumber))).length

/-- The invariant of the voice pool: the voices are initialised, the assignment
index is a valid index, and no note is held twice. -/
def PoolInvariant (k : AKSynthOneDSPKernel A) : Prop :=
  k.initializedNoteStates = true
    ∧ 0 ≤ k.playingNoteStatesIndex ∧ k.playingNoteStatesIndex < polyphony
    ∧ NoDuplicateNotes k

/-- The voice that the poly branch of `turnOnKey` selects for `noteNumber`: the
value of `playingNoteStatesIndex` when `startNoteHelper` is called. -/
def selectedVoice (k : AKSynthOneDSPKernel A) (noteNumber : Int) : Int :=
  let index := indexOfNote k noteNumber
  if index ≠ -1 then index
  else
    let index := indexOfIdle k
    if index = -1 then (k.playingNoteStatesIndex + 1).tmod polyphony else index

/-- The number of voices, the six of the pool and the mono voice, whose stage is
not `stageOff`. -/
def voicesNotOff (k : AKSynthOneDSPKernel A) : Nat :=
  ((loopIndices polyphony).filter (fun i => decide ((k.noteStates i).stage ≠ stageOff))).length
    + (if k.monoNote.stage ≠ stageOff then 1 else 0)

/-- The voices that the current mode does not use are off: the pool in mono mode,
the mono voice in poly mode. -/
def ModeInvariant (k : AKSynthOneDSPKernel A) : Prop :=
  k.initializedNoteStates = true
    ∧ (k.p isMono = 1 → ∀ i : Int, 0 ≤ i → i < polyphony → (k.noteStates i).stage = stageOff)
    ∧ (k.p isMono ≠ 1 → k.monoNote.stage = stageOff)

/-- The states reachable from `k₀` by calls that leave `p[isMono]` as it is. -/
def ReachableInMode (env : Env A) (k₀ k : AKSynthOneDSPKernel A) : Prop :=
  Relation.ReflTransGen (fun a b => Step env a b ∧ b.p isMono = a.p isMono) k₀ k

/-- Six notes pressed on the initialised poly engine, `p[isMono]` written to 1,
one more note pressed. -/
def sevenVoices : AKSynthOneDSPKernel ℚ :=
  let k := turnOnKey2 testEnv testKernel 60 127
  let k := turnOnKey2 testEnv k 62 127
  let k := turnOnKey2 testEnv k 64 127
  let k := turnOnKey2 testEnv k 65 127
  let k := turnOnKey2 testEnv k 67 127
  let k := turnOnKey2 testEnv k 69 127
  let k := setAK1Parameter k isMono 1
  turnOnKey2 testEnv k 71 127

/-- The notes held by the six voices of the pool, in the order of the voices. -/
def rootNoteNumbers (k : AKSynthOneDSPKernel A) : List Int :=
  (loopIndices polyphony).map (fun i => (k.noteStates i).rootNoteNumber)

/-- A description of the pool of an initialised engine in poly mode with the arp
off: the assignment index and the note held by each of the six voices. -/
def PoolHolds (k : AKSynthOneDSPKernel A) (index : Int) (roots : List Int) : Prop :=
  k.initializedNoteStates = true ∧ k.p isMono ≠ 1 ∧ k.p arpIsOn ≠ 1
    ∧ k.playingNoteStatesIndex = index ∧ rootNoteNumbers k = roots

/-- The notes `notes`, each with its velocity, pressed in order through
`startNote(noteNumber, velocity)`. -/
def pressNotes (env : Env A) (k : AKSynthOneDSPKernel A) (notes : List (Int × Int)) :
    AKSynthOneDSPKernel A :=
  notes.foldl (fun k note => startNote2 env k note.1 note.2) k

/-- The voice selected by each note of `notes`, pressed in order: the value of
`playingNoteStatesIndex` after each `startNote(noteNumber, velocity)`. -/
def selectedVoices (env : Env A) (k : AKSynthOneDSPKernel A) :
    List (Int × Int) → List Int
  | [] => []
  | note :: notes =>
    let k := startNote2 env k note.1 note.2
    k.playingNoteStatesIndex :: selectedVoices env k notes

/-- The position in `voices` of the most recent start of voice `v`, if any. -/
def lastStart (voices : List Int) (v : Int) : Option Nat :=
  ((List.range voices.length).filter (fun t => decide (voices.getD t (-1) = v))).getLast?

/-- The idle scan as the specification words it: the first idle voice in circular
order starting from `(playingIndex + 1) mod N`; `-1` when no voice is idle. -/
def firstIdleAfterPlayingIndex (k : AKSynthOneDSPKernel A) : Int :=
  (((loopIndices polyphony).map
    (fun i => (k.playingNoteStatesIndex + 1 + i) % polyphony)).find?
      (fun modIndex => decide ((k.noteStates modIndex).rootNoteNumber = -1))).getD (-1)

/-- The concrete engine switched to mono mode (retrigger, not legato). -/
def testKernelMono : AKSynthOneDSPKernel ℚ := setAK1Parameter testKernel isMono 1

/-- The concrete engine switched to mono mode with legato. -/
def testKernelLegato : AKSynthOneDSPKernel ℚ := setAK1Parameter testKernelMono monoIsLegato 1

/-! ## The held-note registry -/

/-- The registry holds no note twice and only MIDI note numbers. -/
def RegistryInvariant (k : AKSynthOneDSPKernel A) : Prop :=
  k.heldNoteNumbers.Nodup ∧ ∀ n ∈ k.heldNoteNumbers, 0 ≤ n ∧ n < NUM_MIDI_NOTES

/-- The voice slots are consistent: a voice of the pool is off exactly when it
holds no note, the note it holds is a MIDI note number, and the mono voice
holds no note when it is off. -/
def SlotInvariant (k : AKSynthOneDSPKernel A) : Prop :=
  (∀ i : Int, 0 ≤ i → i < polyphony →
      ((k.noteStates i).stage = stageOff ↔ (k.noteStates i).rootNoteNumber = -1)
      ∧ ((k.noteStates i).rootNoteNumber = -1
          ∨ (0 ≤ (k.noteStates i).rootNoteNumber
              ∧ (k.noteStates i).rootNoteNumber < NUM_MIDI_NOTES)))
    ∧ (k.monoNote.stage = stageOff → k.monoNote.rootNoteNumber = -1)

/-- The invariant of the voices: the pool invariant and the slot invariant. -/
def EngineInvariant (k : AKSynthOneDSPKernel A) : Prop :=
  PoolInvariant k ∧ SlotInvariant k

/-- A 3-byte note-on with a second data byte above 127. -/
def noteOnVelocity200 : AUMIDIEvent := ⟨3, 0x90, 60, 200⟩

/-- In mono mode note 60 is pressed and released, then `p[isMono]` is written to 0:
the mono voice is in release while the engine is in poly mode. -/
def staleMonoRelease : AKSynthOneDSPKernel ℚ :=
  setAK1Parameter (stopNote testEnv (startNote2 testEnv testKernelMono 60 127) 60) isMono 0

/-- Note 60 is pressed in poly mode with the arp off, then `p[arpIsOn]` is written
to 1. -/
def liveVoiceArpOn : AKSynthOneDSPKernel ℚ :=
  setAK1Parameter (startNote2 testEnv testKernel 60 127) arpIsOn 1

/-- The two assignments that put a voice in release in `turnOffKey`:
`stage = stageRelease; internalGate = 0`. -/
def NoteState.release (note : NoteState A) : NoteState A :=
  { note with stage := stageRelease, internalGate := 0 }

/-! ## The round trip of note-ons and note-offs -/

/-- Every voice of the current mode that is on accounts for a held note: in poly
mode a voice of the pool that is on holds a note of the registry, in mono mode
the registry is not empty when the mono voice is on. -/
def LiveInvariant (k : AKSynthOneDSPKernel A) : Prop :=
  (k.p isMono ≠ 1 → ∀ i : Int, 0 ≤ i → i < polyphony →
      (k.noteStates i).stage = stageOn →
        (k.noteStates i).rootNoteNumber ∈ k.heldNoteNumbers)
    ∧ (k.p isMono = 1 → k.monoNote.stage = stageOn → k.heldNoteNumbers ≠ [])

/-- The invariant of the note entry points while the arp is off. -/
def RoundTripInvariant (k : AKSynthOneDSPKernel A) : Prop :=
  EngineInvariant k ∧ ModeInvariant k ∧ RegistryInvariant k ∧ LiveInvariant k
    ∧ k.p arpIsOn ≠ 1

/-- The notes `notes` released in order through `stopNote(noteNumber)`. -/
def releaseNotes (env : Env A) (k : AKSynthOneDSPKernel A) (notes : List Int) :
    AKSynthOneDSPKernel A :=
  notes.foldl (fun k note => stopNote env k note) k

/-- No note is held and no voice is on: each of the seven voices is in release or
off. -/
def Quiet (k : AKSynthOneDSPKernel A) : Prop :=
  k.heldNoteNumbers = []
    ∧ (∀ i : Int, 0 ≤ i → i < polyphony → (k.noteStates i).stage ≠ stageOn)
    ∧ k.monoNote.stage ≠ stageOn

/-- The states that follow `k` after any number of calls of `process`. -/
def Rendered (env : Env A) (k k' : AKSynthOneDSPKernel A) : Prop :=
  Relation.ReflTransGen (fun a b => ∃ frameCount lfo, b = process env a frameCount lfo) k k'

/-- The amplitude envelope of every voice is below the release threshold. -/
def Silent (k : AKSynthOneDSPKernel A) : Prop :=
  (∀ i : Int, 0 ≤ i → i < polyphony → (k.noteStates i).amp < RELEASE_AMPLITUDE_THRESHOLD)
    ∧ k.monoNote.amp < RELEASE_AMPLITUDE_THRESHOLD

/-- Every voice, the six of the pool and the mono voice, is off and holds no note. -/
def AllOff (k : AKSynthOneDSPKernel A) : Prop :=
  (∀ i : Int, 0 ≤ i → i < polyphony →
      (k.noteStates i).stage = stageOff ∧ (k.noteStates i).rootNoteNumber = -1)
    ∧ k.monoNote.stage = stageOff ∧ k.monoNote.rootNoteNumber = -1

/-- The seven notes of the steal scenario, each at velocity 127. -/
def sevenNotes : List (Int × Int) :=
  [(60, 127), (62, 127), (64, 127), (65, 127), (67, 127), (69, 127), (71, 127)]

/-! ## The arp patterns -/

/-- The up pass as the specification words it: for `oct` in `[0, O)`, for `i` in
`[0, H)`, the entry `note[i] + oct * U` with `onOff = 1`. -/
def upPass (note : List Int) (O U : Int) : List SeqNoteNumber :=
  (loopIndices O).flatMap (fun oct => note.map (fun n => ⟨n + oct * U, 1⟩))

/-- The positions `(octave, i)` that the two nested loops of "ARP Up" visit, in the
order of the visit. -/
def arpPositions (arpOctaves heldNotesCount : Int) : List (Int × Int) :=
  List.product (loopIndices arpOctaves) (loopIndices heldNotesCount)

/-- The entry that the arp loops insert at the position `(octave, i)`. -/
def arpEntry (arpSeqNotes2 : List Int) (arpIntervalUp : Int) (x : Int × Int) : SeqNoteNumber :=
  ⟨arpSeqNotes2.getD x.2.toNat 0 + x.1 * arpIntervalUp, 1⟩

/-- The local `notesPerOctave` of the rebuild: the `npo` of the tuning table, or 12
when that is not positive. -/
def tuningNotesPerOctave (env : Env A) : Int := if env.npo ≤ 0 then 12 else env.npo

/-- The local `arpOctaves` of the rebuild: `(int)p[arpOctave] + 1`. -/
def arpOctaves (p : Nat → ℚ) : Int := toInt (p arpOctave) + 1

/-- The local `arpIntervalUp` of the rebuild: `p[arpInterval] * npof` converted to
`int`. -/
def arpIntervalUp (p : Nat → ℚ) (notesPerOctave : Int) : Int :=
  toInt (p arpInterval * ((notesPerOctave : ℚ) / 12))

/-- The engine with the notes 60 and 64 held (64 pressed last), the arp on, two
octaves and direction `d`. -/
def arpKernel (d : ℚ) : AKSynthOneDSPKernel ℚ :=
  let k := setAK1Parameter testKernel arpIsOn 1
  let k := setAK1Parameter k arpOctave 1
  let k := setAK1Parameter k arpDirection d
  startNote2 testEnv (startNote2 testEnv k 60 127) 64 127

/-! ## The scheduler -/

/-- The two states have the same scheduler data: pattern, last notes, beat counter,
clock, parameters and registry. -/
def SameSchedule (k k' : AKSynthOneDSPKernel A) : Prop :=
  k'.arpSeqNotes = k.arpSeqNotes ∧ k'.arpSeqNotes2 = k.arpSeqNotes2
    ∧ k'.arpSeqLastNotes = k.arpSeqLastNotes ∧ k'.arpBeatCounter = k.arpBeatCounter
    ∧ k'.p = k.p ∧ k'.heldNoteNumbers = k.heldNoteNumbers
    ∧ k'.arpTime = k.arpTime ∧ k'.arpSampleCounter = k.arpSampleCounter

/-- The condition `p[arpIsOn] == 1.f || !!arpSeqLastNotes.size()` under which the
scheduler runs in a frame. -/
def schedulerRuns (k : AKSynthOneDSPKernel A) : Prop :=
  k.p arpIsOn = 1 ∨ k.arpSeqLastNotes.length ≠ 0

/-- The test `r1 < r0 || oldArpTime >= arpTime` of a frame, as a function of
`secPerBeat`, the old `arpTime` and `arpSampleCounter`. -/
def beatBoundaryTest (secPerBeat oldArpTime arpSampleCounter : ℚ) : Prop :=
  fmod (arpSampleCounter / SAMPLE_RATE) secPerBeat < fmod oldArpTime secPerBeat
    ∨ oldArpTime ≥ arpSampleCounter / SAMPLE_RATE

/-- The frame of `k` is a beat boundary. -/
def beatBoundary (secPerBeat : ℚ) (k : AKSynthOneDSPKernel A) : Prop :=
  beatBoundaryTest secPerBeat k.arpTime k.arpSampleCounter

/-- The statements `arpTime = arpSampleCounter/SAMPLE_RATE; arpSampleCounter += 1.0;`. -/
def advanceArpTime (k : AKSynthOneDSPKernel A) : AKSynthOneDSPKernel A :=
  { k with arpTime := k.arpSampleCounter / SAMPLE_RATE, arpSampleCounter := k.arpSampleCounter + 1 }

/-- The statements `turnOnKey(note, 127); arpSeqLastNotes.push_back(note);`. -/
def turnOnAndRecord (env : Env A) (k : AKSynthOneDSPKernel A) (note : Int) :
    AKSynthOneDSPKernel A :=
  let k := turnOnKey2 env k note 127
  { k with arpSeqLastNotes := k.arpSeqLastNotes ++ [note] }

/-- The step of the pattern at the position `arpBeatCounter mod |arpSeqNotes|`. -/
def currentStep (k : AKSynthOneDSPKernel A) : SeqNoteNumber :=
  k.arpSeqNotes.getD (k.arpBeatCounter % k.arpSeqNotes.length).toNat ⟨0, 0⟩

/-- The notes that a step turns on, as the specification words them: in sequencer
mode, when the step is on, `baseNote + step.noteNumber` for each held `baseNote`
with the sum in `[0, 128)`; in arp mode the note of the step when it is in
`[0, 128)`. -/
def notesOfStep (k : AKSynthOneDSPKernel A) (step : SeqNoteNumber) : List Int :=
  if k.p arpIsSequencer = 1 then
    if step.onOff = 1 then
      (k.heldNoteNumbers.map (fun baseNote => baseNote + step.noteNumber)).filter
        (fun note => decide (0 ≤ note ∧ note < NUM_MIDI_NOTES))
    else []
  else if 0 ≤ step.noteNumber ∧ step.noteNumber < NUM_MIDI_NOTES then [step.noteNumber]
  else []

/-- The notes of a beat: those of the current step. -/
def firedNotes (k : AKSynthOneDSPKernel A) : List Int := notesOfStep k (currentStep k)

/-- The two output samples `outL[frameIndex]`, `outR[frameIndex]` of a frame.  They
are cleared at the top of the frame; a frame that ends with `continue` leaves them
cleared, any other frame ends with the assignments under "MASTER", where
`compressorOut` stands for the two outputs of the effects chain. -/
def frameOutput (env : Env A) (secPerBeat : ℚ) (k : AKSynthOneDSPKernel A)
    (compressorOut : ℚ × ℚ) : ℚ × ℚ :=
  let k := monoPolySwitch k
  let r := arpSeq env secPerBeat k
  if r.2 then (0, 0)
  else (compressorOut.1 * r.1.p masterVolume, compressorOut.2 * r.1.p masterVolume)

/-- The step of the sequencer at index `i` with the conversions of the source:
every `float` stored in an `int` is truncated toward zero. -/
def sequencerStep (p : Nat → ℚ) (notesPerOctave : Int) (i : Int) : SeqNoteNumber :=
  let nn := toInt (p (i.toNat + arpSeqPattern00) * ((notesPerOctave : ℚ) / 12))
  let octBoost := toInt (p (i.toNat + arpSeqOctBoost00))
  ⟨if nn < 0 then nn - octBoost * notesPerOctave else nn + octBoost * notesPerOctave,
    toInt (p (i.toNat + arpSeqNoteOn00))⟩

/-- The local `numSteps` of the sequencer rebuild. -/
def numSteps (p : Nat → ℚ) : Int := if p arpTotalSteps > 16 then 16 else toInt (p arpTotalSteps)

/-- The step of the sequencer at index `i` as the specification words it: the note
offset is rounded to the nearest integer. -/
def roundedStep (p : Nat → ℚ) (notesPerOctave : Int) (i : Int) : SeqNoteNumber :=
  let nn := round (p (i.toNat + arpSeqPattern00) * ((notesPerOctave : ℚ) / 12))
  let octBoost := toInt (p (i.toNat + arpSeqOctBoost00))
  ⟨if nn < 0 then nn - octBoost * notesPerOctave else nn + octBoost * notesPerOctave,
    toInt (p (i.toNat + arpSeqNoteOn00))⟩

/-- The engine after `resetDSP` with the sequencer on, three steps
`(+0, on), (+7, off), (+12, on)` and the note 60 held. -/
def seqKernel : AKSynthOneDSPKernel ℚ :=
  let k := resetDSP testKernel
  let k := setParameter k arpIsOn 1
  let k := setParameter k arpIsSequencer 1
  let k := setParameter k arpTotalSteps 3
  let k := setParameter k (arpSeqPattern00 + 1) 7
  let k := setParameter k (arpSeqPattern00 + 2) 12
  let k := setParameter k arpSeqNoteOn00 1
  let k := setParameter k (arpSeqNoteOn00 + 2) 1
  startNote2 testEnv k 60 127

/-- The engine after `resetDSP` with the sequencer on, one step, and the fractional
pattern offset `p[arpSeqPattern00] = 7/4`. -/
def fractionalSeqKernel : AKSynthOneDSPKernel ℚ :=
  let k := resetDSP testKernel
  let k := setParameter k arpIsOn 1
  let k := setParameter k arpIsSequencer 1
  let k := setParameter k arpTotalSteps 1
  setParameter k arpSeqPattern00 (7 / 4)

/-- The state of a beat before the "NOP" guards: after the rebuild, entered when
`p[arpIsOn] == 1`, and the release of the notes of the previous beat. -/
def beatPrelude (env : Env A) (k : AKSynthOneDSPKernel A) : AKSynthOneDSPKernel A :=
  arpSeqTurnOffLastNotes env (if k.p arpIsOn = 1 then arpSeqRebuild env k else k)

/-- The engine after `resetDSP` with the arp on, direction Up, and the notes 60 and
64 held. -/
def arpHeld : AKSynthOneDSPKernel ℚ :=
  let k := resetDSP testKernel
  let k := setParameter k arpIsOn 1
  let k := setParameter k arpDirection 0
  startNote2 testEnv (startNote2 testEnv k 60 127) 64 127

/-- The arp is disabled after the first beat of `arpHeld` while both notes are
still held. -/
def arpDisabledHeld : AKSynthOneDSPKernel ℚ :=
  setParameter (arpSeqBeat testEnv arpHeld).1 arpIsOn 0

/-- Note 0 is pressed on the initialised engine. -/
def noteZeroHeld : AKSynthOneDSPKernel ℚ := startNote2 testEnv testKernel 0 127

/-- The engine after `resetDSP` with the arp on and no note held. -/
def arpOnIdle : AKSynthOneDSPKernel ℚ := setParameter (resetDSP testKernel) arpIsOn 1

/-! ## `float` arguments with NaN

The state of the model holds rationals.  The argument of a setter is a `float`
of the caller, which may be an infinity or NaN; the comparisons of the source
are all false on NaN, except `!=`, which is true. -/

/-- A `float`: a finite value, an infinity, or NaN. -/
inductive FloatValue where
  | finite (q : ℚ)
  | posInf
  | negInf
  | nan
  deriving DecidableEq

/-- The comparison `a < b` of two `float`s: false when an operand is NaN. -/
def FloatValue.lt : FloatValue → FloatValue → Bool
  | FloatValue.nan, _ => false
  | _, FloatValue.nan => false
  | FloatValue.finite a, FloatValue.finite b => decide (a < b)
  | FloatValue.finite _, FloatValue.posInf => true
  | FloatValue.finite _, FloatValue.negInf => false
  | FloatValue.negInf, FloatValue.negInf => false
  | FloatValue.negInf, _ => true
  | FloatValue.posInf, _ => false

/-- The comparison `a != b` of two `float`s: true when an operand is NaN. -/
def FloatValue.ne : FloatValue → FloatValue → Bool
  | FloatValue.nan, _ => true
  | _, FloatValue.nan => true
  | a, b => decide (a ≠ b)

/-- The function `std::max(a, b)`, which is `(a < b) ? b : a`. -/
def stdMax (a b : FloatValue) : FloatValue := if a.lt b then b else a

/-- The function `std::min(a, b)`, which is `(b < a) ? b : a`. -/
def stdMin (a b : FloatValue) : FloatValue := if b.lt a then b else a

/-- Embeds `parameterClamp` on every `float` argument:
`std::min(std::max(inputValue, paramMin), paramMax)`. -/
def parameterClampFloat (i : Nat) (inputValue : FloatValue) : FloatValue :=
  let param := aks1pAt i
  let paramMin := FloatValue.finite param.min
  let paramMax := FloatValue.finite param.max
  let retVal := stdMin (stdMax inputValue paramMin) paramMax
  retVal

/-- The statements of `setAK1Parameter` on the slot `p[param]`, which holds `old`:
`value = parameterClamp(param, inputValue); if (p[param] != value) p[param] = value;`.
The result is the content of the slot afterwards, which `getAK1Parameter` returns. -/
def setAK1ParameterSlot (old : FloatValue) (param : Nat) (inputValue : FloatValue) :
    FloatValue :=
  let value := parameterClampFloat param inputValue
  if old.ne value then value else old

/-- The engine after `resetDSP` with the note 60 pressed while the arp is off and
`p[arpIsOn]` then written to 1. -/
def liveVoiceArpEnabled : AKSynthOneDSPKernel ℚ :=
  setParameter (startNote2 testEnv (resetDSP testKernel) 60 127) arpIsOn 1

/-- The sequencer of `seqKernel` is disabled after its first beat: the note 60 is
still held and the next step of the stored pattern is off. -/
def seqDisabledHeld : AKSynthOneDSPKernel ℚ :=
  setParameter (arpSeqBeat testEnv seqKernel).1 arpIsOn 0

/-! ## Theorems -/

/-! ### Parameter table -/

theorem aks1p_length : aks1p.length = AKSynthOneParameterCount := by decide

theorem aks1p_min_le_max : ∀ e ∈ aks1p, e.min ≤ e.max := by
  unfold aks1p
  simp only [List.forall_mem_cons]
  norm_num

theorem parameterMin_le_parameterMax (i : Nat) : parameterMin i ≤ parameterMax i := by
  unfold parameterMin parameterMax aks1pAt
  by_cases h : i < aks1p.length
  · rw [List.getD_eq_getElem _ _ h]
    exact aks1p_min_le_max _ (List.getElem_mem _)
  · rw [List.getD_eq_default _ _ (by omega)]

theorem parameterClamp_eq (i : Nat) (v : ℚ) :
    parameterClamp i v = min (max v (parameterMin i)) (parameterMax i) := rfl

theorem parameterClamp_mem (i : Nat) (v : ℚ) :
    parameterMin i ≤ parameterClamp i v ∧ parameterClamp i v ≤ parameterMax i := by
  rw [parameterClamp_eq]
  exact ⟨le_min (le_max_right _ _) (parameterMin_le_parameterMax i), min_le_right _ _⟩

theorem parameterMin_cutoff : parameterMin cutoff = 256 := by
  simp [parameterMin, aks1pAt, aks1p, cutoff]

theorem parameterMax_cutoff : parameterMax cutoff = 28000 := by
  simp [parameterMax, aks1pAt, aks1p, cutoff]

/-- For a value `v` that is not NaN (a rational of the model): after
`setAK1Parameter k i v` the value read by `getAK1Parameter` at `i` is
`min (max v min_i) max_i`, it lies between `min_i` and `max_i`, and every other
slot of the parameter vector is unchanged. -/
theorem setAK1Parameter_clamped (k : AKSynthOneDSPKernel A) (i : Nat) (v : ℚ) :
    getAK1Parameter (setAK1Parameter k i v) i = min (max v (parameterMin i)) (parameterMax i)
    ∧ parameterMin i ≤ getAK1Parameter (setAK1Parameter k i v) i
    ∧ getAK1Parameter (setAK1Parameter k i v) i ≤ parameterMax i
    ∧ ∀ j, j ≠ i → getAK1Parameter (setAK1Parameter k i v) j = getAK1Parameter k j := by
  have hget : getAK1Parameter (setAK1Parameter k i v) i = parameterClamp i v := by
    unfold getAK1Parameter setAK1Parameter
    by_cases h : k.p i = parameterClamp i v
    · simp [h]
    · simp [h]
  refine ⟨by rw [hget, parameterClamp_eq], ?_, ?_, ?_⟩
  · rw [hget]; exact (parameterClamp_mem i v).1
  · rw [hget]; exact (parameterClamp_mem i v).2
  · intro j hj
    unfold getAK1Parameter setAK1Parameter
    by_cases h : k.p i = parameterClamp i v
    · simp [h]
    · simp [h, Function.update_noteq hj]

theorem getParameter_setParameter (k : AKSynthOneDSPKernel A) (i : Nat) (v : ℚ) :
    getParameter (setParameter k i v) i = v := by
  unfold getParameter setParameter
  by_cases h : k.p i = v
  · simp [h]
  · simp [h]

/-- C2 (as the code has it). `setParameter` stores the value as given: afterwards
`getParameter` returns `value` itself, which is the clamped value exactly when
`value` already lies in the range of the parameter, and the other slots are
unchanged.  For `cutoff` and `10^9` the result is `10^9`. -/
theorem setParameter_unclamped (k : AKSynthOneDSPKernel A) (i : Nat) (v : ℚ) :
    getParameter (setParameter k i v) i = v
    ∧ (getParameter (setParameter k i v) i = parameterClamp i v
        ↔ parameterMin i ≤ v ∧ v ≤ parameterMax i)
    ∧ (∀ j, j ≠ i → getParameter (setParameter k i v) j = getParameter k j)
    ∧ getParameter (setParameter k cutoff 1000000000) cutoff = 1000000000 := by
  have hget := getParameter_setParameter k
  refine ⟨hget i v, ?_, ?_, hget _ _⟩
  · rw [hget, parameterClamp_eq]
    constructor
    · intro h
      have := parameterClamp_mem i v
      rw [parameterClamp_eq, ← h] at this
      exact this
    · rintro ⟨h1, h2⟩
      rw [max_eq_left h1, min_eq_left h2]
  · intro j hj
    unfold getParameter setParameter
    by_cases h : k.p i = v
    · simp [h]
    · simp [h, Function.update_noteq hj]

/-- C2 fails as stated: after `setParameter(cutoff, 10^9)` the stored value is
`10^9`, not the clamped `28000`. -/
theorem setParameter_cutoff_not_clamped :
    getParameter (setParameter testKernel cutoff 1000000000) cutoff ≠ 28000
    ∧ parameterClamp cutoff 1000000000 = 28000 := by
  constructor
  · rw [getParameter_setParameter]
    norm_num
  · rw [parameterClamp_eq, parameterMin_cutoff, parameterMax_cutoff]
    norm_num

/-! ### Voice pool: the search loops -/

theorem loopIndices_polyphony : loopIndices polyphony = [0, 1, 2, 3, 4, 5] := by decide

theorem initializeNoteStates_of_initialized (env : Env A) (k : AKSynthOneDSPKernel A)
    (h : k.initializedNoteStates = true) : initializeNoteStates env k = k := by
  simp [initializeNoteStates, h]

theorem initializeNoteStates_initialized (env : Env A) (k : AKSynthOneDSPKernel A) :
    (initializeNoteStates env k).initializedNoteStates = true := by
  unfold initializeNoteStates
  split_ifs with h
  · rfl
  · simpa using h

/-- What the search loop for a note returns: `-1` when no voice holds the note,
otherwise the least index of a voice that holds it. -/
theorem indexOfNote_spec (k : AKSynthOneDSPKernel A) (nn : Int) :
    (indexOfNote k nn = -1 ∧ ∀ i : Int, 0 ≤ i → i < polyphony →
        (k.noteStates i).rootNoteNumber ≠ nn)
    ∨ (0 ≤ indexOfNote k nn ∧ indexOfNote k nn < polyphony
        ∧ (k.noteStates (indexOfNote k nn)).rootNoteNumber = nn
        ∧ ∀ j : Int, 0 ≤ j → j < indexOfNote k nn → (k.noteStates j).rootNoteNumber ≠ nn) := by
  have hall : ∀ (P : Int → Prop), P 0 → P 1 → P 2 → P 3 → P 4 → P 5 →
      ∀ i : Int, 0 ≤ i → i < 6 → P i := by
    intro P h0 h1 h2 h3 h4 h5 i hi hi'
    have : i = 0 ∨ i = 1 ∨ i = 2 ∨ i = 3 ∨ i = 4 ∨ i = 5 := by omega
    rcases this with rfl | rfl | rfl | rfl | rfl | rfl <;> assumption
  unfold indexOfNote
  rw [loopIndices_polyphony]
  simp only [List.find?_cons, List.find?_nil, polyphony, MAX_POLYPHONY]
  by_cases h0 : (k.noteStates 0).rootNoteNumber = nn
  · right; simp [h0]; intro j hj hj'; omega
  by_cases h1 : (k.noteStates 1).rootNoteNumber = nn
  · right; simp [h0, h1]; intro j hj hj'; have : j = 0 := by omega
    subst this; exact h0
  by_cases h2 : (k.noteStates 2).rootNoteNumber = nn
  · right; simp [h0, h1, h2]; intro j hj hj'
    have : j = 0 ∨ j = 1 := by omega
    rcases this with rfl | rfl <;> assumption
  by_cases h3 : (k.noteStates 3).rootNoteNumber = nn
  · right; simp [h0, h1, h2, h3]; intro j hj hj'
    have : j = 0 ∨ j = 1 ∨ j = 2 := by omega
    rcases this with rfl | rfl | rfl <;> assumption
  by_cases h4 : (k.noteStates 4).rootNoteNumber = nn
  · right; simp [h0, h1, h2, h3, h4]; intro j hj hj'
    have : j = 0 ∨ j = 1 ∨ j = 2 ∨ j = 3 := by omega
    rcases this with rfl | rfl | rfl | rfl <;> assumption
  by_cases h5 : (k.noteStates 5).rootNoteNumber = nn
  · right; simp [h0, h1, h2, h3, h4, h5]; intro j hj hj'
    have : j = 0 ∨ j = 1 ∨ j = 2 ∨ j = 3 ∨ j = 4 := by omega
    rcases this with rfl | rfl | rfl | rfl | rfl <;> assumption
  · left; simp [h0, h1, h2, h3, h4, h5]
    exact hall _ h0 h1 h2 h3 h4 h5

theorem find?_map_some_spec (f : Int → Int) (q : Int → Bool) :
    ∀ (l : List Int) (b : Int), (l.map f).find? q = some b →
      ∃ n : Nat, n < l.length ∧ b = f (l.getD n 0) ∧ q b = true
        ∧ ∀ m : Nat, m < n → q (f (l.getD m 0)) = false := by
  intro l
  induction l with
  | nil => intro b h; simp at h
  | cons a l ih =>
    intro b h
    rw [List.map_cons, List.find?_cons] at h
    cases hq : q (f a) with
    | true =>
      rw [hq] at h
      simp only [Option.some.injEq] at h
      subst h
      exact ⟨0, by simp, by simp, hq, by intro m hm; omega⟩
    | false =>
      rw [hq] at h
      obtain ⟨n, hn, hb, hqb, hm⟩ := ih b h
      refine ⟨n + 1, by simp; omega, by simpa using hb, hqb, ?_⟩
      intro m hm'
      cases m with
      | zero => simpa using hq
      | succ m => simpa using hm m (by omega)

theorem loopIndices_polyphony_getD (n : Nat) (h : n < 6) :
    (loopIndices polyphony).getD n 0 = (n : Int) := by
  rw [loopIndices_polyphony]
  have : n = 0 ∨ n = 1 ∨ n = 2 ∨ n = 3 ∨ n = 4 ∨ n = 5 := by omega
  rcases this with rfl | rfl | rfl | rfl | rfl | rfl <;> rfl

theorem mem_loopIndices_polyphony (i : Int) : i ∈ loopIndices polyphony ↔ 0 ≤ i ∧ i < 6 := by
  rw [loopIndices_polyphony]
  simp only [List.mem_cons, List.mem_singleton, List.not_mem_nil, or_false]
  omega

/-- What the idle-slot loop returns when `playingNoteStatesIndex` is a valid index:
`-1` when no voice is idle, otherwise the first idle voice in circular order
starting at `playingNoteStatesIndex` itself. -/
theorem indexOfIdle_spec (k : AKSynthOneDSPKernel A)
    (hp : 0 ≤ k.playingNoteStatesIndex) (hp' : k.playingNoteStatesIndex < polyphony) :
    (indexOfIdle k = -1 ∧ ∀ i : Int, 0 ≤ i → i < polyphony →
        (k.noteStates i).rootNoteNumber ≠ -1)
    ∨ (∃ d : Int, 0 ≤ d ∧ d < polyphony
        ∧ indexOfIdle k = (k.playingNoteStatesIndex + d) % polyphony
        ∧ (k.noteStates (indexOfIdle k)).rootNoteNumber = -1
        ∧ ∀ e : Int, 0 ≤ e → e < d →
            (k.noteStates ((k.playingNoteStatesIndex + e) % polyphony)).rootNoteNumber ≠ -1) := by
  have hpoly : polyphony = 6 := rfl
  rw [hpoly] at hp' ⊢
  unfold indexOfIdle
  rw [hpoly]
  cases hfind : ((loopIndices 6).map (fun i => (k.playingNoteStatesIndex + i).tmod 6)).find?
      (fun modIndex => decide ((k.noteStates modIndex).rootNoteNumber = -1)) with
  | none =>
    left
    refine ⟨rfl, ?_⟩
    intro i hi hi'
    rw [List.find?_eq_none] at hfind
    have hmem : (k.playingNoteStatesIndex + (i - k.playingNoteStatesIndex) % 6).tmod 6
        ∈ (loopIndices 6).map (fun i => (k.playingNoteStatesIndex + i).tmod 6) := by
      apply List.mem_map_of_mem
      have := mem_loopIndices_polyphony ((i - k.playingNoteStatesIndex) % 6)
      rw [hpoly] at this
      rw [this]; omega
    have h := hfind _ hmem
    rw [Int.tmod_eq_emod (by omega) (by omega)] at h
    have hi2 : (k.playingNoteStatesIndex + (i - k.playingNoteStatesIndex) % 6) % 6 = i := by omega
    rw [hi2] at h
    simpa using h
  | some b =>
    right
    obtain ⟨n, hn, hb, hqb, hm⟩ := find?_map_some_spec _ _ _ _ hfind
    have hlen : (loopIndices 6).length = 6 := by decide
    rw [hlen] at hn
    have hget := loopIndices_polyphony_getD n hn
    rw [hpoly] at hget
    rw [hget, Int.tmod_eq_emod (by omega) (by omega)] at hb
    refine ⟨(n : Int), by omega, by omega, ?_, ?_, ?_⟩
    · simpa using hb
    · simpa using hqb
    · intro e he he'
      have h := hm e.toNat (by omega)
      have hget' := loopIndices_polyphony_getD e.toNat (by omega)
      rw [hpoly] at hget'
      rw [hget', Int.tmod_eq_emod (by omega) (by omega)] at h
      have : ((e.toNat : Nat) : Int) = e := by omega
      rw [this] at h
      simpa using h

/-! ### Frame lemmas: the parameter vector -/

theorem foldl_preserves {α β : Type} (P : β → Prop) (f : β → α → β)
    (h : ∀ b a, P b → P (f b a)) (l : List α) (b : β) (hb : P b) : P (l.foldl f b) := by
  induction l generalizing b with
  | nil => simpa using hb
  | cons a l ih => exact ih _ (h b a hb)

@[simp] theorem playingNotesDidChange_p (k : AKSynthOneDSPKernel A) :
    (playingNotesDidChange k).p = k.p := rfl

@[simp] theorem heldNotesDidChange_p (k : AKSynthOneDSPKernel A) :
    (heldNotesDidChange k).p = k.p := rfl

@[simp] theorem beatCounterDidChange_p (k : AKSynthOneDSPKernel A) :
    (beatCounterDidChange k).p = k.p := rfl

@[simp] theorem initializeNoteStates_p (env : Env A) (k : AKSynthOneDSPKernel A) :
    (initializeNoteStates env k).p = k.p := by
  unfold initializeNoteStates; split_ifs <;> rfl

@[simp] theorem turnOnKey_p (env : Env A) (k : AKSynthOneDSPKernel A) (nn vel : Int) (f : ℚ) :
    (turnOnKey env k nn vel f).p = k.p := by
  simp only [turnOnKey]
  split_ifs <;> simp

@[simp] theorem turnOnKey2_p (env : Env A) (k : AKSynthOneDSPKernel A) (nn vel : Int) :
    (turnOnKey2 env k nn vel).p = k.p := by
  simp only [turnOnKey2]
  split_ifs <;> simp

@[simp] theorem turnOffKey_p (env : Env A) (k : AKSynthOneDSPKernel A) (nn : Int) :
    (turnOffKey env k nn).p = k.p := by
  simp only [turnOffKey]
  split_ifs <;> simp

@[simp] theorem startNote_p (env : Env A) (k : AKSynthOneDSPKernel A) (nn vel : Int) (f : ℚ) :
    (startNote env k nn vel f).p = k.p := by
  simp only [startNote]
  split_ifs <;> simp

@[simp] theorem startNote2_p (env : Env A) (k : AKSynthOneDSPKernel A) (nn vel : Int) :
    (startNote2 env k nn vel).p = k.p := by
  simp only [startNote2]
  split_ifs <;> simp

@[simp] theorem stopNote_p (env : Env A) (k : AKSynthOneDSPKernel A) (nn : Int) :
    (stopNote env k nn).p = k.p := by
  simp only [stopNote]
  split_ifs <;> simp

@[simp] theorem stopAllNotes_p (env : Env A) (k : AKSynthOneDSPKernel A) :
    (stopAllNotes env k).p = k.p := by
  simp only [stopAllNotes]
  split_ifs
  · simp
  · exact foldl_preserves (fun k' : AKSynthOneDSPKernel A => k'.p = k.p) _
      (fun b a hb => by simpa using hb) _ _ rfl

@[simp] theorem handleMIDIEvent_p (env : Env A) (k : AKSynthOneDSPKernel A) (ev : AUMIDIEvent) :
    (handleMIDIEvent env k ev).p = k.p := by
  simp only [handleMIDIEvent]
  split_ifs <;> simp

@[simp] theorem reset_p (k : AKSynthOneDSPKernel A) : (reset k).p = k.p := rfl

@[simp] theorem transitionToOff_p (k : AKSynthOneDSPKernel A) : (transitionToOff k).p = k.p := by
  simp only [transitionToOff]
  split_ifs <;> simp

@[simp] theorem arpSeqRebuild_p (env : Env A) (k : AKSynthOneDSPKernel A) :
    (arpSeqRebuild env k).p = k.p := by
  simp only [arpSeqRebuild]
  split_ifs <;> rfl

@[simp] theorem arpSeqTurnOn_p (env : Env A) (k : AKSynthOneDSPKernel A) (note : Int) :
    (arpSeqTurnOn env k note).p = k.p := by
  simp only [arpSeqTurnOn]
  split_ifs <;> simp

@[simp] theorem arpSeqFire_p (env : Env A) (k : AKSynthOneDSPKernel A) :
    (arpSeqFire env k).p = k.p := by
  simp only [arpSeqFire]
  split_ifs
  · exact foldl_preserves (fun k' : AKSynthOneDSPKernel A => k'.p = k.p) _
      (fun b a hb => by simpa using hb) _ _ rfl
  · rfl
  · simp

theorem foldl_turnOffKey_p (env : Env A) (l : List Int) (k : AKSynthOneDSPKernel A) :
    (l.foldl (fun k note => turnOffKey env k note) k).p = k.p :=
  foldl_preserves (fun k' : AKSynthOneDSPKernel A => k'.p = k.p) _
    (fun b a hb => by simpa using hb) _ _ rfl

@[simp] theorem arpSeqTurnOffLastNotes_p (env : Env A) (k : AKSynthOneDSPKernel A) :
    (arpSeqTurnOffLastNotes env k).p = k.p := by
  simp [arpSeqTurnOffLastNotes, foldl_turnOffKey_p]

@[simp] theorem arpSeqStep_p (env : Env A) (k : AKSynthOneDSPKernel A) :
    (arpSeqStep env k).1.p = k.p := by
  simp only [arpSeqStep]
  split_ifs <;> simp

@[simp] theorem arpSeqBeat_p (env : Env A) (k : AKSynthOneDSPKernel A) :
    (arpSeqBeat env k).1.p = k.p := by
  simp only [arpSeqBeat]
  split_ifs <;> simp

@[simp] theorem arpSeq_p (env : Env A) (s : ℚ) (k : AKSynthOneDSPKernel A) :
    (arpSeq env s k).1.p = k.p := by
  simp only [arpSeq]
  split_ifs <;> simp

@[simp] theorem renderNoteStates_p (env : Env A) (k : AKSynthOneDSPKernel A) :
    (renderNoteStates env k).p = k.p := by
  simp only [renderNoteStates]
  split_ifs <;> rfl

@[simp] theorem monoPolySwitch_p (k : AKSynthOneDSPKernel A) : (monoPolySwitch k).p = k.p := by
  simp only [monoPolySwitch]
  split_ifs <;> rfl

@[simp] theorem processFrame_p (env : Env A) (s : ℚ) (k : AKSynthOneDSPKernel A) (lfo : ℚ × ℚ) :
    (processFrame env s k lfo).p = k.p := by
  simp only [processFrame]
  split_ifs <;> simp

@[simp] theorem process_p (env : Env A) (k : AKSynthOneDSPKernel A) (n : Nat) (lfo : Nat → ℚ × ℚ) :
    (process env k n lfo).p = k.p := by
  simp only [process]
  exact foldl_preserves (fun k' : AKSynthOneDSPKernel A => k'.p = k.p) _
    (fun b a hb => by simpa using hb) _ _ (by simp)

theorem resetDSP_p_isMono (k : AKSynthOneDSPKernel A) : (resetDSP k).p isMono = k.p isMono := by
  simp [resetDSP, Function.update, isMono, arpIsOn]

/-! ### Voice invariants are preserved by every member function -/

section VoiceInvariant

variable {env : Env A} {modal : Prop} {P : AKSynthOneDSPKernel A → Prop}

theorem voiceInvariant_update (hP : VoiceInvariant env modal P) (k k' : AKSynthOneDSPKernel A)
    (hv : SameVoices k k') (hp : k'.p = k.p) (h : P k) : P k' :=
  hP.frame k k' hv (fun _ => by rw [hp]) h

theorem voiceInvariant_turnOnKey2 (hP : VoiceInvariant env modal P) (k : AKSynthOneDSPKernel A)
    (nn vel : Int) (h : P k) : P (turnOnKey2 env k nn vel) := by
  simp only [AKSynthOne.turnOnKey2]
  split_ifs
  · exact h
  · exact hP.turnOnKey _ _ _ _ h

theorem voiceInvariant_startNote (hP : VoiceInvariant env modal P) (k : AKSynthOneDSPKernel A)
    (nn vel : Int) (f : ℚ) (h : P k) : P (startNote env k nn vel f) := by
  simp only [AKSynthOne.startNote]
  split_ifs
  · exact h
  · exact voiceInvariant_update hP k _ ⟨rfl, rfl, rfl, rfl⟩ rfl h
  · exact hP.turnOnKey _ _ _ _ (voiceInvariant_update hP k _ ⟨rfl, rfl, rfl, rfl⟩ rfl h)

theorem voiceInvariant_startNote2 (hP : VoiceInvariant env modal P) (k : AKSynthOneDSPKernel A)
    (nn vel : Int) (h : P k) : P (startNote2 env k nn vel) := by
  simp only [AKSynthOne.startNote2]
  split_ifs
  · exact h
  · exact voiceInvariant_startNote hP _ _ _ _ h

theorem voiceInvariant_stopNote (hP : VoiceInvariant env modal P) (k : AKSynthOneDSPKernel A)
    (nn : Int) (h : P k) : P (stopNote env k nn) := by
  simp only [AKSynthOne.stopNote]
  split_ifs
  · exact h
  · exact voiceInvariant_update hP k _ ⟨rfl, rfl, rfl, rfl⟩ rfl h
  · exact hP.turnOffKey _ _ (voiceInvariant_update hP k _ ⟨rfl, rfl, rfl, rfl⟩ rfl h)

theorem voiceInvariant_stopAllNotes (hP : VoiceInvariant env modal P)
    (k : AKSynthOneDSPKernel A) (h : P k) : P (stopAllNotes env k) := by
  simp only [AKSynthOne.stopAllNotes]
  have h' := voiceInvariant_update hP k { k with heldNoteNumbers := [] } ⟨rfl, rfl, rfl, rfl⟩ rfl h
  split_ifs
  · exact voiceInvariant_stopNote hP _ _ h'
  · exact foldl_preserves P _ (fun b a hb => voiceInvariant_stopNote hP b a hb) _ _ h'

theorem voiceInvariant_handleMIDIEvent (hP : VoiceInvariant env modal P)
    (k : AKSynthOneDSPKernel A) (ev : AUMIDIEvent) (h : P k) : P (handleMIDIEvent env k ev) := by
  simp only [AKSynthOne.handleMIDIEvent]
  split_ifs
  all_goals first
    | exact h
    | exact voiceInvariant_stopNote hP _ _ h
    | exact voiceInvariant_startNote2 hP _ _ _ h
    | exact voiceInvariant_stopAllNotes hP _ h

theorem voiceInvariant_resetDSP (hP : VoiceInvariant env modal P)
    (k : AKSynthOneDSPKernel A) (h : P k) : P (resetDSP k) :=
  hP.frame (reset k) (resetDSP k) ⟨rfl, rfl, rfl, rfl⟩
    (fun _ => by rw [resetDSP_p_isMono, reset_p]) (hP.reset k h)

theorem voiceInvariant_monoPolySwitch (hP : VoiceInvariant env modal P)
    (k : AKSynthOneDSPKernel A) (h : P k) : P (monoPolySwitch k) := by
  simp only [AKSynthOne.monoPolySwitch]
  split_ifs
  · exact voiceInvariant_update hP (reset { k with previousProcessMonoPolyStatus := k.p isMono }) _
      ⟨rfl, rfl, rfl, rfl⟩ rfl
      (hP.reset _ (voiceInvariant_update hP k _ ⟨rfl, rfl, rfl, rfl⟩ rfl h))
  · exact h

theorem voiceInvariant_arpSeqRebuild (hP : VoiceInvariant env modal P)
    (k : AKSynthOneDSPKernel A) (h : P k) : P (arpSeqRebuild env k) := by
  simp only [AKSynthOne.arpSeqRebuild]
  split_ifs
  all_goals exact voiceInvariant_update hP k _ ⟨rfl, rfl, rfl, rfl⟩ rfl h

theorem voiceInvariant_arpSeqTurnOn (hP : VoiceInvariant env modal P)
    (k : AKSynthOneDSPKernel A) (note : Int) (h : P k) : P (arpSeqTurnOn env k note) := by
  simp only [AKSynthOne.arpSeqTurnOn]
  split_ifs
  · exact voiceInvariant_update hP (AKSynthOne.turnOnKey2 env k note 127) _ ⟨rfl, rfl, rfl, rfl⟩ rfl
      (voiceInvariant_turnOnKey2 hP _ _ _ h)
  · exact h

theorem voiceInvariant_arpSeqFire (hP : VoiceInvariant env modal P)
    (k : AKSynthOneDSPKernel A) (h : P k) : P (arpSeqFire env k) := by
  simp only [AKSynthOne.arpSeqFire]
  have h' : P (beatCounterDidChange { k with arpBeatCounter := k.arpBeatCounter + 1 }) :=
    voiceInvariant_update hP k _ ⟨rfl, rfl, rfl, rfl⟩ rfl h
  split_ifs
  · exact foldl_preserves P _ (fun b a hb => voiceInvariant_arpSeqTurnOn hP b _ hb) _ _ h'
  · exact h'
  · exact voiceInvariant_arpSeqTurnOn hP _ _ h'

theorem voiceInvariant_arpSeqTurnOffLastNotes (hP : VoiceInvariant env modal P)
    (k : AKSynthOneDSPKernel A) (h : P k) : P (arpSeqTurnOffLastNotes env k) := by
  simp only [AKSynthOne.arpSeqTurnOffLastNotes]
  exact voiceInvariant_update hP
    (k.arpSeqLastNotes.foldl (fun k note => AKSynthOne.turnOffKey env k note) k) _
    ⟨rfl, rfl, rfl, rfl⟩ rfl (foldl_preserves P _ (fun b a hb => hP.turnOffKey b a hb) _ _ h)

theorem voiceInvariant_arpSeqStep (hP : VoiceInvariant env modal P)
    (k : AKSynthOneDSPKernel A) (h : P k) : P (arpSeqStep env k).1 := by
  simp only [AKSynthOne.arpSeqStep]
  split_ifs
  · exact voiceInvariant_update hP k _ ⟨rfl, rfl, rfl, rfl⟩ rfl h
  · exact h
  · exact h
  · exact voiceInvariant_arpSeqFire hP _ h

theorem voiceInvariant_arpSeqBeat (hP : VoiceInvariant env modal P)
    (k : AKSynthOneDSPKernel A) (h : P k) : P (arpSeqBeat env k).1 := by
  simp only [AKSynthOne.arpSeqBeat]
  apply voiceInvariant_arpSeqStep hP
  apply voiceInvariant_arpSeqTurnOffLastNotes hP
  split_ifs
  · exact voiceInvariant_arpSeqRebuild hP k h
  · exact h

theorem voiceInvariant_arpSeq (hP : VoiceInvariant env modal P) (s : ℚ)
    (k : AKSynthOneDSPKernel A) (h : P k) : P (arpSeq env s k).1 := by
  simp only [AKSynthOne.arpSeq]
  split_ifs
  · exact voiceInvariant_arpSeqBeat hP _ (voiceInvariant_update hP k _ ⟨rfl, rfl, rfl, rfl⟩ rfl h)
  · exact voiceInvariant_update hP k _ ⟨rfl, rfl, rfl, rfl⟩ rfl h
  · exact h

theorem voiceInvariant_processFrame_of_switch (hP : VoiceInvariant env modal P) (s : ℚ)
    (k : AKSynthOneDSPKernel A) (lfo : ℚ × ℚ) (h : P (monoPolySwitch k)) :
    P (processFrame env s k lfo) := by
  simp only [AKSynthOne.processFrame]
  have h1 := voiceInvariant_arpSeq hP s _ h
  split_ifs
  · exact h1
  · exact hP.renderNoteStates _ (voiceInvariant_update hP
      (AKSynthOne.arpSeq env s (AKSynthOne.monoPolySwitch k)).1 _ ⟨rfl, rfl, rfl, rfl⟩ rfl h1)

theorem voiceInvariant_processFrame (hP : VoiceInvariant env modal P) (s : ℚ)
    (k : AKSynthOneDSPKernel A) (lfo : ℚ × ℚ) (h : P k) : P (processFrame env s k lfo) :=
  voiceInvariant_processFrame_of_switch hP s k lfo (voiceInvariant_monoPolySwitch hP k h)

theorem voiceInvariant_process (hP : VoiceInvariant env modal P)
    (k : AKSynthOneDSPKernel A) (n : Nat) (lfo : Nat → ℚ × ℚ) (h : P k) :
    P (process env k n lfo) := by
  simp only [AKSynthOne.process]
  exact foldl_preserves P _ (fun b a hb => voiceInvariant_processFrame hP _ b _ hb) _ _
    (hP.transitionToOff _ (hP.initializeNoteStates _ h))

theorem SameVoices.of_p (k : AKSynthOneDSPKernel A) (p' : Nat → ℚ) :
    SameVoices k { k with p := p' } := ⟨rfl, rfl, rfl, rfl⟩

theorem voiceInvariant_setAK1Parameter (hP : VoiceInvariant env modal P)
    (k : AKSynthOneDSPKernel A) (i : Nat) (v : ℚ)
    (hm : modal → (setAK1Parameter k i v).p isMono = k.p isMono) (h : P k) :
    P (setAK1Parameter k i v) := by
  refine hP.frame k _ ?_ hm h
  simp only [AKSynthOne.setAK1Parameter]
  split_ifs
  · exact ⟨rfl, rfl, rfl, rfl⟩
  · exact ⟨rfl, rfl, rfl, rfl⟩

theorem voiceInvariant_setParameter (hP : VoiceInvariant env modal P)
    (k : AKSynthOneDSPKernel A) (i : Nat) (v : ℚ)
    (hm : modal → (setParameter k i v).p isMono = k.p isMono) (h : P k) :
    P (setParameter k i v) := by
  refine hP.frame k _ ?_ hm h
  simp only [AKSynthOne.setParameter]
  split_ifs
  · exact ⟨rfl, rfl, rfl, rfl⟩
  · exact ⟨rfl, rfl, rfl, rfl⟩

/-- A voice invariant is preserved by every step; a modal one by every step that
leaves `p[isMono]` as it is. -/
theorem voiceInvariant_step (hP : VoiceInvariant env modal P) {k k' : AKSynthOneDSPKernel A}
    (hs : Step env k k') (hm : modal → k'.p isMono = k.p isMono) (h : P k) : P k' := by
  cases hs with
  | turnOnKey nn vel f => exact hP.turnOnKey _ _ _ _ h
  | turnOnKey2 nn vel => exact voiceInvariant_turnOnKey2 hP _ _ _ h
  | turnOffKey nn => exact hP.turnOffKey _ _ h
  | startNote nn vel f => exact voiceInvariant_startNote hP _ _ _ _ h
  | startNote2 nn vel => exact voiceInvariant_startNote2 hP _ _ _ h
  | stopNote nn => exact voiceInvariant_stopNote hP _ _ h
  | stopAllNotes => exact voiceInvariant_stopAllNotes hP _ h
  | handleMIDIEvent ev => exact voiceInvariant_handleMIDIEvent hP _ _ h
  | reset => exact hP.reset _ h
  | resetDSP => exact voiceInvariant_resetDSP hP _ h
  | setAK1Parameter i v hi => exact voiceInvariant_setAK1Parameter hP _ _ _ hm h
  | setParameter i v hi => exact voiceInvariant_setParameter hP _ _ _ hm h
  | setParameters params => exact hP.frame k _ ⟨rfl, rfl, rfl, rfl⟩ hm h
  | process n lfo => exact voiceInvariant_process hP _ _ _ h

/-- A voice invariant that does not depend on the mode holds in every state
reachable from a state in which it holds. -/
theorem voiceInvariant_reachable (hP : VoiceInvariant env False P)
    {k₀ k : AKSynthOneDSPKernel A} (hr : Reachable env k₀ k) (h : P k₀) : P k := by
  induction hr with
  | refl => exact h
  | tail _ hs ih => exact voiceInvariant_step hP hs (fun hf => hf.elim) ih

end VoiceInvariant

/-! ### The two branches of `turnOnKey` and of `turnOffKey` in closed form -/

theorem turnOnKey_of_invalid (env : Env A) (k : AKSynthOneDSPKernel A) (nn vel : Int) (f : ℚ)
    (h : nn < 0 ∨ nn ≥ NUM_MIDI_NOTES) : turnOnKey env k nn vel f = k := by
  simp only [turnOnKey, if_pos h]

theorem turnOnKey_mono (env : Env A) (k : AKSynthOneDSPKernel A) (nn vel : Int) (f : ℚ)
    (hinit : k.initializedNoteStates = true) (h0 : 0 ≤ nn) (h1 : nn < NUM_MIDI_NOTES)
    (hm : k.p isMono = 1) :
    turnOnKey env k nn vel f = playingNotesDidChange (heldNotesDidChange
      { k with
        monoFrequency := f
        monoNote := (if k.p monoIsLegato = 0 then k.monoNote.releaseReset env
          else k.monoNote).startNoteHelper nn vel f }) := by
  have hg : ¬ (nn < 0 ∨ nn ≥ NUM_MIDI_NOTES) := by omega
  simp only [turnOnKey, if_neg hg, initializeNoteStates_of_initialized env k hinit, if_pos hm]

theorem turnOnKey_poly (env : Env A) (k : AKSynthOneDSPKernel A) (nn vel : Int) (f : ℚ)
    (hinit : k.initializedNoteStates = true) (h0 : 0 ≤ nn) (h1 : nn < NUM_MIDI_NOTES)
    (hm : k.p isMono ≠ 1) :
    turnOnKey env k nn vel f = playingNotesDidChange (heldNotesDidChange
      { k with
        playingNoteStatesIndex := selectedVoice k nn
        noteStates := Function.update k.noteStates (selectedVoice k nn)
          ((k.noteStates (selectedVoice k nn)).startNoteHelper nn vel f) }) := by
  have hg : ¬ (nn < 0 ∨ nn ≥ NUM_MIDI_NOTES) := by omega
  simp only [turnOnKey, if_neg hg, initializeNoteStates_of_initialized env k hinit, if_neg hm,
    selectedVoice]
  split_ifs <;> rfl

theorem turnOffKey_of_invalid (env : Env A) (k : AKSynthOneDSPKernel A) (nn : Int)
    (h : nn < 0 ∨ nn ≥ NUM_MIDI_NOTES) : turnOffKey env k nn = k := by
  simp only [turnOffKey, if_pos h]

theorem turnOffKey_poly (env : Env A) (k : AKSynthOneDSPKernel A) (nn : Int)
    (hinit : k.initializedNoteStates = true) (h0 : 0 ≤ nn) (h1 : nn < NUM_MIDI_NOTES)
    (hm : k.p isMono ≠ 1) :
    turnOffKey env k nn = playingNotesDidChange (heldNotesDidChange
      (if indexOfNote k nn ≠ -1 then
        { k with noteStates := Function.update k.noteStates (indexOfNote k nn) ({
            (k.noteStates (indexOfNote k nn)) with stage := stageRelease, internalGate := 0 }) }
      else k)) := by
  have hg : ¬ (nn < 0 ∨ nn ≥ NUM_MIDI_NOTES) := by omega
  simp only [turnOffKey, if_neg hg, initializeNoteStates_of_initialized env k hinit, if_neg hm]

theorem turnOffKey_mono_release (env : Env A) (k : AKSynthOneDSPKernel A) (nn : Int)
    (hinit : k.initializedNoteStates = true) (h0 : 0 ≤ nn) (h1 : nn < NUM_MIDI_NOTES)
    (hm : k.p isMono = 1) (hr : k.heldNoteNumbers.length = 0 ∨ k.p arpIsOn = 1) :
    turnOffKey env k nn = playingNotesDidChange (heldNotesDidChange
      { k with monoNote := { k.monoNote with stage := stageRelease, internalGate := 0 } }) := by
  have hg : ¬ (nn < 0 ∨ nn ≥ NUM_MIDI_NOTES) := by omega
  simp only [turnOffKey, if_neg hg, initializeNoteStates_of_initialized env k hinit, if_pos hm,
    if_pos hr]

theorem turnOffKey_mono_caca (env : Env A) (k : AKSynthOneDSPKernel A) (nn : Int)
    (hinit : k.initializedNoteStates = true) (h0 : 0 ≤ nn) (h1 : nn < NUM_MIDI_NOTES)
    (hm : k.p isMono = 1) (hr : ¬ (k.heldNoteNumbers.length = 0 ∨ k.p arpIsOn = 1)) :
    turnOffKey env k nn = playingNotesDidChange (heldNotesDidChange
      { k with
        monoFrequency := noteToHz env (k.heldNoteNumbers.headD 0)
        monoNote :=
          { (if k.p monoIsLegato = 0 then
              NoteState.releaseReset env
                { k.monoNote with
                  rootNoteNumber := k.heldNoteNumbers.headD 0
                  oscmorph1_freq := noteToHz env (k.heldNoteNumbers.headD 0)
                  oscmorph2_freq := noteToHz env (k.heldNoteNumbers.headD 0)
                  subOsc_freq := noteToHz env (k.heldNoteNumbers.headD 0)
                  fmOsc_freq := noteToHz env (k.heldNoteNumbers.headD 0) }
            else
              { k.monoNote with
                rootNoteNumber := k.heldNoteNumbers.headD 0
                oscmorph1_freq := noteToHz env (k.heldNoteNumbers.headD 0)
                oscmorph2_freq := noteToHz env (k.heldNoteNumbers.headD 0)
                subOsc_freq := noteToHz env (k.heldNoteNumbers.headD 0)
                fmOsc_freq := noteToHz env (k.heldNoteNumbers.headD 0) })
            with stage := stageOn, internalGate := 1 } }) := by
  have hg : ¬ (nn < 0 ∨ nn ≥ NUM_MIDI_NOTES) := by omega
  simp only [turnOffKey, if_neg hg, initializeNoteStates_of_initialized env k hinit, if_pos hm,
    if_neg hr]

/-! ### The selected voice -/

/-- The voice selected by a poly note-on is a valid index; it either holds the
note already or no voice of the pool holds the note. -/
theorem selectedVoice_spec (k : AKSynthOneDSPKernel A) (nn : Int)
    (hp : 0 ≤ k.playingNoteStatesIndex) (hp' : k.playingNoteStatesIndex < polyphony) :
    0 ≤ selectedVoice k nn ∧ selectedVoice k nn < polyphony
    ∧ ((k.noteStates (selectedVoice k nn)).rootNoteNumber = nn
        ∨ ∀ i : Int, 0 ≤ i → i < polyphony → (k.noteStates i).rootNoteNumber ≠ nn) := by
  have hpoly : polyphony = 6 := rfl
  simp only [selectedVoice]
  rcases indexOfNote_spec k nn with ⟨h1, h2⟩ | ⟨h1, h2, h3, -⟩
  · rw [if_neg (by simpa using h1)]
    rcases indexOfIdle_spec k hp hp' with ⟨h3, -⟩ | ⟨d, hd, hd', h3, -, -⟩
    · rw [if_pos h3, Int.tmod_eq_emod (by omega) (by decide)]
      rw [hpoly] at hp' ⊢
      exact ⟨by omega, by omega, Or.inr (by simpa [hpoly] using h2)⟩
    · have hne : indexOfIdle k ≠ -1 := by rw [h3, hpoly]; omega
      rw [if_neg hne, h3]
      rw [hpoly] at hp' ⊢
      exact ⟨by omega, by omega, Or.inr (by simpa [hpoly] using h2)⟩
  · have hne : indexOfNote k nn ≠ -1 := by omega
    rw [if_pos hne]
    exact ⟨h1, h2, Or.inl h3⟩

/-! ### The pool invariant -/

theorem noDuplicateNotes_of_roots {k k' : AKSynthOneDSPKernel A} (h : NoDuplicateNotes k)
    (hr : ∀ i : Int, 0 ≤ i → i < polyphony →
      (k'.noteStates i).rootNoteNumber = (k.noteStates i).rootNoteNumber
        ∨ (k'.noteStates i).rootNoteNumber = -1) : NoDuplicateNotes k' := by
  intro i j hi hi' hj hj' heq hne
  rcases hr i hi hi' with h1 | h1
  · rcases hr j hj hj' with h2 | h2
    · exact h i j hi hi' hj hj' (by rw [← h1, ← h2, heq]) (by rw [← h1]; exact hne)
    · exact absurd (heq.trans h2) hne
  · exact absurd h1 hne

theorem poolInvariant_of_roots {k k' : AKSynthOneDSPKernel A} (h : PoolInvariant k)
    (hinit : k'.initializedNoteStates = k.initializedNoteStates)
    (hidx : k'.playingNoteStatesIndex = k.playingNoteStatesIndex)
    (hr : ∀ i : Int, 0 ≤ i → i < polyphony →
      (k'.noteStates i).rootNoteNumber = (k.noteStates i).rootNoteNumber
        ∨ (k'.noteStates i).rootNoteNumber = -1) : PoolInvariant k' := by
  obtain ⟨h1, h2, h3, h4⟩ := h
  exact ⟨by rw [hinit, h1], by rw [hidx]; exact h2, by rw [hidx]; exact h3,
    noDuplicateNotes_of_roots h4 hr⟩

theorem poolInvariant_turnOnKey (env : Env A) (k : AKSynthOneDSPKernel A) (nn vel : Int) (f : ℚ)
    (h : PoolInvariant k) : PoolInvariant (turnOnKey env k nn vel f) := by
  obtain ⟨h1, h2, h3, h4⟩ := h
  by_cases hg : nn < 0 ∨ nn ≥ NUM_MIDI_NOTES
  · rw [turnOnKey_of_invalid env k nn vel f hg]; exact ⟨h1, h2, h3, h4⟩
  have hnn : 0 ≤ nn ∧ nn < NUM_MIDI_NOTES := by omega
  by_cases hm : k.p isMono = 1
  · rw [turnOnKey_mono env k nn vel f h1 hnn.1 hnn.2 hm]
    exact ⟨h1, h2, h3, h4⟩
  · rw [turnOnKey_poly env k nn vel f h1 hnn.1 hnn.2 hm]
    obtain ⟨hs, hs', hsel⟩ := selectedVoice_spec k nn h2 h3
    refine ⟨h1, hs, hs', ?_⟩
    intro i j hi hi' hj hj' heq hne
    simp only [playingNotesDidChange, heldNotesDidChange, Function.update_apply] at heq hne
    by_contra hij
    by_cases his : i = selectedVoice k nn
    · have hjs : j ≠ selectedVoice k nn := fun hjs => hij (his.trans hjs.symm)
      rw [if_pos his, if_neg hjs] at heq
      simp only [NoteState.startNoteHelper] at heq
      rcases hsel with hsel | hsel
      · exact hjs (h4 j (selectedVoice k nn) hj hj' hs hs' (by rw [hsel, ← heq])
          (by rw [← heq]; omega))
      · exact hsel j hj hj' heq.symm
    · rw [if_neg his] at heq hne
      by_cases hjs : j = selectedVoice k nn
      · rw [if_pos hjs] at heq
        simp only [NoteState.startNoteHelper] at heq
        rcases hsel with hsel | hsel
        · exact his (h4 i (selectedVoice k nn) hi hi' hs hs' (by rw [hsel, heq]) hne)
        · exact hsel i hi hi' heq
      · rw [if_neg hjs] at heq
        exact hij (h4 i j hi hi' hj hj' heq hne)

theorem poolInvariant_turnOffKey (env : Env A) (k : AKSynthOneDSPKernel A) (nn : Int)
    (h : PoolInvariant k) : PoolInvariant (turnOffKey env k nn) := by
  by_cases hg : nn < 0 ∨ nn ≥ NUM_MIDI_NOTES
  · rw [turnOffKey_of_invalid env k nn hg]; exact h
  have hnn : 0 ≤ nn ∧ nn < NUM_MIDI_NOTES := by omega
  by_cases hm : k.p isMono = 1
  · by_cases hr : k.heldNoteNumbers.length = 0 ∨ k.p arpIsOn = 1
    · rw [turnOffKey_mono_release env k nn h.1 hnn.1 hnn.2 hm hr]; exact h
    · rw [turnOffKey_mono_caca env k nn h.1 hnn.1 hnn.2 hm hr]; exact h
  · rw [turnOffKey_poly env k nn h.1 hnn.1 hnn.2 hm]
    refine poolInvariant_of_roots h ?_ ?_ ?_
    · split_ifs <;> rfl
    · split_ifs <;> rfl
    · intro i _ _
      left
      split_ifs with hidx
      · simp only [playingNotesDidChange, heldNotesDidChange, Function.update_apply]
        split_ifs with hi
        · rw [hi]
        · rfl
      · rfl

theorem poolInvariant_reset (k : AKSynthOneDSPKernel A) (h : PoolInvariant k) :
    PoolInvariant (reset k) := by
  refine poolInvariant_of_roots h rfl rfl ?_
  intro i hi hi'
  right
  have : 0 ≤ i ∧ i < MAX_POLYPHONY := ⟨hi, hi'⟩
  simp [reset, forEachNoteState, this, NoteState.clear]

theorem poolInvariant_transitionToOff (k : AKSynthOneDSPKernel A) (h : PoolInvariant k) :
    PoolInvariant (transitionToOff k) := by
  refine poolInvariant_of_roots h ?_ ?_ ?_
  · simp only [transitionToOff]; split_ifs <;> rfl
  · simp only [transitionToOff]; split_ifs <;> rfl
  · intro i _ _
    simp only [transitionToOff]
    split_ifs
    all_goals first
      | (left; rfl)
      | (simp only [playingNotesDidChange]
         split_ifs
         · right; rfl
         · left; rfl)

theorem NoteState.run_rootNoteNumber (env : Env A) (k : AKSynthOneDSPKernel A)
    (note : NoteState A) : (note.run env k).rootNoteNumber = note.rootNoteNumber := rfl

theorem poolInvariant_renderNoteStates (env : Env A) (k : AKSynthOneDSPKernel A)
    (h : PoolInvariant k) : PoolInvariant (renderNoteStates env k) := by
  refine poolInvariant_of_roots h ?_ ?_ ?_
  · simp only [renderNoteStates]; split_ifs <;> rfl
  · simp only [renderNoteStates]; split_ifs <;> rfl
  · intro i _ _
    left
    simp only [renderNoteStates]
    split_ifs
    · rfl
    · rfl
    · simp only
      split_ifs
      · rfl
      · rfl

/-- The pool invariant is a voice invariant. -/
theorem poolInvariant_voiceInvariant (env : Env A) :
    VoiceInvariant env False (PoolInvariant (A := A)) where
  frame := by
    rintro k k' ⟨hn, -, hi, hini⟩ - h
    refine poolInvariant_of_roots h hini hi ?_
    intro i _ _
    left; rw [hn]
  initializeNoteStates := by
    intro k h
    rw [initializeNoteStates_of_initialized env k h.1]; exact h
  turnOnKey := fun k nn vel f h => poolInvariant_turnOnKey env k nn vel f h
  turnOffKey := fun k nn h => poolInvariant_turnOffKey env k nn h
  reset := fun k h => poolInvariant_reset k h
  transitionToOff := fun k h => poolInvariant_transitionToOff k h
  renderNoteStates := fun k h => poolInvariant_renderNoteStates env k h

theorem poolInvariant_initialised (env : Env A) (malloc : Int → NoteState A) :
    PoolInvariant (initialised env malloc) := by
  have hidx : (initialised env malloc).playingNoteStatesIndex = 0 := rfl
  refine ⟨rfl, by rw [hidx], by rw [hidx]; decide, ?_⟩
  intro i j hi hi' _ _ _ hne
  exfalso
  apply hne
  have : 0 ≤ i ∧ i < MAX_POLYPHONY := ⟨hi, hi'⟩
  simp [initialised, initializeNoteStates, init, forEachNoteState, this]

/-- In a state with the pool invariant, a note held by a valid voice is held by
exactly one voice. -/
theorem voicesHolding_eq_one (k : AKSynthOneDSPKernel A) (nn s : Int) (h : NoDuplicateNotes k)
    (hs : 0 ≤ s) (hs' : s < polyphony) (hnn : nn ≠ -1)
    (hroot : (k.noteStates s).rootNoteNumber = nn) : voicesHolding k nn = 1 := by
  have hiff : ∀ i : Int, 0 ≤ i → i < polyphony →
      ((k.noteStates i).rootNoteNumber = nn ↔ i = s) := by
    intro i hi hi'
    constructor
    · intro hi2
      exact h i s hi hi' hs hs' (by rw [hi2, hroot]) (by rw [hi2]; exact hnn)
    · rintro rfl; exact hroot
  have hpoly : polyphony = 6 := rfl
  rw [hpoly] at hs' hiff
  have h0 := hiff 0 (by omega) (by omega)
  have h1 := hiff 1 (by omega) (by omega)
  have h2 := hiff 2 (by omega) (by omega)
  have h3 := hiff 3 (by omega) (by omega)
  have h4 := hiff 4 (by omega) (by omega)
  have h5 := hiff 5 (by omega) (by omega)
  unfold voicesHolding
  rw [loopIndices_polyphony]
  simp only [List.filter_cons, List.filter_nil, h0, h1, h2, h3, h4, h5]
  have : s = 0 ∨ s = 1 ∨ s = 2 ∨ s = 3 ∨ s = 4 ∨ s = 5 := by omega
  rcases this with rfl | rfl | rfl | rfl | rfl | rfl <;> simp

/-- After a poly note-on for a valid note exactly one voice holds the note. -/
theorem voicesHolding_turnOnKey (env : Env A) (k : AKSynthOneDSPKernel A) (nn vel : Int) (f : ℚ)
    (h : PoolInvariant k) (h0 : 0 ≤ nn) (h1 : nn < NUM_MIDI_NOTES) (hm : k.p isMono ≠ 1) :
    voicesHolding (turnOnKey env k nn vel f) nn = 1 := by
  have hinv := poolInvariant_turnOnKey env k nn vel f h
  obtain ⟨hs, hs', -⟩ := selectedVoice_spec k nn h.2.1 h.2.2.1
  refine voicesHolding_eq_one _ nn (selectedVoice k nn) hinv.2.2.2 hs hs' (by omega) ?_
  rw [turnOnKey_poly env k nn vel f h.1 h0 h1 hm]
  simp [playingNotesDidChange, heldNotesDidChange, NoteState.startNoteHelper]

theorem poolInvariant_reachable (env : Env A) (malloc : Int → NoteState A)
    (k : AKSynthOneDSPKernel A) (hr : Reachable env (initialised env malloc) k) :
    PoolInvariant k :=
  voiceInvariant_reachable (poolInvariant_voiceInvariant env) hr
    (poolInvariant_initialised env malloc)

theorem indexOfNote_eq_of_holds (k : AKSynthOneDSPKernel A) (nn s : Int)
    (h : NoDuplicateNotes k) (hs : 0 ≤ s) (hs' : s < polyphony) (hnn : nn ≠ -1)
    (hroot : (k.noteStates s).rootNoteNumber = nn) : indexOfNote k nn = s := by
  rcases indexOfNote_spec k nn with ⟨-, h2⟩ | ⟨h1, h2, h3, -⟩
  · exact absurd hroot (h2 s hs hs')
  · exact h _ _ h1 h2 hs hs' (by rw [h3, hroot]) (by rw [h3]; exact hnn)

theorem selectedVoice_eq_of_holds (k : AKSynthOneDSPKernel A) (nn s : Int)
    (h : NoDuplicateNotes k) (hs : 0 ≤ s) (hs' : s < polyphony) (hnn : nn ≠ -1)
    (hroot : (k.noteStates s).rootNoteNumber = nn) : selectedVoice k nn = s := by
  have hidx := indexOfNote_eq_of_holds k nn s h hs hs' hnn hroot
  simp only [selectedVoice, hidx]
  rw [if_pos (by omega)]

theorem turnOnKey_playingNoteStatesIndex (env : Env A) (k : AKSynthOneDSPKernel A)
    (nn vel : Int) (f : ℚ) (hinit : k.initializedNoteStates = true) (h0 : 0 ≤ nn)
    (h1 : nn < NUM_MIDI_NOTES) (hm : k.p isMono ≠ 1) :
    (turnOnKey env k nn vel f).playingNoteStatesIndex = selectedVoice k nn := by
  rw [turnOnKey_poly env k nn vel f hinit h0 h1 hm]; rfl

theorem turnOnKey_rootNoteNumber (env : Env A) (k : AKSynthOneDSPKernel A)
    (nn vel : Int) (f : ℚ) (hinit : k.initializedNoteStates = true) (h0 : 0 ≤ nn)
    (h1 : nn < NUM_MIDI_NOTES) (hm : k.p isMono ≠ 1) :
    ((turnOnKey env k nn vel f).noteStates (selectedVoice k nn)).rootNoteNumber = nn := by
  rw [turnOnKey_poly env k nn vel f hinit h0 h1 hm]
  simp [playingNotesDidChange, heldNotesDidChange, NoteState.startNoteHelper]

/-- C3. In every state reachable from the initialised engine no two voices of the
pool hold the same note (other than `-1`); a poly note-on for a valid note leaves
exactly one voice holding it, and a second note-on for the same note selects the
same voice again and still leaves exactly one voice holding the note. -/
theorem voice_allocation_idempotent (env : Env A) (malloc : Int → NoteState A)
    (k : AKSynthOneDSPKernel A) (hr : Reachable env (initialised env malloc) k) :
    NoDuplicateNotes k
    ∧ ∀ (nn vel vel' : Int) (f f' : ℚ), 0 ≤ nn → nn < NUM_MIDI_NOTES → k.p isMono ≠ 1 →
        voicesHolding (turnOnKey env k nn vel f) nn = 1
        ∧ voicesHolding (turnOnKey env (turnOnKey env k nn vel f) nn vel' f') nn = 1
        ∧ (turnOnKey env (turnOnKey env k nn vel f) nn vel' f').playingNoteStatesIndex
            = (turnOnKey env k nn vel f).playingNoteStatesIndex := by
  have hk := poolInvariant_reachable env malloc k hr
  refine ⟨hk.2.2.2, ?_⟩
  intro nn vel vel' f f' h0 h1 hm
  have hk1 := poolInvariant_turnOnKey env k nn vel f hk
  have hm1 : (turnOnKey env k nn vel f).p isMono ≠ 1 := by rw [turnOnKey_p]; exact hm
  obtain ⟨hs, hs', -⟩ := selectedVoice_spec k nn hk.2.1 hk.2.2.1
  refine ⟨voicesHolding_turnOnKey env k nn vel f hk h0 h1 hm,
    voicesHolding_turnOnKey env _ nn vel' f' hk1 h0 h1 hm1, ?_⟩
  rw [turnOnKey_playingNoteStatesIndex env _ nn vel' f' hk1.1 h0 h1 hm1,
    turnOnKey_playingNoteStatesIndex env k nn vel f hk.1 h0 h1 hm]
  exact selectedVoice_eq_of_holds _ nn _ hk1.2.2.2 hs hs' (by omega)
    (turnOnKey_rootNoteNumber env k nn vel f hk.1 h0 h1 hm)

/-- Witness of C3: note 60 pressed once on the initialised engine, then twice more. -/
theorem voice_allocation_idempotent_witness :
    Reachable testEnv (initialised testEnv zeroMalloc) (turnOnKey2 testEnv testKernel 60 127)
    ∧ NoDuplicateNotes (turnOnKey2 testEnv testKernel 60 127)
    ∧ voicesHolding (turnOnKey testEnv (turnOnKey testEnv
        (turnOnKey2 testEnv testKernel 60 127) 60 100 261) 60 90 262) 60 = 1 :=
  have hr : Reachable testEnv (initialised testEnv zeroMalloc)
      (turnOnKey2 testEnv testKernel 60 127) :=
    Relation.ReflTransGen.single (Step.turnOnKey2 _ 60 127)
  ⟨hr, (voice_allocation_idempotent testEnv zeroMalloc _ hr).1,
    ((voice_allocation_idempotent testEnv zeroMalloc _ hr).2 60 100 90 261 262
      (by decide) (by decide) (by decide)).2.1⟩

/-! ### Mode invariant -/

theorem modeInvariant_of_stages {k k' : AKSynthOneDSPKernel A} (h : ModeInvariant k)
    (hinit : k'.initializedNoteStates = k.initializedNoteStates)
    (hp : k'.p isMono = k.p isMono)
    (hpool : k.p isMono = 1 → ∀ i : Int, 0 ≤ i → i < polyphony →
      (k.noteStates i).stage = stageOff → (k'.noteStates i).stage = stageOff)
    (hmono : k.p isMono ≠ 1 → k.monoNote.stage = stageOff → k'.monoNote.stage = stageOff) :
    ModeInvariant k' := by
  obtain ⟨h1, h2, h3⟩ := h
  refine ⟨by rw [hinit, h1], ?_, ?_⟩
  · intro hm i hi hi'
    rw [hp] at hm
    exact hpool hm i hi hi' (h2 hm i hi hi')
  · intro hm
    rw [hp] at hm
    exact hmono hm (h3 hm)

theorem modeInvariant_turnOnKey (env : Env A) (k : AKSynthOneDSPKernel A) (nn vel : Int) (f : ℚ)
    (h : ModeInvariant k) : ModeInvariant (turnOnKey env k nn vel f) := by
  by_cases hg : nn < 0 ∨ nn ≥ NUM_MIDI_NOTES
  · rw [turnOnKey_of_invalid env k nn vel f hg]; exact h
  have hnn : 0 ≤ nn ∧ nn < NUM_MIDI_NOTES := by omega
  by_cases hm : k.p isMono = 1
  · rw [turnOnKey_mono env k nn vel f h.1 hnn.1 hnn.2 hm]
    exact modeInvariant_of_stages h rfl rfl (fun _ _ _ _ hi => hi) (fun hm' => absurd hm hm')
  · rw [turnOnKey_poly env k nn vel f h.1 hnn.1 hnn.2 hm]
    exact modeInvariant_of_stages h rfl rfl (fun hm' => absurd hm' hm) (fun _ hi => hi)

theorem modeInvariant_turnOffKey (env : Env A) (k : AKSynthOneDSPKernel A) (nn : Int)
    (h : ModeInvariant k) : ModeInvariant (turnOffKey env k nn) := by
  by_cases hg : nn < 0 ∨ nn ≥ NUM_MIDI_NOTES
  · rw [turnOffKey_of_invalid env k nn hg]; exact h
  have hnn : 0 ≤ nn ∧ nn < NUM_MIDI_NOTES := by omega
  by_cases hm : k.p isMono = 1
  · by_cases hr : k.heldNoteNumbers.length = 0 ∨ k.p arpIsOn = 1
    · rw [turnOffKey_mono_release env k nn h.1 hnn.1 hnn.2 hm hr]
      exact modeInvariant_of_stages h rfl rfl (fun _ _ _ _ hi => hi) (fun hm' => absurd hm hm')
    · rw [turnOffKey_mono_caca env k nn h.1 hnn.1 hnn.2 hm hr]
      exact modeInvariant_of_stages h rfl rfl (fun _ _ _ _ hi => hi) (fun hm' => absurd hm hm')
  · rw [turnOffKey_poly env k nn h.1 hnn.1 hnn.2 hm]
    refine modeInvariant_of_stages h ?_ ?_ (fun hm' => absurd hm' hm) ?_
    · split_ifs <;> rfl
    · split_ifs <;> rfl
    · intro _ hi
      split_ifs
      · exact hi
      · exact hi

theorem reset_stage (k : AKSynthOneDSPKernel A) :
    (∀ i : Int, 0 ≤ i → i < polyphony → ((reset k).noteStates i).stage = stageOff)
    ∧ (reset k).monoNote.stage = stageOff := by
  refine ⟨?_, rfl⟩
  intro i hi hi'
  have : 0 ≤ i ∧ i < MAX_POLYPHONY := ⟨hi, hi'⟩
  simp [reset, forEachNoteState, this, NoteState.clear]

theorem modeInvariant_reset (k : AKSynthOneDSPKernel A) (h : k.initializedNoteStates = true) :
    ModeInvariant (reset k) :=
  ⟨h, fun _ => (reset_stage k).1, fun _ => (reset_stage k).2⟩

theorem modeInvariant_transitionToOff (k : AKSynthOneDSPKernel A) (h : ModeInvariant k) :
    ModeInvariant (transitionToOff k) := by
  by_cases hm : k.p isMono = 1
  · refine modeInvariant_of_stages h ?_ (by simp) ?_ (fun hm' => absurd hm hm')
    · simp only [transitionToOff]; split_ifs <;> rfl
    · intro _ i _ _ hi
      simp only [transitionToOff, if_pos hm]
      split_ifs
      · exact hi
      · exact hi
  · refine modeInvariant_of_stages h ?_ (by simp) (fun hm' => absurd hm' hm) ?_
    · simp only [transitionToOff]; split_ifs <;> rfl
    · intro _ hi
      simp only [transitionToOff, if_neg hm]
      split_ifs
      · exact hi
      · exact hi

theorem NoteState.run_stage (env : Env A) (k : AKSynthOneDSPKernel A) (note : NoteState A) :
    (note.run env k).stage = note.stage := rfl

theorem modeInvariant_renderNoteStates (env : Env A) (k : AKSynthOneDSPKernel A)
    (h : ModeInvariant k) : ModeInvariant (renderNoteStates env k) := by
  refine modeInvariant_of_stages h ?_ (by simp) ?_ ?_
  · simp only [renderNoteStates]; split_ifs <;> rfl
  · intro hm i _ _ hi
    simp only [renderNoteStates, if_pos hm]
    split_ifs
    · exact hi
    · exact hi
  · intro hm hi
    simp only [renderNoteStates, if_neg hm]
    exact hi

/-- The mode invariant is a voice invariant that depends on `p[isMono]`. -/
theorem modeInvariant_voiceInvariant (env : Env A) :
    VoiceInvariant env True (ModeInvariant (A := A)) where
  frame := by
    rintro k k' ⟨hn, hmono, -, hini⟩ hp h
    refine modeInvariant_of_stages h hini (hp trivial) ?_ ?_
    · intro _ i _ _ hi; rw [hn]; exact hi
    · intro _ hi; rw [hmono]; exact hi
  initializeNoteStates := by
    intro k h
    rw [initializeNoteStates_of_initialized env k h.1]; exact h
  turnOnKey := fun k nn vel f h => modeInvariant_turnOnKey env k nn vel f h
  turnOffKey := fun k nn h => modeInvariant_turnOffKey env k nn h
  reset := fun k h => modeInvariant_reset k h.1
  transitionToOff := fun k h => modeInvariant_transitionToOff k h
  renderNoteStates := fun k h => modeInvariant_renderNoteStates env k h

theorem modeInvariant_reachableInMode (env : Env A) {k₀ k : AKSynthOneDSPKernel A}
    (hr : ReachableInMode env k₀ k) (h : ModeInvariant k₀) : ModeInvariant k := by
  induction hr with
  | refl => exact h
  | tail _ hs ih =>
    exact voiceInvariant_step (modeInvariant_voiceInvariant env) hs.1 (fun _ => hs.2) ih

theorem voicesNotOff_le_of_modeInvariant (k : AKSynthOneDSPKernel A) (h : ModeInvariant k) :
    voicesNotOff k ≤ 6 ∧ (k.p isMono = 1 → voicesNotOff k ≤ 1) := by
  have hlen : ((loopIndices polyphony).filter
      (fun i => decide ((k.noteStates i).stage ≠ stageOff))).length ≤ 6 :=
    le_trans (List.length_filter_le _ _) (by decide)
  by_cases hm : k.p isMono = 1
  · have hnil : (loopIndices polyphony).filter
        (fun i => decide ((k.noteStates i).stage ≠ stageOff)) = [] := by
      rw [List.filter_eq_nil_iff]
      intro i hi
      rw [mem_loopIndices_polyphony] at hi
      simp [h.2.1 hm i hi.1 hi.2]
    have : voicesNotOff k ≤ 1 := by
      unfold voicesNotOff
      rw [hnil]
      split_ifs <;> simp
    exact ⟨by omega, fun _ => this⟩
  · refine ⟨?_, fun hm' => absurd hm' hm⟩
    unfold voicesNotOff
    rw [if_neg (by simp [h.2.2 hm])]
    omega

theorem modeInvariant_initialised (env : Env A) (malloc : Int → NoteState A) :
    ModeInvariant (initialised env malloc) := by
  refine ⟨rfl, ?_, fun _ => rfl⟩
  intro _ i hi hi'
  have : 0 ≤ i ∧ i < MAX_POLYPHONY := ⟨hi, hi'⟩
  simp [initialised, initializeNoteStates, init, forEachNoteState, this]

theorem transitionToOff_status (k : AKSynthOneDSPKernel A) :
    (transitionToOff k).previousProcessMonoPolyStatus = k.previousProcessMonoPolyStatus
    ∧ (transitionToOff k).initializedNoteStates = k.initializedNoteStates := by
  simp only [transitionToOff]
  split_ifs <;> exact ⟨rfl, rfl⟩

theorem initializeNoteStates_status (env : Env A) (k : AKSynthOneDSPKernel A) :
    (initializeNoteStates env k).previousProcessMonoPolyStatus
      = k.previousProcessMonoPolyStatus := by
  simp only [initializeNoteStates]
  split_ifs <;> rfl

/-- The first frame of a buffer that sees `p[isMono]` differ from the status of the
previous frame resets every voice, so that the mode invariant holds when
`process` returns. -/
theorem modeInvariant_process_of_switch (env : Env A) (k : AKSynthOneDSPKernel A) (n : Nat)
    (lfo : Nat → ℚ × ℚ) (h : k.p isMono ≠ k.previousProcessMonoPolyStatus) :
    ModeInvariant (process env k (n + 1) lfo) := by
  simp only [process, List.range_succ_eq_map, List.foldl_cons]
  refine foldl_preserves ModeInvariant _
    (fun b a hb => voiceInvariant_processFrame (modeInvariant_voiceInvariant env) _ b _ hb) _ _ ?_
  apply voiceInvariant_processFrame_of_switch (modeInvariant_voiceInvariant env)
  have hne : (transitionToOff (initializeNoteStates env k)).p isMono
      ≠ (transitionToOff (initializeNoteStates env k)).previousProcessMonoPolyStatus := by
    rw [transitionToOff_p, initializeNoteStates_p, (transitionToOff_status _).1,
      initializeNoteStates_status]
    exact h
  have hinit : (transitionToOff (initializeNoteStates env k)).initializedNoteStates = true := by
    rw [(transitionToOff_status _).2]
    exact initializeNoteStates_initialized env k
  simp only [monoPolySwitch, if_pos hne]
  exact ⟨hinit, fun _ => (reset_stage _).1, fun _ => (reset_stage _).2⟩

/-- C4 fails as stated: six notes pressed in poly mode, `p[isMono]` written to 1 and
a seventh note pressed leave seven voices that are not off, in mono mode. -/
theorem voicesNotOff_sevenVoices :
    Reachable testEnv (initialised testEnv zeroMalloc) sevenVoices
    ∧ sevenVoices.p isMono = 1 ∧ voicesNotOff sevenVoices = 7 := by
  refine ⟨?_, by decide, by decide⟩
  have h1 : Reachable testEnv (initialised testEnv zeroMalloc)
      (turnOnKey2 testEnv testKernel 60 127) :=
    Relation.ReflTransGen.single (Step.turnOnKey2 _ 60 127)
  have h2 := h1.tail (Step.turnOnKey2 _ 62 127)
  have h3 := h2.tail (Step.turnOnKey2 _ 64 127)
  have h4 := h3.tail (Step.turnOnKey2 _ 65 127)
  have h5 := h4.tail (Step.turnOnKey2 _ 67 127)
  have h6 := h5.tail (Step.turnOnKey2 _ 69 127)
  have h7 := h6.tail (Step.setAK1Parameter _ isMono 1 (by decide))
  exact h7.tail (Step.turnOnKey2 _ 71 127)

/-- C4 (as the code has it). Started from a state in which the voices that the
mode does not use are off, calls that leave `p[isMono]` as it is keep at most 6
voices not off, and at most 1 in mono mode.  After a write that changes
`p[isMono]`, the first `process` call of at least one frame that sees the change
resets every voice and re-establishes the bound. -/
theorem voicesNotOff_bounded_in_mode (env : Env A) (k₀ k : AKSynthOneDSPKernel A)
    (h₀ : ModeInvariant k₀) (hr : ReachableInMode env k₀ k) :
    (voicesNotOff k ≤ 6 ∧ (k.p isMono = 1 → voicesNotOff k ≤ 1))
    ∧ ∀ (k' : AKSynthOneDSPKernel A) (n : Nat) (lfo : Nat → ℚ × ℚ),
        k'.p isMono ≠ k'.previousProcessMonoPolyStatus →
        voicesNotOff (process env k' (n + 1) lfo) ≤ 6
        ∧ ((process env k' (n + 1) lfo).p isMono = 1 →
            voicesNotOff (process env k' (n + 1) lfo) ≤ 1) :=
  ⟨voicesNotOff_le_of_modeInvariant k (modeInvariant_reachableInMode env hr h₀),
    fun k' n lfo h =>
      voicesNotOff_le_of_modeInvariant _ (modeInvariant_process_of_switch env k' n lfo h)⟩

/-- Witness of C4: one note pressed on the initialised engine. -/
theorem voicesNotOff_bounded_in_mode_witness :
    ModeInvariant (initialised testEnv zeroMalloc)
    ∧ ReachableInMode testEnv (initialised testEnv zeroMalloc)
        (turnOnKey2 testEnv testKernel 60 127)
    ∧ voicesNotOff (turnOnKey2 testEnv testKernel 60 127) ≤ 6 :=
  have hr : ReachableInMode testEnv (initialised testEnv zeroMalloc)
      (turnOnKey2 testEnv testKernel 60 127) :=
    Relation.ReflTransGen.single ⟨Step.turnOnKey2 _ 60 127, by decide⟩
  ⟨modeInvariant_initialised testEnv zeroMalloc, hr,
    (voicesNotOff_bounded_in_mode testEnv _ _
      (modeInvariant_initialised testEnv zeroMalloc) hr).1.1⟩

/-! ### Which voice a poly note-on selects -/

theorem indexOfIdle_eq (k : AKSynthOneDSPKernel A)
    (hp : 0 ≤ k.playingNoteStatesIndex) (hp' : k.playingNoteStatesIndex < polyphony)
    (d : Int) (hd : 0 ≤ d) (_hd' : d < polyphony)
    (hidle : (k.noteStates ((k.playingNoteStatesIndex + d) % polyphony)).rootNoteNumber = -1)
    (hbefore : ∀ e : Int, 0 ≤ e → e < d →
      (k.noteStates ((k.playingNoteStatesIndex + e) % polyphony)).rootNoteNumber ≠ -1) :
    indexOfIdle k = (k.playingNoteStatesIndex + d) % polyphony := by
  have hpoly : polyphony = 6 := rfl
  rcases indexOfIdle_spec k hp hp' with ⟨-, h2⟩ | ⟨d', h1, h2, h3, h4, h5⟩
  · exact absurd hidle (h2 _ (by rw [hpoly]; omega) (by rw [hpoly]; omega))
  · rw [h3]
    rcases lt_trichotomy d' d with hlt | heq | hgt
    · rw [h3] at h4
      exact absurd h4 (hbefore d' h1 hlt)
    · rw [heq]
    · exact absurd hidle (h5 d hd hgt)

theorem selectedVoice_eq_idle (k : AKSynthOneDSPKernel A) (nn : Int)
    (hp : 0 ≤ k.playingNoteStatesIndex) (hp' : k.playingNoteStatesIndex < polyphony)
    (hnone : ∀ i : Int, 0 ≤ i → i < polyphony → (k.noteStates i).rootNoteNumber ≠ nn)
    (d : Int) (hd : 0 ≤ d) (hd' : d < polyphony)
    (hidle : (k.noteStates ((k.playingNoteStatesIndex + d) % polyphony)).rootNoteNumber = -1)
    (hbefore : ∀ e : Int, 0 ≤ e → e < d →
      (k.noteStates ((k.playingNoteStatesIndex + e) % polyphony)).rootNoteNumber ≠ -1) :
    selectedVoice k nn = (k.playingNoteStatesIndex + d) % polyphony := by
  have hpoly : polyphony = 6 := rfl
  have hnote : indexOfNote k nn = -1 := by
    rcases indexOfNote_spec k nn with ⟨h1, -⟩ | ⟨h1, h2, h3, -⟩
    · exact h1
    · exact absurd h3 (hnone _ h1 h2)
  have hidx := indexOfIdle_eq k hp hp' d hd hd' hidle hbefore
  simp only [selectedVoice, hnote, hidx]
  rw [if_neg (by simp), if_neg (by rw [hpoly]; omega)]

theorem selectedVoice_eq_steal (k : AKSynthOneDSPKernel A) (nn : Int)
    (hp : 0 ≤ k.playingNoteStatesIndex) (hp' : k.playingNoteStatesIndex < polyphony)
    (hnone : ∀ i : Int, 0 ≤ i → i < polyphony → (k.noteStates i).rootNoteNumber ≠ nn)
    (hbusy : ∀ i : Int, 0 ≤ i → i < polyphony → (k.noteStates i).rootNoteNumber ≠ -1) :
    selectedVoice k nn = (k.playingNoteStatesIndex + 1) % polyphony := by
  have hpoly : polyphony = 6 := rfl
  have hnote : indexOfNote k nn = -1 := by
    rcases indexOfNote_spec k nn with ⟨h1, -⟩ | ⟨h1, h2, h3, -⟩
    · exact h1
    · exact absurd h3 (hnone _ h1 h2)
  have hidx : indexOfIdle k = -1 := by
    rcases indexOfIdle_spec k hp hp' with ⟨h1, -⟩ | ⟨d, h1, h2, h3, h4, -⟩
    · exact h1
    · exact absurd h4 (hbusy _ (by rw [h3, hpoly]; omega) (by rw [h3, hpoly]; omega))
  have ht : (k.playingNoteStatesIndex + 1).tmod polyphony
      = (k.playingNoteStatesIndex + 1) % polyphony := Int.tmod_eq_emod (by omega) (by decide)
  simp [selectedVoice, hnote, hidx, ht]

/-- The note entry point `startNote(noteNumber, velocity)` in poly mode with the
arp off: the voice `selectedVoice` is restarted, the other voices are untouched. -/
theorem startNote2_poly (env : Env A) (k : AKSynthOneDSPKernel A) (nn vel : Int)
    (hinit : k.initializedNoteStates = true) (h0 : 0 ≤ nn) (h1 : nn < NUM_MIDI_NOTES)
    (hm : k.p isMono ≠ 1) (ha : k.p arpIsOn ≠ 1) :
    (startNote2 env k nn vel).initializedNoteStates = true
    ∧ (startNote2 env k nn vel).p = k.p
    ∧ (startNote2 env k nn vel).playingNoteStatesIndex = selectedVoice k nn
    ∧ (startNote2 env k nn vel).noteStates (selectedVoice k nn)
        = (k.noteStates (selectedVoice k nn)).startNoteHelper nn vel (noteToHz env nn)
    ∧ ∀ i : Int, i ≠ selectedVoice k nn →
        (startNote2 env k nn vel).noteStates i = k.noteStates i := by
  have hg : ¬ (nn < 0 ∨ nn ≥ NUM_MIDI_NOTES) := by omega
  have heq : startNote2 env k nn vel = turnOnKey env
      { k with heldNoteNumbers := nn :: k.heldNoteNumbers.filter (fun n => n ≠ nn) }
      nn vel (noteToHz env nn) := by
    simp only [startNote2, startNote, if_neg hg, if_neg ha]
  rw [heq, turnOnKey_poly env
    { k with heldNoteNumbers := nn :: k.heldNoteNumbers.filter (fun n => n ≠ nn) }
    nn vel _ hinit h0 h1 hm]
  refine ⟨hinit, rfl, rfl, ?_, ?_⟩
  · show Function.update k.noteStates (selectedVoice k nn) _ (selectedVoice k nn) = _
    rw [Function.update_same]; rfl
  · intro i hi
    show Function.update k.noteStates (selectedVoice k nn) _ i = _
    rw [Function.update_noteq hi]

/-! ### Pressing notes on a described pool -/

theorem forall_polyphony (P : Int → Prop) :
    (∀ i : Int, 0 ≤ i → i < polyphony → P i) ↔ P 0 ∧ P 1 ∧ P 2 ∧ P 3 ∧ P 4 ∧ P 5 := by
  have hpoly : polyphony = 6 := rfl
  constructor
  · intro h
    exact ⟨h 0 (by decide) (by decide), h 1 (by decide) (by decide), h 2 (by decide) (by decide),
      h 3 (by decide) (by decide), h 4 (by decide) (by decide), h 5 (by decide) (by decide)⟩
  · rintro ⟨h0, h1, h2, h3, h4, h5⟩ i hi hi'
    rw [hpoly] at hi'
    have : i = 0 ∨ i = 1 ∨ i = 2 ∨ i = 3 ∨ i = 4 ∨ i = 5 := by omega
    rcases this with rfl | rfl | rfl | rfl | rfl | rfl <;> assumption

theorem rootNoteNumbers_eq (k : AKSynthOneDSPKernel A) (r0 r1 r2 r3 r4 r5 : Int) :
    rootNoteNumbers k = [r0, r1, r2, r3, r4, r5] ↔
      (k.noteStates 0).rootNoteNumber = r0 ∧ (k.noteStates 1).rootNoteNumber = r1
      ∧ (k.noteStates 2).rootNoteNumber = r2 ∧ (k.noteStates 3).rootNoteNumber = r3
      ∧ (k.noteStates 4).rootNoteNumber = r4 ∧ (k.noteStates 5).rootNoteNumber = r5 := by
  unfold rootNoteNumbers
  rw [loopIndices_polyphony]
  simp

/-- A note-on on a described pool: the selected voice takes the note, the other
voices keep theirs. -/
theorem poolHolds_startNote2 (env : Env A) (k : AKSynthOneDSPKernel A) (nn vel : Int)
    (index s r0 r1 r2 r3 r4 r5 : Int) (h : PoolHolds k index [r0, r1, r2, r3, r4, r5])
    (h0 : 0 ≤ nn) (h1 : nn < NUM_MIDI_NOTES) (hs : selectedVoice k nn = s) :
    PoolHolds (startNote2 env k nn vel) s
      [if s = 0 then nn else r0, if s = 1 then nn else r1, if s = 2 then nn else r2,
       if s = 3 then nn else r3, if s = 4 then nn else r4, if s = 5 then nn else r5] := by
  obtain ⟨hinit, hm, ha, -, hr⟩ := h
  obtain ⟨g1, g2, g3, g4, g5⟩ := startNote2_poly env k nn vel hinit h0 h1 hm ha
  rw [hs] at g3 g4 g5
  rw [rootNoteNumbers_eq] at hr
  obtain ⟨e0, e1, e2, e3, e4, e5⟩ := hr
  have hroot : ∀ i r : Int, (k.noteStates i).rootNoteNumber = r →
      ((startNote2 env k nn vel).noteStates i).rootNoteNumber = if s = i then nn else r := by
    intro i r hir
    by_cases hi : s = i
    · rw [if_pos hi, ← hi, g4]; rfl
    · rw [if_neg hi, g5 i (fun h => hi h.symm), hir]
  refine ⟨g1, by rw [g2]; exact hm, by rw [g2]; exact ha, g3, ?_⟩
  rw [rootNoteNumbers_eq]
  exact ⟨hroot 0 r0 e0, hroot 1 r1 e1, hroot 2 r2 e2, hroot 3 r3 e3, hroot 4 r4 e4,
    hroot 5 r5 e5⟩

theorem initialised_p_isMono (env : Env A) (malloc : Int → NoteState A) :
    (initialised env malloc).p isMono = 0 := by
  show (if isMono < AKSynthOneParameterCount then parameterDefault isMono else 0) = 0
  rw [if_pos (by decide)]
  decide

theorem initialised_p_arpIsOn (env : Env A) (malloc : Int → NoteState A) :
    (initialised env malloc).p arpIsOn = 0 := by
  show (if arpIsOn < AKSynthOneParameterCount then parameterDefault arpIsOn else 0) = 0
  rw [if_pos (by decide)]
  decide

theorem poolHolds_initialised (env : Env A) (malloc : Int → NoteState A) :
    PoolHolds (initialised env malloc) 0 [-1, -1, -1, -1, -1, -1] := by
  refine ⟨rfl, by rw [initialised_p_isMono]; decide, by rw [initialised_p_arpIsOn]; decide,
    rfl, ?_⟩
  rw [rootNoteNumbers_eq]
  simp [initialised, initializeNoteStates, init, forEachNoteState, MAX_POLYPHONY]

theorem poolHolds_roots (k : AKSynthOneDSPKernel A) (index r0 r1 r2 r3 r4 r5 : Int)
    (h : PoolHolds k index [r0, r1, r2, r3, r4, r5]) :
    k.playingNoteStatesIndex = index
      ∧ (k.noteStates 0).rootNoteNumber = r0 ∧ (k.noteStates 1).rootNoteNumber = r1
      ∧ (k.noteStates 2).rootNoteNumber = r2 ∧ (k.noteStates 3).rootNoteNumber = r3
      ∧ (k.noteStates 4).rootNoteNumber = r4 ∧ (k.noteStates 5).rootNoteNumber = r5 :=
  ⟨h.2.2.2.1, (rootNoteNumbers_eq k r0 r1 r2 r3 r4 r5).1 h.2.2.2.2⟩

/-- Seven distinct notes pressed on a pool whose six voices are idle and whose
assignment index is 0: the first six fill the voices in order, the seventh takes
voice 0. -/
theorem poolHolds_seven (env : Env A) (k : AKSynthOneDSPKernel A)
    (n1 n2 n3 n4 n5 n6 n7 v1 v2 v3 v4 v5 v6 v7 : Int)
    (hvalid : ∀ n ∈ [n1, n2, n3, n4, n5, n6, n7], 0 ≤ n ∧ n < NUM_MIDI_NOTES)
    (hdist : [n1, n2, n3, n4, n5, n6, n7].Nodup)
    (k0 : PoolHolds k 0 [-1, -1, -1, -1, -1, -1]) :
    PoolHolds (pressNotes env k [(n1, v1), (n2, v2), (n3, v3), (n4, v4), (n5, v5), (n6, v6)])
      5 [n1, n2, n3, n4, n5, n6]
    ∧ selectedVoice
        (pressNotes env k [(n1, v1), (n2, v2), (n3, v3), (n4, v4), (n5, v5), (n6, v6)]) n7 = 0
    ∧ PoolHolds (pressNotes env k
        [(n1, v1), (n2, v2), (n3, v3), (n4, v4), (n5, v5), (n6, v6), (n7, v7)])
      0 [n7, n2, n3, n4, n5, n6] := by
  have w1 := hvalid n1 (by simp)
  have w2 := hvalid n2 (by simp)
  have w3 := hvalid n3 (by simp)
  have w4 := hvalid n4 (by simp)
  have w5 := hvalid n5 (by simp)
  have w6 := hvalid n6 (by simp)
  have w7 := hvalid n7 (by simp)
  have m1 : n1 ≠ -1 ∧ (-1 : Int) ≠ n1 := by omega
  have m2 : n2 ≠ -1 ∧ (-1 : Int) ≠ n2 := by omega
  have m3 : n3 ≠ -1 ∧ (-1 : Int) ≠ n3 := by omega
  have m4 : n4 ≠ -1 ∧ (-1 : Int) ≠ n4 := by omega
  have m5 : n5 ≠ -1 ∧ (-1 : Int) ≠ n5 := by omega
  have m6 : n6 ≠ -1 ∧ (-1 : Int) ≠ n6 := by omega
  have m7 : n7 ≠ -1 ∧ (-1 : Int) ≠ n7 := by omega
  simp only [List.nodup_cons, List.mem_cons, List.mem_singleton, List.not_mem_nil, not_or,
    or_false, not_false_eq_true, List.nodup_nil, and_true] at hdist
  have s1 : selectedVoice (k) n1 = 0 := by
    obtain ⟨hi, e0, e1, e2, e3, e4, e5⟩ := poolHolds_roots _ _ _ _ _ _ _ _ k0
    simp only [selectedVoice, indexOfNote, indexOfIdle, loopIndices_polyphony, List.map_cons,
      List.map_nil, hi]
    simp [polyphony, MAX_POLYPHONY, Int.tmod_eq_emod, e0, e1, e2, e3, e4, e5, hdist,
      m1, m2, m3, m4, m5, m6, m7]
  have k1 := poolHolds_startNote2 env _ n1 v1 _ _ _ _ _ _ _ _ k0 w1.1 w1.2 s1
  norm_num at k1
  have s2 : selectedVoice (startNote2 env (k) n1 v1) n2 = 1 := by
    obtain ⟨hi, e0, e1, e2, e3, e4, e5⟩ := poolHolds_roots _ _ _ _ _ _ _ _ k1
    simp only [selectedVoice, indexOfNote, indexOfIdle, loopIndices_polyphony, List.map_cons,
      List.map_nil, hi]
    simp [polyphony, MAX_POLYPHONY, Int.tmod_eq_emod, e0, e1, e2, e3, e4, e5, hdist,
      m1, m2, m3, m4, m5, m6, m7]
  have k2 := poolHolds_startNote2 env _ n2 v2 _ _ _ _ _ _ _ _ k1 w2.1 w2.2 s2
  norm_num at k2
  have s3 : selectedVoice (startNote2 env (startNote2 env (k) n1 v1) n2 v2) n3 = 2 := by
    obtain ⟨hi, e0, e1, e2, e3, e4, e5⟩ := poolHolds_roots _ _ _ _ _ _ _ _ k2
    simp only [selectedVoice, indexOfNote, indexOfIdle, loopIndices_polyphony, List.map_cons,
      List.map_nil, hi]
    simp [polyphony, MAX_POLYPHONY, Int.tmod_eq_emod, e0, e1, e2, e3, e4, e5, hdist,
      m1, m2, m3, m4, m5, m6, m7]
  have k3 := poolHolds_startNote2 env _ n3 v3 _ _ _ _ _ _ _ _ k2 w3.1 w3.2 s3
  norm_num at k3
  have s4 : selectedVoice (startNote2 env (startNote2 env (startNote2 env (k) n1 v1) n2 v2) n3 v3) n4 = 3 := by
    obtain ⟨hi, e0, e1, e2, e3, e4, e5⟩ := poolHolds_roots _ _ _ _ _ _ _ _ k3
    simp only [selectedVoice, indexOfNote, indexOfIdle, loopIndices_polyphony, List.map_cons,
      List.map_nil, hi]
    simp [polyphony, MAX_POLYPHONY, Int.tmod_eq_emod, e0, e1, e2, e3, e4, e5, hdist,
      m1, m2, m3, m4, m5, m6, m7]
  have k4 := poolHolds_startNote2 env _ n4 v4 _ _ _ _ _ _ _ _ k3 w4.1 w4.2 s4
  norm_num at k4
  have s5 : selectedVoice (startNote2 env (startNote2 env (startNote2 env (startNote2 env (k) n1 v1) n2 v2) n3 v3) n4 v4) n5 = 4 := by
    obtain ⟨hi, e0, e1, e2, e3, e4, e5⟩ := poolHolds_roots _ _ _ _ _ _ _ _ k4
    simp only [selectedVoice, indexOfNote, indexOfIdle, loopIndices_polyphony, List.map_cons,
      List.map_nil, hi]
    simp [polyphony, MAX_POLYPHONY, Int.tmod_eq_emod, e0, e1, e2, e3, e4, e5, hdist,
      m1, m2, m3, m4, m5, m6, m7]
  have k5 := poolHolds_startNote2 env _ n5 v5 _ _ _ _ _ _ _ _ k4 w5.1 w5.2 s5
  norm_num at k5
  have s6 : selectedVoice (startNote2 env (startNote2 env (startNote2 env (startNote2 env (startNote2 env (k) n1 v1) n2 v2) n3 v3) n4 v4) n5 v5) n6 = 5 := by
    obtain ⟨hi, e0, e1, e2, e3, e4, e5⟩ := poolHolds_roots _ _ _ _ _ _ _ _ k5
    simp only [selectedVoice, indexOfNote, indexOfIdle, loopIndices_polyphony, List.map_cons,
      List.map_nil, hi]
    simp [polyphony, MAX_POLYPHONY, Int.tmod_eq_emod, e0, e1, e2, e3, e4, e5, hdist,
      m1, m2, m3, m4, m5, m6, m7]
  have k6 := poolHolds_startNote2 env _ n6 v6 _ _ _ _ _ _ _ _ k5 w6.1 w6.2 s6
  norm_num at k6
  have s7 : selectedVoice (startNote2 env (startNote2 env (startNote2 env (startNote2 env (startNote2 env (startNote2 env (k) n1 v1) n2 v2) n3 v3) n4 v4) n5 v5) n6 v6) n7 = 0 := by
    obtain ⟨hi, e0, e1, e2, e3, e4, e5⟩ := poolHolds_roots _ _ _ _ _ _ _ _ k6
    simp only [selectedVoice, indexOfNote, indexOfIdle, loopIndices_polyphony, List.map_cons,
      List.map_nil, hi]
    simp [polyphony, MAX_POLYPHONY, Int.tmod_eq_emod, e0, e1, e2, e3, e4, e5, hdist,
      m1, m2, m3, m4, m5, m6, m7]
  have k7 := poolHolds_startNote2 env _ n7 v7 _ _ _ _ _ _ _ _ k6 w7.1 w7.2 s7
  norm_num at k7
  exact ⟨k6, s7, k7⟩

/-- C5. Seven pairwise distinct notes in 0..127 pressed in order on the freshly
initialised poly engine: the first six occupy voices 0..5 in order; the seventh
note-on selects voice 0, which held the first note and now holds the seventh; the
other five voices are untouched and still hold the second to sixth note. -/
theorem poly_steal_first_pressed (env : Env A) (malloc : Int → NoteState A)
    (n1 n2 n3 n4 n5 n6 n7 v1 v2 v3 v4 v5 v6 v7 : Int)
    (hvalid : ∀ n ∈ [n1, n2, n3, n4, n5, n6, n7], 0 ≤ n ∧ n < NUM_MIDI_NOTES)
    (hdist : [n1, n2, n3, n4, n5, n6, n7].Nodup) :
    rootNoteNumbers (pressNotes env (initialised env malloc)
        [(n1, v1), (n2, v2), (n3, v3), (n4, v4), (n5, v5), (n6, v6)])
      = [n1, n2, n3, n4, n5, n6]
    ∧ rootNoteNumbers (pressNotes env (initialised env malloc)
        [(n1, v1), (n2, v2), (n3, v3), (n4, v4), (n5, v5), (n6, v6), (n7, v7)])
      = [n7, n2, n3, n4, n5, n6]
    ∧ (pressNotes env (initialised env malloc)
        [(n1, v1), (n2, v2), (n3, v3), (n4, v4), (n5, v5), (n6, v6), (n7, v7)]).playingNoteStatesIndex
      = 0
    ∧ ∀ i : Int, i ≠ 0 →
        (pressNotes env (initialised env malloc)
          [(n1, v1), (n2, v2), (n3, v3), (n4, v4), (n5, v5), (n6, v6), (n7, v7)]).noteStates i
        = (pressNotes env (initialised env malloc)
          [(n1, v1), (n2, v2), (n3, v3), (n4, v4), (n5, v5), (n6, v6)]).noteStates i := by
  obtain ⟨k6, s7, k7⟩ := poolHolds_seven env (initialised env malloc) n1 n2 n3 n4 n5 n6 n7
    v1 v2 v3 v4 v5 v6 v7 hvalid hdist (poolHolds_initialised env malloc)
  refine ⟨k6.2.2.2.2, k7.2.2.2.2, k7.2.2.2.1, ?_⟩
  intro i hi
  have w7 := hvalid n7 (by simp)
  have h := (startNote2_poly env _ n7 v7 k6.1 w7.1 w7.2 k6.2.1 k6.2.2.1).2.2.2.2 i
    (by rw [s7]; exact hi)
  exact h

/-- Witness of C5: the notes 60, 62, 64, 65, 67, 69, 71. -/
theorem poly_steal_first_pressed_witness :
    rootNoteNumbers (pressNotes testEnv (initialised testEnv zeroMalloc)
        [(60, 127), (62, 127), (64, 127), (65, 127), (67, 127), (69, 127)])
      = [60, 62, 64, 65, 67, 69]
    ∧ rootNoteNumbers (pressNotes testEnv (initialised testEnv zeroMalloc)
        [(60, 127), (62, 127), (64, 127), (65, 127), (67, 127), (69, 127), (71, 127)])
      = [71, 62, 64, 65, 67, 69] :=
  have h := poly_steal_first_pressed testEnv zeroMalloc 60 62 64 65 67 69 71
    127 127 127 127 127 127 127 (by decide) (by decide)
  ⟨h.1, h.2.1⟩

/-- C6, evaluated on the code.  Notes 60, 62, 64, 65, 67, 69 fill voices 0..5; note
65 is pressed again and revoices voice 3; note 71 then finds no idle voice and
no voice holding it, and the code takes voice 4 = (3 + 1) mod 6.  Voice 4 was
last started by the fifth note-on, voice 0 by the first: the stolen voice is
not the oldest assigned one. -/
theorem steal_takes_next_not_oldest :
    rootNoteNumbers (pressNotes testEnv testKernel
        [(60, 127), (62, 127), (64, 127), (65, 127), (67, 127), (69, 127), (65, 127)])
      = [60, 62, 64, 65, 67, 69]
    ∧ (pressNotes testEnv testKernel
        [(60, 127), (62, 127), (64, 127), (65, 127), (67, 127), (69, 127), (65, 127)]
        ).playingNoteStatesIndex = 3
    ∧ selectedVoices testEnv testKernel
        [(60, 127), (62, 127), (64, 127), (65, 127), (67, 127), (69, 127), (65, 127), (71, 127)]
      = [0, 1, 2, 3, 4, 5, 3, 4]
    ∧ lastStart [0, 1, 2, 3, 4, 5, 3] 4 = some 4
    ∧ lastStart [0, 1, 2, 3, 4, 5, 3] 0 = some 0 := by
  decide

/-- C7 fails as stated: on the freshly initialised engine (`playingNoteStatesIndex`
is 0, every voice idle) the scan from `(0 + 1) mod 6` would give voice 1, and the
note-on takes voice 0. -/
theorem idle_scan_not_after_playingIndex :
    testKernel.p isMono ≠ 1
    ∧ rootNoteNumbers testKernel = [-1, -1, -1, -1, -1, -1]
    ∧ testKernel.playingNoteStatesIndex = 0
    ∧ firstIdleAfterPlayingIndex testKernel = 1
    ∧ (turnOnKey testEnv testKernel 60 127 261).playingNoteStatesIndex = 0
    ∧ ((turnOnKey testEnv testKernel 60 127 261).noteStates 0).rootNoteNumber = 60
    ∧ ((turnOnKey testEnv testKernel 60 127 261).noteStates 1).rootNoteNumber = -1 := by
  decide

/-- C7 (as the code has it). In poly mode, when no voice holds the note and some
voice is idle, a note-on selects the first idle voice in circular order starting
from `playingNoteStatesIndex` itself, and that voice then holds the note. -/
theorem idle_scan_from_playingIndex (env : Env A) (k : AKSynthOneDSPKernel A) (nn vel : Int)
    (f : ℚ) (hinit : k.initializedNoteStates = true)
    (hp : 0 ≤ k.playingNoteStatesIndex) (hp' : k.playingNoteStatesIndex < polyphony)
    (h0 : 0 ≤ nn) (h1 : nn < NUM_MIDI_NOTES) (hm : k.p isMono ≠ 1)
    (hnone : ∀ i : Int, 0 ≤ i → i < polyphony → (k.noteStates i).rootNoteNumber ≠ nn)
    (hidle : ∃ i : Int, 0 ≤ i ∧ i < polyphony ∧ (k.noteStates i).rootNoteNumber = -1) :
    ∃ d : Int, 0 ≤ d ∧ d < polyphony
      ∧ (turnOnKey env k nn vel f).playingNoteStatesIndex
          = (k.playingNoteStatesIndex + d) % polyphony
      ∧ (k.noteStates ((k.playingNoteStatesIndex + d) % polyphony)).rootNoteNumber = -1
      ∧ (∀ e : Int, 0 ≤ e → e < d →
          (k.noteStates ((k.playingNoteStatesIndex + e) % polyphony)).rootNoteNumber ≠ -1)
      ∧ ((turnOnKey env k nn vel f).noteStates
          ((k.playingNoteStatesIndex + d) % polyphony)).rootNoteNumber = nn := by
  obtain ⟨i, hi, hi', hiroot⟩ := hidle
  rcases indexOfIdle_spec k hp hp' with ⟨-, h2⟩ | ⟨d, hd, hd', h3, h4, h5⟩
  · exact absurd hiroot (h2 i hi hi')
  · rw [h3] at h4
    have hsel := selectedVoice_eq_idle k nn hp hp' hnone d hd hd' h4 h5
    refine ⟨d, hd, hd', ?_, h4, h5, ?_⟩
    · rw [turnOnKey_playingNoteStatesIndex env k nn vel f hinit h0 h1 hm, hsel]
    · rw [← hsel]
      exact turnOnKey_rootNoteNumber env k nn vel f hinit h0 h1 hm

/-- Witness of C7: the first note on the freshly initialised engine takes voice 0. -/
theorem idle_scan_from_playingIndex_witness :
    ∃ d : Int, 0 ≤ d ∧ d < polyphony
      ∧ (turnOnKey testEnv testKernel 60 127 261).playingNoteStatesIndex
          = (testKernel.playingNoteStatesIndex + d) % polyphony
      ∧ (testKernel.noteStates ((testKernel.playingNoteStatesIndex + d) % polyphony)
          ).rootNoteNumber = -1
      ∧ (∀ e : Int, 0 ≤ e → e < d →
          (testKernel.noteStates ((testKernel.playingNoteStatesIndex + e) % polyphony)
            ).rootNoteNumber ≠ -1)
      ∧ ((turnOnKey testEnv testKernel 60 127 261).noteStates
          ((testKernel.playingNoteStatesIndex + d) % polyphony)).rootNoteNumber = 60 :=
  idle_scan_from_playingIndex testEnv testKernel 60 127 261 rfl (by decide) (by decide)
    (by decide) (by decide) (by decide)
    ((forall_polyphony _).2 (by decide)) ⟨0, by decide, by decide, by decide⟩

/-- C8. `turnOffKey` in poly mode, for a valid note: the first voice that holds the
note (the only one, when no note is held twice) gets `stage = stageRelease` and
`internalGate = 0` and keeps every other field, `rootNoteNumber` included; every
other voice, the mono voice and `playingNoteStatesIndex` are unchanged; when no
voice holds the note, no voice changes. -/
theorem poly_note_off_releases_holder (env : Env A) (k : AKSynthOneDSPKernel A) (nn : Int)
    (hinit : k.initializedNoteStates = true) (h0 : 0 ≤ nn) (h1 : nn < NUM_MIDI_NOTES)
    (hm : k.p isMono ≠ 1) :
    (∀ i : Int, 0 ≤ i → i < polyphony → (k.noteStates i).rootNoteNumber = nn →
        (∀ j : Int, 0 ≤ j → j < i → (k.noteStates j).rootNoteNumber ≠ nn) →
        (turnOffKey env k nn).noteStates i
            = { k.noteStates i with stage := stageRelease, internalGate := 0 }
          ∧ ((turnOffKey env k nn).noteStates i).rootNoteNumber = nn
          ∧ ∀ j : Int, j ≠ i → (turnOffKey env k nn).noteStates j = k.noteStates j)
    ∧ (NoDuplicateNotes k → ∀ i : Int, 0 ≤ i → i < polyphony →
        (k.noteStates i).rootNoteNumber = nn →
        (turnOffKey env k nn).noteStates i
            = { k.noteStates i with stage := stageRelease, internalGate := 0 }
          ∧ ∀ j : Int, j ≠ i → (turnOffKey env k nn).noteStates j = k.noteStates j)
    ∧ ((∀ i : Int, 0 ≤ i → i < polyphony → (k.noteStates i).rootNoteNumber ≠ nn) →
        (turnOffKey env k nn).noteStates = k.noteStates)
    ∧ (turnOffKey env k nn).playingNoteStatesIndex = k.playingNoteStatesIndex
    ∧ (turnOffKey env k nn).monoNote = k.monoNote := by
  have hform := turnOffKey_poly env k nn hinit h0 h1 hm
  have hfound : ∀ i : Int, indexOfNote k nn = i → i ≠ -1 →
      (turnOffKey env k nn).noteStates i
          = { k.noteStates i with stage := stageRelease, internalGate := 0 }
        ∧ ∀ j : Int, j ≠ i → (turnOffKey env k nn).noteStates j = k.noteStates j := by
    intro i hidx hne
    rw [hform, hidx, if_pos hne]
    constructor
    · show Function.update k.noteStates i _ i = _
      rw [Function.update_same]
    · intro j hj
      show Function.update k.noteStates i _ j = _
      rw [Function.update_noteq hj]
  refine ⟨?_, ?_, ?_, ?_, ?_⟩
  · intro i hi hi' hroot hfirst
    have hidx : indexOfNote k nn = i := by
      rcases indexOfNote_spec k nn with ⟨-, h2⟩ | ⟨g1, g2, g3, g4⟩
      · exact absurd hroot (h2 i hi hi')
      · rcases lt_trichotomy (indexOfNote k nn) i with hlt | heq | hgt
        · exact absurd g3 (hfirst _ g1 hlt)
        · exact heq
        · exact absurd hroot (g4 i hi hgt)
    obtain ⟨e1, e2⟩ := hfound i hidx (by omega)
    exact ⟨e1, by rw [e1]; exact hroot, e2⟩
  · intro hnd i hi hi' hroot
    exact hfound i (indexOfNote_eq_of_holds k nn i hnd hi hi' (by omega) hroot) (by omega)
  · intro hnone
    have hidx : indexOfNote k nn = -1 := by
      rcases indexOfNote_spec k nn with ⟨g1, -⟩ | ⟨g1, g2, g3, -⟩
      · exact g1
      · exact absurd g3 (hnone _ g1 g2)
    rw [hform, hidx]
    rfl
  · rw [hform]
    split_ifs <;> rfl
  · rw [hform]
    split_ifs <;> rfl

/-- Witness of C8: note 60 pressed on the initialised engine, then released. -/
theorem poly_note_off_releases_holder_witness :
    (turnOnKey2 testEnv testKernel 60 127).initializedNoteStates = true
    ∧ (turnOnKey2 testEnv testKernel 60 127).p isMono ≠ 1
    ∧ ((turnOffKey testEnv (turnOnKey2 testEnv testKernel 60 127) 60).noteStates 0).stage
        = stageRelease
    ∧ (turnOffKey testEnv (turnOnKey2 testEnv testKernel 60 127) 60).playingNoteStatesIndex
        = (turnOnKey2 testEnv testKernel 60 127).playingNoteStatesIndex :=
  have h := poly_note_off_releases_holder testEnv (turnOnKey2 testEnv testKernel 60 127) 60
    (by decide) (by decide) (by decide) (by decide)
  ⟨by decide, by decide,
    by rw [(h.1 0 (by decide) (by decide) (by decide) (by intro j hj hj'; omega)).1],
    h.2.2.2.1⟩

/-- C10. `turnOnKey` in mono mode, for a valid note: `monoFrequency` becomes the given
frequency and the mono voice ends with `stage = stageOn`, `internalGate = 1` and
the note as `rootNoteNumber`.  When `p[monoIsLegato] = 0` the voice first goes
through the release reset (gate 0, one `sp_adsr_compute` on each envelope);
otherwise it does not, and `amp`, `filter` and both envelope states are
unchanged. -/
theorem mono_note_on_legato (env : Env A) (k : AKSynthOneDSPKernel A) (nn vel : Int) (f : ℚ)
    (hinit : k.initializedNoteStates = true) (h0 : 0 ≤ nn) (h1 : nn < NUM_MIDI_NOTES)
    (hm : k.p isMono = 1) :
    (turnOnKey env k nn vel f).monoFrequency = f
    ∧ (turnOnKey env k nn vel f).monoNote.stage = stageOn
    ∧ (turnOnKey env k nn vel f).monoNote.internalGate = 1
    ∧ (turnOnKey env k nn vel f).monoNote.rootNoteNumber = nn
    ∧ (k.p monoIsLegato = 0 →
        (turnOnKey env k nn vel f).monoNote
            = (k.monoNote.releaseReset env).startNoteHelper nn vel f
        ∧ (turnOnKey env k nn vel f).monoNote.amp = (env.sp_adsr_compute k.monoNote.adsr 0).2
        ∧ (turnOnKey env k nn vel f).monoNote.adsr = (env.sp_adsr_compute k.monoNote.adsr 0).1
        ∧ (turnOnKey env k nn vel f).monoNote.filter
            = (env.sp_adsr_compute k.monoNote.fadsr 0).2
        ∧ (turnOnKey env k nn vel f).monoNote.fadsr
            = (env.sp_adsr_compute k.monoNote.fadsr 0).1)
    ∧ (k.p monoIsLegato ≠ 0 →
        (turnOnKey env k nn vel f).monoNote = k.monoNote.startNoteHelper nn vel f
        ∧ (turnOnKey env k nn vel f).monoNote.amp = k.monoNote.amp
        ∧ (turnOnKey env k nn vel f).monoNote.filter = k.monoNote.filter
        ∧ (turnOnKey env k nn vel f).monoNote.adsr = k.monoNote.adsr
        ∧ (turnOnKey env k nn vel f).monoNote.fadsr = k.monoNote.fadsr) := by
  rw [turnOnKey_mono env k nn vel f hinit h0 h1 hm]
  refine ⟨rfl, rfl, rfl, rfl, ?_, ?_⟩
  · intro hl
    rw [if_pos hl]
    exact ⟨rfl, rfl, rfl, rfl, rfl⟩
  · intro hl
    rw [if_neg hl]
    exact ⟨rfl, rfl, rfl, rfl, rfl⟩

/-- Witness of C10: legato, 60 is played, then 62 without releasing 60; the mono
voice is on note 62 and its envelope values are those before the second
note-on. -/
theorem mono_note_on_legato_witness :
    (turnOnKey2 testEnv testKernelLegato 60 127).p isMono = 1
    ∧ (turnOnKey2 testEnv testKernelLegato 60 127).p monoIsLegato ≠ 0
    ∧ (turnOnKey testEnv (turnOnKey2 testEnv testKernelLegato 60 127) 62 127 293
        ).monoNote.rootNoteNumber = 62
    ∧ (turnOnKey testEnv (turnOnKey2 testEnv testKernelLegato 60 127) 62 127 293
        ).monoNote.amp = (turnOnKey2 testEnv testKernelLegato 60 127).monoNote.amp :=
  have h := mono_note_on_legato testEnv (turnOnKey2 testEnv testKernelLegato 60 127)
    62 127 293 (by decide) (by decide) (by decide) (by decide)
  ⟨by decide, by decide, h.2.2.2.1, (h.2.2.2.2.2 (by decide)).2.1⟩

/-! ### Frame lemmas: the held-note registry -/

@[simp] theorem initializeNoteStates_heldNoteNumbers (env : Env A) (k : AKSynthOneDSPKernel A) :
    (initializeNoteStates env k).heldNoteNumbers = k.heldNoteNumbers := by
  unfold initializeNoteStates; split_ifs <;> rfl

@[simp] theorem turnOnKey_heldNoteNumbers (env : Env A) (k : AKSynthOneDSPKernel A)
    (nn vel : Int) (f : ℚ) : (turnOnKey env k nn vel f).heldNoteNumbers = k.heldNoteNumbers := by
  simp only [turnOnKey]
  split_ifs <;> simp [playingNotesDidChange, heldNotesDidChange]

@[simp] theorem turnOnKey2_heldNoteNumbers (env : Env A) (k : AKSynthOneDSPKernel A)
    (nn vel : Int) : (turnOnKey2 env k nn vel).heldNoteNumbers = k.heldNoteNumbers := by
  simp only [turnOnKey2]
  split_ifs <;> simp

@[simp] theorem turnOffKey_heldNoteNumbers (env : Env A) (k : AKSynthOneDSPKernel A)
    (nn : Int) : (turnOffKey env k nn).heldNoteNumbers = k.heldNoteNumbers := by
  simp only [turnOffKey]
  split_ifs <;> simp [playingNotesDidChange, heldNotesDidChange]

theorem startNote_heldNoteNumbers (env : Env A) (k : AKSynthOneDSPKernel A)
    (nn vel : Int) (f : ℚ) (h0 : 0 ≤ nn) (h1 : nn < NUM_MIDI_NOTES) :
    (startNote env k nn vel f).heldNoteNumbers
      = nn :: k.heldNoteNumbers.filter (fun n => n ≠ nn) := by
  have hg : ¬ (nn < 0 ∨ nn ≥ NUM_MIDI_NOTES) := by omega
  simp only [startNote, if_neg hg]
  split_ifs <;> simp

theorem startNote_of_invalid (env : Env A) (k : AKSynthOneDSPKernel A) (nn vel : Int) (f : ℚ)
    (h : nn < 0 ∨ nn ≥ NUM_MIDI_NOTES) : startNote env k nn vel f = k := by
  simp only [startNote, if_pos h]

theorem startNote2_of_invalid (env : Env A) (k : AKSynthOneDSPKernel A) (nn vel : Int)
    (h : nn < 0 ∨ nn ≥ NUM_MIDI_NOTES) : startNote2 env k nn vel = k := by
  simp only [startNote2, if_pos h]

theorem startNote2_eq_startNote (env : Env A) (k : AKSynthOneDSPKernel A) (nn vel : Int)
    (h0 : 0 ≤ nn) (h1 : nn < NUM_MIDI_NOTES) :
    startNote2 env k nn vel = startNote env k nn vel (noteToHz env nn) := by
  have hg : ¬ (nn < 0 ∨ nn ≥ NUM_MIDI_NOTES) := by omega
  simp only [startNote2, if_neg hg]

theorem startNote2_heldNoteNumbers (env : Env A) (k : AKSynthOneDSPKernel A)
    (nn vel : Int) (h0 : 0 ≤ nn) (h1 : nn < NUM_MIDI_NOTES) :
    (startNote2 env k nn vel).heldNoteNumbers
      = nn :: k.heldNoteNumbers.filter (fun n => n ≠ nn) := by
  rw [startNote2_eq_startNote env k nn vel h0 h1]
  exact startNote_heldNoteNumbers env k nn vel _ h0 h1

theorem stopNote_of_invalid (env : Env A) (k : AKSynthOneDSPKernel A) (nn : Int)
    (h : nn < 0 ∨ nn ≥ NUM_MIDI_NOTES) : stopNote env k nn = k := by
  simp only [stopNote, if_pos h]

theorem stopNote_heldNoteNumbers (env : Env A) (k : AKSynthOneDSPKernel A)
    (nn : Int) (h0 : 0 ≤ nn) (h1 : nn < NUM_MIDI_NOTES) :
    (stopNote env k nn).heldNoteNumbers = k.heldNoteNumbers.filter (fun n => n ≠ nn) := by
  have hg : ¬ (nn < 0 ∨ nn ≥ NUM_MIDI_NOTES) := by omega
  simp only [stopNote, if_neg hg]
  split_ifs <;> simp

theorem stopNote_heldNoteNumbers_nil (env : Env A) (k : AKSynthOneDSPKernel A) (nn : Int)
    (h : k.heldNoteNumbers = []) : (stopNote env k nn).heldNoteNumbers = [] := by
  by_cases hg : nn < 0 ∨ nn ≥ NUM_MIDI_NOTES
  · rw [stopNote_of_invalid env k nn hg]; exact h
  · rw [stopNote_heldNoteNumbers env k nn (by omega) (by omega), h]; rfl

theorem stopAllNotes_heldNoteNumbers (env : Env A) (k : AKSynthOneDSPKernel A) :
    (stopAllNotes env k).heldNoteNumbers = [] := by
  simp only [stopAllNotes]
  split_ifs
  · exact stopNote_heldNoteNumbers_nil env _ 60 rfl
  · exact foldl_preserves (fun k' : AKSynthOneDSPKernel A => k'.heldNoteNumbers = []) _
      (fun b a hb => stopNote_heldNoteNumbers_nil env b a hb) _ _ rfl

@[simp] theorem reset_heldNoteNumbers (k : AKSynthOneDSPKernel A) :
    (reset k).heldNoteNumbers = k.heldNoteNumbers := rfl

theorem resetDSP_heldNoteNumbers (k : AKSynthOneDSPKernel A) :
    (resetDSP k).heldNoteNumbers = [] := rfl

@[simp] theorem transitionToOff_heldNoteNumbers (k : AKSynthOneDSPKernel A) :
    (transitionToOff k).heldNoteNumbers = k.heldNoteNumbers := by
  simp only [transitionToOff]
  split_ifs <;> simp [playingNotesDidChange]

@[simp] theorem arpSeqRebuild_heldNoteNumbers (env : Env A) (k : AKSynthOneDSPKernel A) :
    (arpSeqRebuild env k).heldNoteNumbers = k.heldNoteNumbers := by
  simp only [arpSeqRebuild]
  split_ifs <;> rfl

@[simp] theorem arpSeqTurnOn_heldNoteNumbers (env : Env A) (k : AKSynthOneDSPKernel A)
    (note : Int) : (arpSeqTurnOn env k note).heldNoteNumbers = k.heldNoteNumbers := by
  simp only [arpSeqTurnOn]
  split_ifs <;> simp

@[simp] theorem arpSeqFire_heldNoteNumbers (env : Env A) (k : AKSynthOneDSPKernel A) :
    (arpSeqFire env k).heldNoteNumbers = k.heldNoteNumbers := by
  simp only [arpSeqFire]
  split_ifs
  · exact foldl_preserves
      (fun k' : AKSynthOneDSPKernel A => k'.heldNoteNumbers = k.heldNoteNumbers) _
      (fun b a hb => by simpa using hb) _ _ rfl
  · rfl
  · simp [beatCounterDidChange]

@[simp] theorem arpSeqTurnOffLastNotes_heldNoteNumbers (env : Env A)
    (k : AKSynthOneDSPKernel A) :
    (arpSeqTurnOffLastNotes env k).heldNoteNumbers = k.heldNoteNumbers := by
  simp only [arpSeqTurnOffLastNotes]
  exact foldl_preserves
    (fun k' : AKSynthOneDSPKernel A => k'.heldNoteNumbers = k.heldNoteNumbers) _
    (fun b a hb => by simpa using hb) _ _ rfl

@[simp] theorem arpSeqStep_heldNoteNumbers (env : Env A) (k : AKSynthOneDSPKernel A) :
    (arpSeqStep env k).1.heldNoteNumbers = k.heldNoteNumbers := by
  simp only [arpSeqStep]
  split_ifs <;> simp [beatCounterDidChange]

@[simp] theorem arpSeqBeat_heldNoteNumbers (env : Env A) (k : AKSynthOneDSPKernel A) :
    (arpSeqBeat env k).1.heldNoteNumbers = k.heldNoteNumbers := by
  simp only [arpSeqBeat]
  split_ifs <;> simp

@[simp] theorem arpSeq_heldNoteNumbers (env : Env A) (s : ℚ) (k : AKSynthOneDSPKernel A) :
    (arpSeq env s k).1.heldNoteNumbers = k.heldNoteNumbers := by
  simp only [arpSeq]
  split_ifs <;> simp

@[simp] theorem renderNoteStates_heldNoteNumbers (env : Env A) (k : AKSynthOneDSPKernel A) :
    (renderNoteStates env k).heldNoteNumbers = k.heldNoteNumbers := by
  simp only [renderNoteStates]
  split_ifs <;> rfl

@[simp] theorem monoPolySwitch_heldNoteNumbers (k : AKSynthOneDSPKernel A) :
    (monoPolySwitch k).heldNoteNumbers = k.heldNoteNumbers := by
  simp only [monoPolySwitch]
  split_ifs <;> rfl

@[simp] theorem processFrame_heldNoteNumbers (env : Env A) (s : ℚ) (k : AKSynthOneDSPKernel A)
    (lfo : ℚ × ℚ) : (processFrame env s k lfo).heldNoteNumbers = k.heldNoteNumbers := by
  simp only [processFrame]
  split_ifs <;> simp

@[simp] theorem process_heldNoteNumbers (env : Env A) (k : AKSynthOneDSPKernel A) (n : Nat)
    (lfo : Nat → ℚ × ℚ) : (process env k n lfo).heldNoteNumbers = k.heldNoteNumbers := by
  simp only [process]
  exact foldl_preserves
    (fun k' : AKSynthOneDSPKernel A => k'.heldNoteNumbers = k.heldNoteNumbers) _
    (fun b a hb => by simpa using hb) _ _ (by simp)

@[simp] theorem setAK1Parameter_heldNoteNumbers (k : AKSynthOneDSPKernel A) (i : Nat) (v : ℚ) :
    (setAK1Parameter k i v).heldNoteNumbers = k.heldNoteNumbers := by
  simp only [setAK1Parameter]
  split_ifs <;> rfl

@[simp] theorem setParameter_heldNoteNumbers (k : AKSynthOneDSPKernel A) (i : Nat) (v : ℚ) :
    (setParameter k i v).heldNoteNumbers = k.heldNoteNumbers := by
  simp only [setParameter]
  split_ifs <;> rfl

/-! ### The registry invariant -/

theorem registryInvariant_of_eq {k k' : AKSynthOneDSPKernel A} (h : RegistryInvariant k)
    (he : k'.heldNoteNumbers = k.heldNoteNumbers) : RegistryInvariant k' := by
  unfold RegistryInvariant
  rw [he]; exact h

theorem registryInvariant_of_nil {k' : AKSynthOneDSPKernel A}
    (he : k'.heldNoteNumbers = []) : RegistryInvariant k' := by
  unfold RegistryInvariant
  rw [he]
  exact ⟨List.nodup_nil, fun n hn => absurd hn (List.not_mem_nil n)⟩

theorem registryInvariant_filter {k k' : AKSynthOneDSPKernel A} (nn : Int)
    (h : RegistryInvariant k)
    (he : k'.heldNoteNumbers = k.heldNoteNumbers.filter (fun n => n ≠ nn)) :
    RegistryInvariant k' := by
  unfold RegistryInvariant
  rw [he]
  exact ⟨h.1.filter _, fun n hn => h.2 n (List.mem_of_mem_filter hn)⟩

theorem registryInvariant_cons {k k' : AKSynthOneDSPKernel A} (nn : Int)
    (h0 : 0 ≤ nn) (h1 : nn < NUM_MIDI_NOTES) (h : RegistryInvariant k)
    (he : k'.heldNoteNumbers = nn :: k.heldNoteNumbers.filter (fun n => n ≠ nn)) :
    RegistryInvariant k' := by
  unfold RegistryInvariant
  rw [he]
  refine ⟨List.nodup_cons.2 ⟨?_, h.1.filter _⟩, ?_⟩
  · intro hmem
    have := List.of_mem_filter hmem
    simp at this
  · intro n hn
    rcases List.mem_cons.1 hn with rfl | hn
    · exact ⟨h0, h1⟩
    · exact h.2 n (List.mem_of_mem_filter hn)

theorem registryInvariant_startNote (env : Env A) (k : AKSynthOneDSPKernel A) (nn vel : Int)
    (f : ℚ) (h : RegistryInvariant k) : RegistryInvariant (startNote env k nn vel f) := by
  by_cases hg : nn < 0 ∨ nn ≥ NUM_MIDI_NOTES
  · rw [startNote_of_invalid env k nn vel f hg]; exact h
  · exact registryInvariant_cons nn (by omega) (by omega) h
      (startNote_heldNoteNumbers env k nn vel f (by omega) (by omega))

theorem registryInvariant_startNote2 (env : Env A) (k : AKSynthOneDSPKernel A) (nn vel : Int)
    (h : RegistryInvariant k) : RegistryInvariant (startNote2 env k nn vel) := by
  by_cases hg : nn < 0 ∨ nn ≥ NUM_MIDI_NOTES
  · rw [startNote2_of_invalid env k nn vel hg]; exact h
  · exact registryInvariant_cons nn (by omega) (by omega) h
      (startNote2_heldNoteNumbers env k nn vel (by omega) (by omega))

theorem registryInvariant_stopNote (env : Env A) (k : AKSynthOneDSPKernel A) (nn : Int)
    (h : RegistryInvariant k) : RegistryInvariant (stopNote env k nn) := by
  by_cases hg : nn < 0 ∨ nn ≥ NUM_MIDI_NOTES
  · rw [stopNote_of_invalid env k nn hg]; exact h
  · exact registryInvariant_filter nn h
      (stopNote_heldNoteNumbers env k nn (by omega) (by omega))

theorem registryInvariant_handleMIDIEvent (env : Env A) (k : AKSynthOneDSPKernel A)
    (ev : AUMIDIEvent) (h : RegistryInvariant k) :
    RegistryInvariant (handleMIDIEvent env k ev) := by
  simp only [handleMIDIEvent]
  split_ifs
  all_goals first
    | exact h
    | exact registryInvariant_stopNote env k _ h
    | exact registryInvariant_startNote2 env k _ _ h
    | exact registryInvariant_of_nil (stopAllNotes_heldNoteNumbers env k)

theorem registryInvariant_step (env : Env A) {k k' : AKSynthOneDSPKernel A}
    (hs : Step env k k') (h : RegistryInvariant k) : RegistryInvariant k' := by
  cases hs with
  | turnOnKey nn vel f => exact registryInvariant_of_eq h (by simp)
  | turnOnKey2 nn vel => exact registryInvariant_of_eq h (by simp)
  | turnOffKey nn => exact registryInvariant_of_eq h (by simp)
  | startNote nn vel f => exact registryInvariant_startNote env k nn vel f h
  | startNote2 nn vel => exact registryInvariant_startNote2 env k nn vel h
  | stopNote nn => exact registryInvariant_stopNote env k nn h
  | stopAllNotes => exact registryInvariant_of_nil (stopAllNotes_heldNoteNumbers env k)
  | handleMIDIEvent ev => exact registryInvariant_handleMIDIEvent env k ev h
  | reset => exact registryInvariant_of_eq h rfl
  | resetDSP => exact registryInvariant_of_nil rfl
  | setAK1Parameter i v hi => exact registryInvariant_of_eq h (by simp)
  | setParameter i v hi => exact registryInvariant_of_eq h (by simp)
  | setParameters params => exact registryInvariant_of_eq h rfl
  | process n lfo => exact registryInvariant_of_eq h (by simp)

theorem registryInvariant_reachable (env : Env A) (malloc : Int → NoteState A)
    {k : AKSynthOneDSPKernel A} (hr : Reachable env (initialised env malloc) k) :
    RegistryInvariant k := by
  induction hr with
  | refl => exact registryInvariant_of_nil rfl
  | tail _ hs ih => exact registryInvariant_step env hs ih

/-- C13. In every state reachable from the initialised engine the held-note registry
has no duplicates and holds only notes in 0..127.  For a note in 0..127,
`startNote` puts the note at the head and keeps the other held notes in their
order (an already held note moves to the head); `stopNote` removes the note and
keeps the others in their order. -/
theorem registry_invariant (env : Env A) (malloc : Int → NoteState A)
    (k : AKSynthOneDSPKernel A) (hr : Reachable env (initialised env malloc) k) :
    k.heldNoteNumbers.Nodup
    ∧ (∀ n ∈ k.heldNoteNumbers, 0 ≤ n ∧ n < NUM_MIDI_NOTES)
    ∧ ∀ (nn vel : Int) (f : ℚ), 0 ≤ nn → nn < NUM_MIDI_NOTES →
        (startNote env k nn vel f).heldNoteNumbers
            = nn :: k.heldNoteNumbers.filter (fun n => n ≠ nn)
        ∧ (startNote2 env k nn vel).heldNoteNumbers
            = nn :: k.heldNoteNumbers.filter (fun n => n ≠ nn)
        ∧ (stopNote env k nn).heldNoteNumbers = k.heldNoteNumbers.filter (fun n => n ≠ nn)
        ∧ nn ∉ (stopNote env k nn).heldNoteNumbers
        ∧ (∀ m, m ≠ nn → (m ∈ (stopNote env k nn).heldNoteNumbers ↔ m ∈ k.heldNoteNumbers))
        ∧ (k.heldNoteNumbers.filter (fun n => n ≠ nn)).Sublist k.heldNoteNumbers := by
  have hinv := registryInvariant_reachable env malloc hr
  refine ⟨hinv.1, hinv.2, ?_⟩
  intro nn vel f h0 h1
  have hstop := stopNote_heldNoteNumbers env k nn h0 h1
  refine ⟨startNote_heldNoteNumbers env k nn vel f h0 h1,
    startNote2_heldNoteNumbers env k nn vel h0 h1, hstop, ?_, ?_, List.filter_sublist _⟩
  · rw [hstop]
    intro hmem
    have := List.of_mem_filter hmem
    simp at this
  · intro m hm
    rw [hstop, List.mem_filter]
    simp [hm]

/-- Witness of C13: 60 and 62 are held, 60 is pressed again. -/
theorem registry_invariant_witness :
    Reachable testEnv (initialised testEnv zeroMalloc)
      (startNote2 testEnv (startNote2 testEnv testKernel 60 127) 62 127)
    ∧ (startNote2 testEnv (startNote2 testEnv testKernel 60 127) 62 127).heldNoteNumbers
        = [62, 60]
    ∧ (startNote2 testEnv (startNote2 testEnv (startNote2 testEnv testKernel 60 127) 62 127)
        60 127).heldNoteNumbers = [60, 62]
    ∧ (stopNote testEnv (startNote2 testEnv (startNote2 testEnv testKernel 60 127) 62 127)
        62).heldNoteNumbers = [60] :=
  have hr : Reachable testEnv (initialised testEnv zeroMalloc)
      (startNote2 testEnv (startNote2 testEnv testKernel 60 127) 62 127) :=
    (Relation.ReflTransGen.single (Step.startNote2 _ 60 127)).tail (Step.startNote2 _ 62 127)
  have h := (registry_invariant testEnv zeroMalloc _ hr).2.2 60 127 261 (by decide) (by decide)
  have h' := (registry_invariant testEnv zeroMalloc _ hr).2.2 62 127 261 (by decide) (by decide)
  ⟨hr, by decide, by rw [h.2.1]; decide, by rw [h'.2.2.1]; decide⟩

/-- C16. `startNoteHelper(nn, vel, f)` leaves the four oscillator frequencies at `f`,
the five source amplitudes at `(vel / 127)^2`, `stage = stageOn`,
`internalGate = 1` and `rootNoteNumber = nn`, and writes no other field.  For
`vel` in 0..127 the amplitude lies in [0, 1], and it is non-decreasing in a
non-negative `vel`. -/
theorem startNoteHelper_spec (n : NoteState A) (nn vel : Int) (f : ℚ) :
    (n.startNoteHelper nn vel f).oscmorph1_freq = f
    ∧ (n.startNoteHelper nn vel f).oscmorph2_freq = f
    ∧ (n.startNoteHelper nn vel f).subOsc_freq = f
    ∧ (n.startNoteHelper nn vel f).fmOsc_freq = f
    ∧ (n.startNoteHelper nn vel f).oscmorph1_amp = ((vel : ℚ) / 127) ^ 2
    ∧ (n.startNoteHelper nn vel f).oscmorph2_amp = ((vel : ℚ) / 127) ^ 2
    ∧ (n.startNoteHelper nn vel f).subOsc_amp = ((vel : ℚ) / 127) ^ 2
    ∧ (n.startNoteHelper nn vel f).fmOsc_amp = ((vel : ℚ) / 127) ^ 2
    ∧ (n.startNoteHelper nn vel f).noise_amp = ((vel : ℚ) / 127) ^ 2
    ∧ (n.startNoteHelper nn vel f).stage = stageOn
    ∧ (n.startNoteHelper nn vel f).internalGate = 1
    ∧ (n.startNoteHelper nn vel f).rootNoteNumber = nn
    ∧ ((n.startNoteHelper nn vel f).amp = n.amp ∧ (n.startNoteHelper nn vel f).filter = n.filter
        ∧ (n.startNoteHelper nn vel f).adsr = n.adsr
        ∧ (n.startNoteHelper nn vel f).fadsr = n.fadsr)
    ∧ (0 ≤ vel → vel ≤ 127 →
        0 ≤ (n.startNoteHelper nn vel f).oscmorph1_amp
        ∧ (n.startNoteHelper nn vel f).oscmorph1_amp ≤ 1)
    ∧ (∀ vel' : Int, 0 ≤ vel → vel ≤ vel' →
        (n.startNoteHelper nn vel f).oscmorph1_amp
          ≤ (n.startNoteHelper nn vel' f).oscmorph1_amp) := by
  have hamp : ∀ v : Int, (n.startNoteHelper nn v f).oscmorph1_amp = ((v : ℚ) / 127) ^ 2 := by
    intro v
    simp only [NoteState.startNoteHelper, pow2]
    ring
  have hother : ∀ v : Int, pow2 ((v : ℚ) / 127) = ((v : ℚ) / 127) ^ 2 := by
    intro v; unfold pow2; ring
  refine ⟨rfl, rfl, rfl, rfl, hamp vel, hother vel, hother vel, hother vel, hother vel,
    rfl, rfl, rfl, ⟨rfl, rfl, rfl, rfl⟩, ?_, ?_⟩
  · intro h0 h1
    rw [hamp]
    have hv0 : (0 : ℚ) ≤ (vel : ℚ) / 127 := by
      have : (0 : ℚ) ≤ (vel : ℚ) := by exact_mod_cast h0
      positivity
    have hv1 : (vel : ℚ) / 127 ≤ 1 := by
      have : (vel : ℚ) ≤ 127 := by exact_mod_cast h1
      rw [div_le_one (by norm_num)]
      exact this
    exact ⟨by positivity, pow_le_one₀ hv0 hv1⟩
  · intro vel' h0 hle
    rw [hamp, hamp]
    have hv0 : (0 : ℚ) ≤ (vel : ℚ) / 127 := by
      have : (0 : ℚ) ≤ (vel : ℚ) := by exact_mod_cast h0
      positivity
    have hle' : (vel : ℚ) / 127 ≤ (vel' : ℚ) / 127 := by
      have : (vel : ℚ) ≤ (vel' : ℚ) := by exact_mod_cast hle
      exact div_le_div_of_nonneg_right this (by norm_num)
    exact pow_le_pow_left₀ hv0 hle' 2

/-! ### MIDI -/

/-- C14 (as the code has it). For a 3-byte message with status `byte0 & 0xF0`: status
0x80 with `byte1 <= 127` is `stopNote(byte1)`; status 0x90 with `byte1 <= 127`
and `byte2 <= 127` is `startNote(byte1, byte2)`, velocity 0 included; status
0x90 with `byte2 > 127` is ignored; status 0xB0 with `byte1 = 123` is
`stopAllNotes`; any other message leaves the engine as it is. -/
theorem handleMIDIEvent_decode (env : Env A) (k : AKSynthOneDSPKernel A) (ev : AUMIDIEvent)
    (hb0 : ev.data0 < 256) (hb1 : ev.data1 < 256) (hb2 : ev.data2 < 256) :
    (ev.length = 3 → ev.data0 &&& 0xF0 = 0x80 → ev.data1 ≤ 127 →
        handleMIDIEvent env k ev = stopNote env k ev.data1)
    ∧ (ev.length = 3 → ev.data0 &&& 0xF0 = 0x90 → ev.data1 ≤ 127 → ev.data2 ≤ 127 →
        handleMIDIEvent env k ev = startNote2 env k ev.data1 ev.data2)
    ∧ (ev.length = 3 → ev.data0 &&& 0xF0 = 0x90 → ev.data1 ≤ 127 → ev.data2 = 0 →
        handleMIDIEvent env k ev = startNote2 env k ev.data1 0)
    ∧ (ev.length = 3 → ev.data0 &&& 0xF0 = 0x90 → ev.data2 > 127 →
        handleMIDIEvent env k ev = k)
    ∧ (ev.length = 3 → ev.data0 &&& 0xF0 = 0xB0 → ev.data1 = 123 →
        handleMIDIEvent env k ev = stopAllNotes env k)
    ∧ (ev.length ≠ 3 → handleMIDIEvent env k ev = k)
    ∧ (ev.data0 &&& 0xF0 ≠ 0x80 → ev.data0 &&& 0xF0 ≠ 0x90 → ev.data0 &&& 0xF0 ≠ 0xB0 →
        handleMIDIEvent env k ev = k)
    ∧ (ev.data0 &&& 0xF0 = 0xB0 → ev.data1 ≠ 123 → handleMIDIEvent env k ev = k)
    ∧ (ev.data0 &&& 0xF0 ≠ 0xB0 → ev.data1 ≥ 128 → handleMIDIEvent env k ev = k) := by
  have m0 : ev.data0 % 256 = ev.data0 := Nat.mod_eq_of_lt hb0
  have m1 : ev.data1 % 256 = ev.data1 := Nat.mod_eq_of_lt hb1
  have m2 : ev.data2 % 256 = ev.data2 := Nat.mod_eq_of_lt hb2
  simp only [handleMIDIEvent, m0, m1, m2]
  refine ⟨?_, ?_, ?_, ?_, ?_, ?_, ?_, ?_, ?_⟩
  · intro hl hs h1
    simp [hl, hs, Nat.not_lt.2 h1]
  · intro hl hs h1 h2
    have : ¬ (ev.data1 > 127 ∨ ev.data2 > 127) := by omega
    simp [hl, hs, this]
  · intro hl hs h1 h2
    have h127 : ¬ (127 < ev.data1) := by omega
    simp [hl, hs, h2, h127]
  · intro hl hs h2
    simp [hl, hs, h2]
  · intro hl hs h1
    simp [hl, hs, h1]
  · intro hl
    simp [hl]
  · intro h8 h9 hb
    simp [h8, h9, hb]
  · intro hs h1
    simp [hs, h1]
  · intro hb h1
    have h1' : ev.data1 > 127 := by omega
    split_ifs <;> first | rfl | omega

/-- Witness of C14: the message 0x91 60 0 is a note-on for note 60 at velocity 0. -/
theorem handleMIDIEvent_decode_witness :
    handleMIDIEvent testEnv testKernel ⟨3, 0x91, 60, 0⟩ = startNote2 testEnv testKernel 60 0
    ∧ (handleMIDIEvent testEnv testKernel ⟨3, 0x91, 60, 0⟩).heldNoteNumbers = [60] :=
  have h := (handleMIDIEvent_decode testEnv testKernel ⟨3, 0x91, 60, 0⟩
    (by decide) (by decide) (by decide)).2.2.1 rfl (by decide) (by decide) rfl
  ⟨h, by rw [h]; decide⟩

/-- C14 fails as stated: the 3-byte message 0x90 60 200 has status 0x90 and
`byte1 <= 127`, and it is ignored, while `startNote(60, 200)` puts note 60 in the
registry and starts a voice. -/
theorem handleMIDIEvent_velocity_guard :
    noteOnVelocity200.length = 3 ∧ noteOnVelocity200.data0 &&& 0xF0 = 0x90
    ∧ noteOnVelocity200.data1 ≤ 127
    ∧ (handleMIDIEvent testEnv testKernel noteOnVelocity200).heldNoteNumbers = []
    ∧ ((handleMIDIEvent testEnv testKernel noteOnVelocity200).noteStates 0).stage = stageOff
    ∧ (startNote2 testEnv testKernel 60 200).heldNoteNumbers = [60]
    ∧ ((startNote2 testEnv testKernel 60 200).noteStates 0).stage = stageOn := by
  decide

/-! ### Retirement of released voices -/

theorem NoteState.clear_spec (n : NoteState A) :
    n.clear.rootNoteNumber = -1 ∧ n.clear.stage = stageOff ∧ n.clear.amp = 0
    ∧ n.clear.internalGate = 0 := ⟨rfl, rfl, rfl, rfl⟩

theorem NoteState.isReleased_iff (n : NoteState A) :
    n.isReleased = true ↔ n.stage = stageRelease ∧ n.amp < RELEASE_AMPLITUDE_THRESHOLD := by
  simp [NoteState.isReleased]

theorem any_loopIndices_polyphony (q : Int → Bool) :
    (loopIndices polyphony).any q = true ↔ ∃ i : Int, 0 ≤ i ∧ i < polyphony ∧ q i = true := by
  rw [List.any_eq_true]
  constructor
  · rintro ⟨i, hi, hq⟩
    rw [mem_loopIndices_polyphony] at hi
    exact ⟨i, hi.1, hi.2, hq⟩
  · rintro ⟨i, hi, hi', hq⟩
    exact ⟨i, (mem_loopIndices_polyphony i).2 ⟨hi, hi'⟩, hq⟩

/-- C15 (as the code has it). The block of the preamble of `process` that retires
voices looks at the voices of the current mode only: in mono mode at the mono
voice, otherwise at the six voices of the pool.  Such a voice is cleared
(`rootNoteNumber = -1`, `stage = stageOff`, `amp = 0`, `internalGate = 0`) when
it is in release with `amp` below the threshold; every other voice is
unchanged; `playingNotesDidChange` is posted exactly when a voice was cleared.
In a state where the voices that the mode does not use are off, this covers every
voice in release. -/
theorem transitionToOff_spec (k : AKSynthOneDSPKernel A) :
    (k.p isMono = 1 →
        (transitionToOff k).noteStates = k.noteStates
        ∧ (k.monoNote.stage = stageRelease ∧ k.monoNote.amp < RELEASE_AMPLITUDE_THRESHOLD →
            (transitionToOff k).monoNote = k.monoNote.clear
            ∧ (transitionToOff k).messageQueue
                = k.messageQueue ++ [Notification.playingNotesDidChange])
        ∧ (¬ (k.monoNote.stage = stageRelease ∧ k.monoNote.amp < RELEASE_AMPLITUDE_THRESHOLD) →
            (transitionToOff k).monoNote = k.monoNote
            ∧ (transitionToOff k).messageQueue = k.messageQueue))
    ∧ (k.p isMono ≠ 1 →
        (transitionToOff k).monoNote = k.monoNote
        ∧ (∀ i : Int, 0 ≤ i → i < polyphony →
            (k.noteStates i).stage = stageRelease →
            (k.noteStates i).amp < RELEASE_AMPLITUDE_THRESHOLD →
            (transitionToOff k).noteStates i = (k.noteStates i).clear)
        ∧ (∀ i : Int,
            ¬ ((k.noteStates i).stage = stageRelease
                ∧ (k.noteStates i).amp < RELEASE_AMPLITUDE_THRESHOLD) →
            (transitionToOff k).noteStates i = k.noteStates i)
        ∧ ((∃ i : Int, 0 ≤ i ∧ i < polyphony ∧ (k.noteStates i).stage = stageRelease
              ∧ (k.noteStates i).amp < RELEASE_AMPLITUDE_THRESHOLD) →
            (transitionToOff k).messageQueue
              = k.messageQueue ++ [Notification.playingNotesDidChange])
        ∧ (¬ (∃ i : Int, 0 ≤ i ∧ i < polyphony ∧ (k.noteStates i).stage = stageRelease
              ∧ (k.noteStates i).amp < RELEASE_AMPLITUDE_THRESHOLD) →
            (transitionToOff k).messageQueue = k.messageQueue))
    ∧ (ModeInvariant k →
        (∀ i : Int, 0 ≤ i → i < polyphony →
            (k.noteStates i).stage = stageRelease →
            (k.noteStates i).amp < RELEASE_AMPLITUDE_THRESHOLD →
            (transitionToOff k).noteStates i = (k.noteStates i).clear)
        ∧ (k.monoNote.stage = stageRelease → k.monoNote.amp < RELEASE_AMPLITUDE_THRESHOLD →
            (transitionToOff k).monoNote = k.monoNote.clear)) := by
  have hmono : k.p isMono = 1 →
      (transitionToOff k).noteStates = k.noteStates
      ∧ (k.monoNote.stage = stageRelease ∧ k.monoNote.amp < RELEASE_AMPLITUDE_THRESHOLD →
          (transitionToOff k).monoNote = k.monoNote.clear
          ∧ (transitionToOff k).messageQueue
              = k.messageQueue ++ [Notification.playingNotesDidChange])
      ∧ (¬ (k.monoNote.stage = stageRelease ∧ k.monoNote.amp < RELEASE_AMPLITUDE_THRESHOLD) →
          (transitionToOff k).monoNote = k.monoNote
          ∧ (transitionToOff k).messageQueue = k.messageQueue) := by
    intro hm
    simp only [transitionToOff, if_pos hm]
    refine ⟨by split_ifs <;> rfl, ?_, ?_⟩
    · intro h
      rw [if_pos ((NoteState.isReleased_iff _).2 h)]
      exact ⟨rfl, rfl⟩
    · intro h
      have : ¬ (k.monoNote.isReleased = true) := fun h' => h ((NoteState.isReleased_iff _).1 h')
      rw [if_neg this]
      exact ⟨rfl, rfl⟩
  have hpoly : k.p isMono ≠ 1 →
      (transitionToOff k).monoNote = k.monoNote
      ∧ (∀ i : Int, 0 ≤ i → i < polyphony →
          (k.noteStates i).stage = stageRelease →
          (k.noteStates i).amp < RELEASE_AMPLITUDE_THRESHOLD →
          (transitionToOff k).noteStates i = (k.noteStates i).clear)
      ∧ (∀ i : Int,
          ¬ ((k.noteStates i).stage = stageRelease
              ∧ (k.noteStates i).amp < RELEASE_AMPLITUDE_THRESHOLD) →
          (transitionToOff k).noteStates i = k.noteStates i)
      ∧ ((∃ i : Int, 0 ≤ i ∧ i < polyphony ∧ (k.noteStates i).stage = stageRelease
            ∧ (k.noteStates i).amp < RELEASE_AMPLITUDE_THRESHOLD) →
          (transitionToOff k).messageQueue
            = k.messageQueue ++ [Notification.playingNotesDidChange])
      ∧ (¬ (∃ i : Int, 0 ≤ i ∧ i < polyphony ∧ (k.noteStates i).stage = stageRelease
            ∧ (k.noteStates i).amp < RELEASE_AMPLITUDE_THRESHOLD) →
          (transitionToOff k).messageQueue = k.messageQueue) := by
    intro hm
    simp only [transitionToOff, if_neg hm]
    refine ⟨by split_ifs <;> rfl, ?_, ?_, ?_, ?_⟩
    · intro i hi hi' hs ha
      have hrel := (NoteState.isReleased_iff (k.noteStates i)).2 ⟨hs, ha⟩
      have hc : 0 ≤ i ∧ i < polyphony ∧ (k.noteStates i).isReleased = true := ⟨hi, hi', hrel⟩
      split_ifs <;> simp [playingNotesDidChange, hc]
    · intro i hn
      have hrel : ¬ ((k.noteStates i).isReleased = true) :=
        fun h' => hn ((NoteState.isReleased_iff _).1 h')
      have hc : ¬ (0 ≤ i ∧ i < polyphony ∧ (k.noteStates i).isReleased = true) :=
        fun h' => hrel h'.2.2
      split_ifs <;> simp [playingNotesDidChange, hc]
    · rintro ⟨i, hi, hi', hs, ha⟩
      have hany : (loopIndices polyphony).any (fun i => (k.noteStates i).isReleased) = true :=
        (any_loopIndices_polyphony _).2
          ⟨i, hi, hi', (NoteState.isReleased_iff _).2 ⟨hs, ha⟩⟩
      rw [if_pos hany]
      rfl
    · intro hn
      have hany : ¬ ((loopIndices polyphony).any (fun i => (k.noteStates i).isReleased) = true) := by
        intro h'
        obtain ⟨i, hi, hi', hq⟩ := (any_loopIndices_polyphony _).1 h'
        exact hn ⟨i, hi, hi', (NoteState.isReleased_iff _).1 hq⟩
      rw [if_neg hany]
  refine ⟨hmono, hpoly, ?_⟩
  intro hinv
  by_cases hm : k.p isMono = 1
  · refine ⟨?_, fun hs ha => ((hmono hm).2.1 ⟨hs, ha⟩).1⟩
    intro i hi hi' hs _
    have := hinv.2.1 hm i hi hi'
    rw [this] at hs
    exact absurd hs (by decide)
  · refine ⟨(hpoly hm).2.1, ?_⟩
    intro hs _
    have := hinv.2.2 hm
    rw [this] at hs
    exact absurd hs (by decide)

/-- C15 fails as stated: in the reachable state `staleMonoRelease` the engine is in
poly mode and the mono voice is in release with `amp = 0`; the preamble leaves it
in release, holding note 60. -/
theorem transitionToOff_skips_other_mode :
    Reachable testEnv (initialised testEnv zeroMalloc) staleMonoRelease
    ∧ staleMonoRelease.monoNote.stage = stageRelease
    ∧ staleMonoRelease.monoNote.amp < RELEASE_AMPLITUDE_THRESHOLD
    ∧ (transitionToOff staleMonoRelease).monoNote.stage = stageRelease
    ∧ (transitionToOff staleMonoRelease).monoNote.rootNoteNumber = 60 := by
  refine ⟨?_, by decide, ?_, by decide, by decide⟩
  · have h1 : Reachable testEnv (initialised testEnv zeroMalloc) testKernelMono :=
      Relation.ReflTransGen.single (Step.setAK1Parameter _ isMono 1 (by decide))
    have h2 := h1.tail (Step.startNote2 _ 60 127)
    have h3 := h2.tail (Step.stopNote _ 60)
    exact h3.tail (Step.setAK1Parameter _ isMono 0 (by decide))
  · have h : staleMonoRelease.monoNote.amp = (testEnv.sp_adsr_compute 0 0).2 := by rfl
    rw [h]
    norm_num [testEnv, RELEASE_AMPLITUDE_THRESHOLD]

/-! ### The slot invariant -/

/-- The slot invariant carries over when every voice either keeps stage and note, or
is started on a MIDI note, or is put in release while it holds a note, or is
cleared. -/
theorem slotInvariant_of_voices {k k' : AKSynthOneDSPKernel A} (h : SlotInvariant k)
    (hpool : ∀ i : Int, 0 ≤ i → i < polyphony →
      ((k'.noteStates i).stage = (k.noteStates i).stage
          ∧ (k'.noteStates i).rootNoteNumber = (k.noteStates i).rootNoteNumber)
      ∨ ((k'.noteStates i).stage ≠ stageOff ∧ 0 ≤ (k'.noteStates i).rootNoteNumber
          ∧ (k'.noteStates i).rootNoteNumber < NUM_MIDI_NOTES)
      ∨ ((k'.noteStates i).stage = stageOff ∧ (k'.noteStates i).rootNoteNumber = -1))
    (hmono : (k'.monoNote.stage = k.monoNote.stage
          ∧ k'.monoNote.rootNoteNumber = k.monoNote.rootNoteNumber)
      ∨ k'.monoNote.stage ≠ stageOff
      ∨ k'.monoNote.rootNoteNumber = -1) : SlotInvariant k' := by
  refine ⟨?_, ?_⟩
  · intro i hi hi'
    rcases hpool i hi hi' with ⟨h1, h2⟩ | ⟨h1, h2, h3⟩ | ⟨h1, h2⟩
    · rw [h1, h2]; exact h.1 i hi hi'
    · refine ⟨⟨fun hs => absurd hs h1, fun hr => ?_⟩, Or.inr ⟨h2, h3⟩⟩
      rw [hr] at h2
      exact absurd h2 (by decide)
    · exact ⟨⟨fun _ => h2, fun _ => h1⟩, Or.inl h2⟩
  · intro hs
    rcases hmono with ⟨h1, h2⟩ | h1 | h1
    · rw [h2]; exact h.2 (by rw [← h1]; exact hs)
    · exact absurd hs h1
    · exact h1

theorem engineInvariant_turnOnKey (env : Env A) (k : AKSynthOneDSPKernel A) (nn vel : Int)
    (f : ℚ) (h : EngineInvariant k) : EngineInvariant (turnOnKey env k nn vel f) := by
  refine ⟨poolInvariant_turnOnKey env k nn vel f h.1, ?_⟩
  by_cases hg : nn < 0 ∨ nn ≥ NUM_MIDI_NOTES
  · rw [turnOnKey_of_invalid env k nn vel f hg]; exact h.2
  have hnn : 0 ≤ nn ∧ nn < NUM_MIDI_NOTES := by omega
  by_cases hm : k.p isMono = 1
  · rw [turnOnKey_mono env k nn vel f h.1.1 hnn.1 hnn.2 hm]
    refine slotInvariant_of_voices h.2 (fun i _ _ => Or.inl ⟨rfl, rfl⟩) (Or.inr (Or.inl ?_))
    show stageOn ≠ stageOff
    decide
  · rw [turnOnKey_poly env k nn vel f h.1.1 hnn.1 hnn.2 hm]
    refine slotInvariant_of_voices h.2 ?_ (Or.inl ⟨rfl, rfl⟩)
    intro i _ _
    by_cases hi : i = selectedVoice k nn
    · right; left
      subst hi
      simp only [playingNotesDidChange, heldNotesDidChange, Function.update_same,
        NoteState.startNoteHelper]
      exact ⟨by decide, hnn.1, hnn.2⟩
    · left
      show (Function.update k.noteStates _ _ i).stage = _
        ∧ (Function.update k.noteStates _ _ i).rootNoteNumber = _
      rw [Function.update_noteq hi]
      exact ⟨rfl, rfl⟩

theorem engineInvariant_turnOffKey (env : Env A) (k : AKSynthOneDSPKernel A) (nn : Int)
    (h : EngineInvariant k) : EngineInvariant (turnOffKey env k nn) := by
  refine ⟨poolInvariant_turnOffKey env k nn h.1, ?_⟩
  by_cases hg : nn < 0 ∨ nn ≥ NUM_MIDI_NOTES
  · rw [turnOffKey_of_invalid env k nn hg]; exact h.2
  have hnn : 0 ≤ nn ∧ nn < NUM_MIDI_NOTES := by omega
  by_cases hm : k.p isMono = 1
  · by_cases hr : k.heldNoteNumbers.length = 0 ∨ k.p arpIsOn = 1
    · rw [turnOffKey_mono_release env k nn h.1.1 hnn.1 hnn.2 hm hr]
      refine slotInvariant_of_voices h.2 (fun i _ _ => Or.inl ⟨rfl, rfl⟩) (Or.inr (Or.inl ?_))
      show stageRelease ≠ stageOff
      decide
    · rw [turnOffKey_mono_caca env k nn h.1.1 hnn.1 hnn.2 hm hr]
      refine slotInvariant_of_voices h.2 (fun i _ _ => Or.inl ⟨rfl, rfl⟩) (Or.inr (Or.inl ?_))
      show stageOn ≠ stageOff
      decide
  · rw [turnOffKey_poly env k nn h.1.1 hnn.1 hnn.2 hm]
    rcases indexOfNote_spec k nn with ⟨h1, -⟩ | ⟨h1, h2, h3, -⟩
    · rw [if_neg (by simpa using h1)]
      exact slotInvariant_of_voices h.2 (fun i _ _ => Or.inl ⟨rfl, rfl⟩) (Or.inl ⟨rfl, rfl⟩)
    · rw [if_pos (by omega)]
      refine slotInvariant_of_voices h.2 ?_ (Or.inl ⟨rfl, rfl⟩)
      intro i _ _
      by_cases hi : i = indexOfNote k nn
      · right; left
        subst hi
        simp only [playingNotesDidChange, heldNotesDidChange, Function.update_same]
        exact ⟨by decide, by rw [h3]; exact hnn.1, by rw [h3]; exact hnn.2⟩
      · left
        show (Function.update k.noteStates _ _ i).stage = _
          ∧ (Function.update k.noteStates _ _ i).rootNoteNumber = _
        rw [Function.update_noteq hi]
        exact ⟨rfl, rfl⟩

theorem engineInvariant_reset (k : AKSynthOneDSPKernel A) (h : EngineInvariant k) :
    EngineInvariant (reset k) := by
  refine ⟨poolInvariant_reset k h.1, slotInvariant_of_voices h.2 ?_ (Or.inr (Or.inr rfl))⟩
  intro i hi hi'
  right; right
  have : 0 ≤ i ∧ i < MAX_POLYPHONY := ⟨hi, hi'⟩
  simp [reset, forEachNoteState, this, NoteState.clear]

theorem engineInvariant_transitionToOff (k : AKSynthOneDSPKernel A) (h : EngineInvariant k) :
    EngineInvariant (transitionToOff k) := by
  refine ⟨poolInvariant_transitionToOff k h.1, ?_⟩
  simp only [transitionToOff]
  split_ifs
  · exact slotInvariant_of_voices h.2 (fun i _ _ => Or.inl ⟨rfl, rfl⟩) (Or.inr (Or.inr rfl))
  · exact h.2
  · refine slotInvariant_of_voices h.2 ?_ (Or.inl ⟨rfl, rfl⟩)
    intro i _ _
    simp only [playingNotesDidChange]
    split_ifs
    · right; right; exact ⟨rfl, rfl⟩
    · left; exact ⟨rfl, rfl⟩
  · refine slotInvariant_of_voices h.2 ?_ (Or.inl ⟨rfl, rfl⟩)
    intro i _ _
    simp only
    split_ifs
    · right; right; exact ⟨rfl, rfl⟩
    · left; exact ⟨rfl, rfl⟩

theorem engineInvariant_renderNoteStates (env : Env A) (k : AKSynthOneDSPKernel A)
    (h : EngineInvariant k) : EngineInvariant (renderNoteStates env k) := by
  refine ⟨poolInvariant_renderNoteStates env k h.1, ?_⟩
  simp only [renderNoteStates]
  split_ifs
  · exact slotInvariant_of_voices h.2 (fun i _ _ => Or.inl ⟨rfl, rfl⟩) (Or.inl ⟨rfl, rfl⟩)
  · exact h.2
  · refine slotInvariant_of_voices h.2 ?_ (Or.inl ⟨rfl, rfl⟩)
    intro i _ _
    left
    simp only
    split_ifs
    · exact ⟨rfl, rfl⟩
    · exact ⟨rfl, rfl⟩

/-- The invariant of the voices is a voice invariant. -/
theorem engineInvariant_voiceInvariant (env : Env A) :
    VoiceInvariant env False (EngineInvariant (A := A)) where
  frame := by
    rintro k k' ⟨hn, hmono, hi, hini⟩ hp h
    refine ⟨(poolInvariant_voiceInvariant env).frame k k' ⟨hn, hmono, hi, hini⟩ hp h.1, ?_⟩
    refine slotInvariant_of_voices h.2 (fun i _ _ => Or.inl ?_) (Or.inl ?_)
    · rw [hn]; exact ⟨rfl, rfl⟩
    · rw [hmono]; exact ⟨rfl, rfl⟩
  initializeNoteStates := by
    intro k h
    rw [initializeNoteStates_of_initialized env k h.1.1]; exact h
  turnOnKey := fun k nn vel f h => engineInvariant_turnOnKey env k nn vel f h
  turnOffKey := fun k nn h => engineInvariant_turnOffKey env k nn h
  reset := fun k h => engineInvariant_reset k h
  transitionToOff := fun k h => engineInvariant_transitionToOff k h
  renderNoteStates := fun k h => engineInvariant_renderNoteStates env k h

theorem engineInvariant_initialised (env : Env A) (malloc : Int → NoteState A) :
    EngineInvariant (initialised env malloc) := by
  refine ⟨poolInvariant_initialised env malloc, ?_, fun _ => rfl⟩
  intro i hi hi'
  have : 0 ≤ i ∧ i < MAX_POLYPHONY := ⟨hi, hi'⟩
  simp [initialised, initializeNoteStates, init, forEachNoteState, this]

theorem engineInvariant_reachable (env : Env A) (malloc : Int → NoteState A)
    {k : AKSynthOneDSPKernel A} (hr : Reachable env (initialised env malloc) k) :
    EngineInvariant k :=
  voiceInvariant_reachable (engineInvariant_voiceInvariant env) hr
    (engineInvariant_initialised env malloc)

/-! ### `stopAllNotes` -/

theorem mem_loopIndices (n i : Int) : i ∈ loopIndices n ↔ 0 ≤ i ∧ i < n := by
  unfold loopIndices
  simp only [List.mem_map, List.mem_range]
  constructor
  · rintro ⟨a, ha, rfl⟩
    have : (a : Int) < n.toNat := by exact_mod_cast ha
    constructor
    · exact Int.ofNat_nonneg a
    · have h2 : ((n.toNat : Nat) : Int) ≤ max n 0 := by rw [Int.toNat_eq_max]
      have : Int.ofNat a < n.toNat := this
      omega
  · rintro ⟨h0, h1⟩
    refine ⟨i.toNat, ?_, ?_⟩
    · omega
    · show ((i.toNat : Nat) : Int) = i
      omega

theorem NoteState.release_release (n : NoteState A) : n.release.release = n.release := rfl

/-- In poly mode, when no note is held twice, `turnOffKey` puts in release exactly
the voices of the pool that hold the note. -/
theorem turnOffKey_poly_pointwise (env : Env A) (k : AKSynthOneDSPKernel A) (nn : Int)
    (hinv : PoolInvariant k) (h0 : 0 ≤ nn) (h1 : nn < NUM_MIDI_NOTES) (hm : k.p isMono ≠ 1)
    (i : Int) (hi : 0 ≤ i) (hi' : i < polyphony) :
    (turnOffKey env k nn).noteStates i
      = if (k.noteStates i).rootNoteNumber = nn then (k.noteStates i).release
        else k.noteStates i := by
  rw [turnOffKey_poly env k nn hinv.1 h0 h1 hm]
  rcases indexOfNote_spec k nn with ⟨g1, g2⟩ | ⟨g1, g2, g3, -⟩
  · rw [if_neg (by simpa using g1), if_neg (g2 i hi hi')]
    rfl
  · rw [if_pos (by omega)]
    by_cases hroot : (k.noteStates i).rootNoteNumber = nn
    · have hidx := indexOfNote_eq_of_holds k nn i hinv.2.2.2 hi hi' (by omega) hroot
      rw [if_pos hroot, hidx]
      show Function.update k.noteStates i _ i = _
      rw [Function.update_same]
      rfl
    · have hne : i ≠ indexOfNote k nn := by
        intro h
        rw [h] at hroot
        exact hroot g3
      rw [if_neg hroot]
      show Function.update k.noteStates _ _ i = _
      rw [Function.update_noteq hne]

theorem stopNote_arpOff (env : Env A) (k : AKSynthOneDSPKernel A) (nn : Int)
    (h0 : 0 ≤ nn) (h1 : nn < NUM_MIDI_NOTES) (ha : k.p arpIsOn ≠ 1) :
    stopNote env k nn = turnOffKey env
      { k with heldNoteNumbers := k.heldNoteNumbers.filter (fun n => n ≠ nn) } nn := by
  have hg : ¬ (nn < 0 ∨ nn ≥ NUM_MIDI_NOTES) := by omega
  simp only [stopNote, if_neg hg, if_neg ha]

theorem stopNote_arpOn (env : Env A) (k : AKSynthOneDSPKernel A) (nn : Int)
    (h0 : 0 ≤ nn) (h1 : nn < NUM_MIDI_NOTES) (ha : k.p arpIsOn = 1) :
    stopNote env k nn
      = { k with heldNoteNumbers := k.heldNoteNumbers.filter (fun n => n ≠ nn) } := by
  have hg : ¬ (nn < 0 ∨ nn ≥ NUM_MIDI_NOTES) := by omega
  simp only [stopNote, if_neg hg, if_pos ha]

/-- A run of note-offs in poly mode with the arp off puts in release exactly the
voices of the pool that hold one of the notes. -/
theorem foldl_stopNote_poly (env : Env A) (l : List Int)
    (hl : ∀ n ∈ l, 0 ≤ n ∧ n < NUM_MIDI_NOTES) :
    ∀ (k : AKSynthOneDSPKernel A), PoolInvariant k → k.p isMono ≠ 1 → k.p arpIsOn ≠ 1 →
      ∀ i : Int, 0 ≤ i → i < polyphony →
        (l.foldl (fun k n => stopNote env k n) k).noteStates i
          = if (k.noteStates i).rootNoteNumber ∈ l then (k.noteStates i).release
            else k.noteStates i := by
  induction l with
  | nil => intro k _ _ _ i _ _; simp
  | cons a l ih =>
    intro k hinv hm ha i hi hi'
    have hav := hl a (List.mem_cons_self a l)
    have hinv1 : PoolInvariant (stopNote env k a) :=
      voiceInvariant_stopNote (poolInvariant_voiceInvariant env) k a hinv
    have hstep : (stopNote env k a).noteStates i
        = if (k.noteStates i).rootNoteNumber = a then (k.noteStates i).release
          else k.noteStates i := by
      rw [stopNote_arpOff env k a hav.1 hav.2 ha]
      exact turnOffKey_poly_pointwise env { k with heldNoteNumbers := k.heldNoteNumbers.filter (fun n => n ≠ a) } a hinv hav.1 hav.2 hm i hi hi'
    rw [List.foldl_cons, ih (fun n hn => hl n (List.mem_cons_of_mem a hn)) (stopNote env k a)
      hinv1 (by rw [stopNote_p]; exact hm) (by rw [stopNote_p]; exact ha) i hi hi', hstep]
    by_cases hroot : (k.noteStates i).rootNoteNumber = a
    · rw [if_pos hroot]
      have hmem : (k.noteStates i).rootNoteNumber ∈ a :: l := by
        rw [hroot]; exact List.mem_cons_self a l
      have hrhs : (if (k.noteStates i).rootNoteNumber ∈ a :: l then (k.noteStates i).release
          else k.noteStates i) = (k.noteStates i).release := if_pos hmem
      rw [hrhs]
      by_cases hl2 : (k.noteStates i).release.rootNoteNumber ∈ l
      · rw [if_pos hl2]; rfl
      · rw [if_neg hl2]
    · rw [if_neg hroot]
      have hiff : (k.noteStates i).rootNoteNumber ∈ a :: l
          ↔ (k.noteStates i).rootNoteNumber ∈ l := by
        rw [List.mem_cons]
        exact ⟨fun h => h.resolve_left hroot, Or.inr⟩
      by_cases hmem : (k.noteStates i).rootNoteNumber ∈ l
      · rw [if_pos hmem, if_pos (hiff.2 hmem)]
      · rw [if_neg hmem, if_neg (fun h => hmem (hiff.1 h))]

theorem foldl_stopNote_arpOn (env : Env A) (l : List Int) :
    ∀ (k : AKSynthOneDSPKernel A), k.p arpIsOn = 1 →
      (l.foldl (fun k n => stopNote env k n) k).noteStates = k.noteStates
      ∧ (l.foldl (fun k n => stopNote env k n) k).monoNote = k.monoNote := by
  induction l with
  | nil => intro k _; exact ⟨rfl, rfl⟩
  | cons a l ih =>
    intro k ha
    have hs : (stopNote env k a).noteStates = k.noteStates
        ∧ (stopNote env k a).monoNote = k.monoNote := by
      simp only [stopNote]
      split_ifs
      · exact ⟨rfl, rfl⟩
      · exact ⟨rfl, rfl⟩
    rw [List.foldl_cons]
    have := ih (stopNote env k a) (by rw [stopNote_p]; exact ha)
    exact ⟨this.1.trans hs.1, this.2.trans hs.2⟩

theorem stopNote_mono_empty (env : Env A) (k : AKSynthOneDSPKernel A) (nn : Int)
    (h0 : 0 ≤ nn) (h1 : nn < NUM_MIDI_NOTES)
    (hinit : k.initializedNoteStates = true) (hm : k.p isMono = 1) (ha : k.p arpIsOn ≠ 1)
    (hh : k.heldNoteNumbers = []) : (stopNote env k nn).monoNote = k.monoNote.release := by
  rw [stopNote_arpOff env k nn h0 h1 ha]
  have h := turnOffKey_mono_release env
    { k with heldNoteNumbers := k.heldNoteNumbers.filter (fun n => n ≠ nn) } nn hinit h0 h1 hm
    (Or.inl (by simp [hh]))
  rw [h]
  rfl

theorem liveVoiceArpOn_stage : (liveVoiceArpOn.noteStates 0).stage = stageOn := by
  decide

theorem setAK1Parameter_p_self (k : AKSynthOneDSPKernel A) (i : Nat) (v : ℚ) :
    (setAK1Parameter k i v).p i = parameterClamp i v := by
  unfold setAK1Parameter
  by_cases h : k.p i = parameterClamp i v
  · simp [h]
  · simp [h]

theorem setAK1Parameter_p_ne (k : AKSynthOneDSPKernel A) (i j : Nat) (v : ℚ) (hj : j ≠ i) :
    (setAK1Parameter k i v).p j = k.p j := by
  unfold setAK1Parameter
  by_cases h : k.p i = parameterClamp i v
  · simp [h]
  · simp [h, Function.update_noteq hj]

theorem liveVoiceArpOn_arpIsOn : liveVoiceArpOn.p arpIsOn = 1 := by
  unfold liveVoiceArpOn
  rw [setAK1Parameter_p_self]
  simp [parameterClamp, aks1pAt, aks1p, arpIsOn]

/-- With the arp on, `stopAllNotes` leaves a live voice live: note 60 is pressed on
the initialised poly engine, `p[arpIsOn]` is written to 1, and after
`stopAllNotes` the registry is empty but voice 0 is still in stage On with its
gate at 1. -/
theorem stopAllNotes_arpOn_keeps_voice :
    (liveVoiceArpOn.noteStates 0).stage = stageOn
      ∧ (stopAllNotes testEnv liveVoiceArpOn).heldNoteNumbers = []
      ∧ ((stopAllNotes testEnv liveVoiceArpOn).noteStates 0).stage = stageOn
      ∧ ((stopAllNotes testEnv liveVoiceArpOn).noteStates 0).internalGate = 1 := by
  have hm : ¬ (liveVoiceArpOn.p isMono = 1) := by
    unfold liveVoiceArpOn
    rw [setAK1Parameter_p_ne _ _ _ _ (by decide), startNote2_p]
    decide
  have h := foldl_stopNote_arpOn testEnv (loopIndices NUM_MIDI_NOTES)
    { liveVoiceArpOn with heldNoteNumbers := [] } liveVoiceArpOn_arpIsOn
  refine ⟨liveVoiceArpOn_stage, stopAllNotes_heldNoteNumbers _ _, ?_, ?_⟩
  · simp only [stopAllNotes, if_neg hm]
    rw [h.1]
    exact liveVoiceArpOn_stage
  · simp only [stopAllNotes, if_neg hm]
    rw [h.1]
    decide

/-- What `stopAllNotes` does.  The registry is empty afterwards.  With the arp off,
in mono mode the mono voice is in release with its gate at 0, and in poly mode, in
every state reachable from the initialised engine, every voice of the pool that was
not off is in release with its gate at 0 and is otherwise unchanged, while the
voices that were off are unchanged.  With the arp on no voice changes. -/
theorem stopAllNotes_spec (env : Env A) (malloc : Int → NoteState A)
    (k : AKSynthOneDSPKernel A) (hr : Reachable env (initialised env malloc) k) :
    (stopAllNotes env k).heldNoteNumbers = []
      ∧ (k.p arpIsOn ≠ 1 → k.p isMono = 1 →
          (stopAllNotes env k).monoNote = k.monoNote.release)
      ∧ (k.p arpIsOn ≠ 1 → k.p isMono ≠ 1 → ∀ i : Int, 0 ≤ i → i < polyphony →
          ((k.noteStates i).stage ≠ stageOff →
            (stopAllNotes env k).noteStates i = (k.noteStates i).release
              ∧ ((stopAllNotes env k).noteStates i).stage = stageRelease
              ∧ ((stopAllNotes env k).noteStates i).internalGate = 0)
          ∧ ((k.noteStates i).stage = stageOff →
            (stopAllNotes env k).noteStates i = k.noteStates i))
      ∧ (k.p arpIsOn = 1 → (stopAllNotes env k).noteStates = k.noteStates
          ∧ (stopAllNotes env k).monoNote = k.monoNote) := by
  have hinv := engineInvariant_reachable env malloc hr
  refine ⟨stopAllNotes_heldNoteNumbers env k, ?_, ?_, ?_⟩
  · intro ha hm
    have hm2 : ({ k with heldNoteNumbers := [] } : AKSynthOneDSPKernel A).p isMono = 1 := hm
    simp only [stopAllNotes, if_pos hm2]
    exact stopNote_mono_empty env { k with heldNoteNumbers := [] } 60 (by decide) (by decide)
      hinv.1.1 hm ha rfl
  · intro ha hm i hi hi'
    have hm2 : ¬ (({ k with heldNoteNumbers := [] } : AKSynthOneDSPKernel A).p isMono = 1) := hm
    have hf := foldl_stopNote_poly env (loopIndices NUM_MIDI_NOTES)
      (fun n hn => (mem_loopIndices _ _).1 hn) { k with heldNoteNumbers := [] } hinv.1 hm ha
      i hi hi'
    have hslot := hinv.2.1 i hi hi'
    constructor
    · intro hs
      have hroot : (k.noteStates i).rootNoteNumber ≠ -1 := fun h => hs (hslot.1.2 h)
      have hmem : (k.noteStates i).rootNoteNumber ∈ loopIndices NUM_MIDI_NOTES :=
        (mem_loopIndices _ _).2 (hslot.2.resolve_left hroot)
      have : (stopAllNotes env k).noteStates i = (k.noteStates i).release := by
        simp only [stopAllNotes, if_neg hm2]
        rw [hf]
        exact if_pos hmem
      refine ⟨this, ?_, ?_⟩ <;> rw [this] <;> rfl
    · intro hs
      have hroot : (k.noteStates i).rootNoteNumber = -1 := hslot.1.1 hs
      have hmem : ¬ (k.noteStates i).rootNoteNumber ∈ loopIndices NUM_MIDI_NOTES := by
        rw [hroot, mem_loopIndices]
        omega
      simp only [stopAllNotes, if_neg hm2]
      rw [hf]
      exact if_neg hmem
  · intro ha
    simp only [stopAllNotes]
    split_ifs
    · simp only [stopNote]
      split_ifs
      · exact ⟨rfl, rfl⟩
      · exact ⟨rfl, rfl⟩
    · exact foldl_stopNote_arpOn env _ { k with heldNoteNumbers := [] } ha

theorem stopAllNotes_spec_witness :
    (stopAllNotes testEnv (startNote2 testEnv testKernel 60 127)).heldNoteNumbers = []
      ∧ ((startNote2 testEnv testKernel 60 127).p arpIsOn ≠ 1 → (startNote2 testEnv testKernel 60 127).p isMono = 1 →
          (stopAllNotes testEnv (startNote2 testEnv testKernel 60 127)).monoNote = (startNote2 testEnv testKernel 60 127).monoNote.release)
      ∧ ((startNote2 testEnv testKernel 60 127).p arpIsOn ≠ 1 → (startNote2 testEnv testKernel 60 127).p isMono ≠ 1 → ∀ i : Int, 0 ≤ i → i < polyphony →
          (((startNote2 testEnv testKernel 60 127).noteStates i).stage ≠ stageOff →
            (stopAllNotes testEnv (startNote2 testEnv testKernel 60 127)).noteStates i = ((startNote2 testEnv testKernel 60 127).noteStates i).release
              ∧ ((stopAllNotes testEnv (startNote2 testEnv testKernel 60 127)).noteStates i).stage = stageRelease
              ∧ ((stopAllNotes testEnv (startNote2 testEnv testKernel 60 127)).noteStates i).internalGate = 0)
          ∧ (((startNote2 testEnv testKernel 60 127).noteStates i).stage = stageOff →
            (stopAllNotes testEnv (startNote2 testEnv testKernel 60 127)).noteStates i = (startNote2 testEnv testKernel 60 127).noteStates i))
      ∧ ((startNote2 testEnv testKernel 60 127).p arpIsOn = 1 →
          (stopAllNotes testEnv (startNote2 testEnv testKernel 60 127)).noteStates = (startNote2 testEnv testKernel 60 127).noteStates
          ∧ (stopAllNotes testEnv (startNote2 testEnv testKernel 60 127)).monoNote = (startNote2 testEnv testKernel 60 127).monoNote) :=
  stopAllNotes_spec testEnv zeroMalloc (startNote2 testEnv testKernel 60 127)
    (Relation.ReflTransGen.single (Step.startNote2 _ 60 127))

/-! ### The round trip -/

theorem liveInvariant_startNote2 (env : Env A) (k : AKSynthOneDSPKernel A) (nn vel : Int)
    (h : RoundTripInvariant k) : RoundTripInvariant (startNote2 env k nn vel) := by
  by_cases hg : nn < 0 ∨ nn ≥ NUM_MIDI_NOTES
  · rw [startNote2_of_invalid env k nn vel hg]; exact h
  obtain ⟨he, hmode, hreg, hlive, ha⟩ := h
  have h0 : 0 ≤ nn := by omega
  have h1 : nn < NUM_MIDI_NOTES := by omega
  have hheld := startNote2_heldNoteNumbers env k nn vel h0 h1
  refine ⟨voiceInvariant_startNote2 (engineInvariant_voiceInvariant env) k nn vel he,
    voiceInvariant_startNote2 (modeInvariant_voiceInvariant env) k nn vel hmode,
    registryInvariant_startNote2 env k nn vel hreg, ⟨?_, ?_⟩, by rw [startNote2_p]; exact ha⟩
  · intro hm i hi hi' hs
    rw [startNote2_p] at hm
    obtain ⟨-, -, -, hsel, hoth⟩ := startNote2_poly env k nn vel he.1.1 h0 h1 hm ha
    rw [hheld]
    by_cases hi2 : i = selectedVoice k nn
    · rw [hi2, hsel]
      exact List.mem_cons_self _ _
    · rw [hoth i hi2] at hs ⊢
      have hmem := hlive.1 hm i hi hi' hs
      by_cases hr : (k.noteStates i).rootNoteNumber = nn
      · rw [hr]; exact List.mem_cons_self _ _
      · exact List.mem_cons_of_mem _ (List.mem_filter.2 ⟨hmem, by simpa using hr⟩)
  · intro _ _
    rw [hheld]
    exact List.cons_ne_nil _ _

theorem liveInvariant_stopNote (env : Env A) (k : AKSynthOneDSPKernel A) (nn : Int)
    (h : RoundTripInvariant k) : RoundTripInvariant (stopNote env k nn) := by
  by_cases hg : nn < 0 ∨ nn ≥ NUM_MIDI_NOTES
  · rw [stopNote_of_invalid env k nn hg]; exact h
  obtain ⟨he, hmode, hreg, hlive, ha⟩ := h
  have h0 : 0 ≤ nn := by omega
  have h1 : nn < NUM_MIDI_NOTES := by omega
  have hheld := stopNote_heldNoteNumbers env k nn h0 h1
  refine ⟨voiceInvariant_stopNote (engineInvariant_voiceInvariant env) k nn he,
    voiceInvariant_stopNote (modeInvariant_voiceInvariant env) k nn hmode,
    registryInvariant_stopNote env k nn hreg, ⟨?_, ?_⟩, by rw [stopNote_p]; exact ha⟩
  · intro hm i hi hi' hs
    rw [stopNote_p] at hm
    have hpt : (stopNote env k nn).noteStates i
        = if (k.noteStates i).rootNoteNumber = nn then (k.noteStates i).release
          else k.noteStates i := by
      rw [stopNote_arpOff env k nn h0 h1 ha]
      exact turnOffKey_poly_pointwise env
        { k with heldNoteNumbers := k.heldNoteNumbers.filter (fun n => n ≠ nn) } nn he.1 h0 h1 hm
        i hi hi'
    rw [hheld]
    by_cases hr : (k.noteStates i).rootNoteNumber = nn
    · rw [hpt, if_pos hr] at hs
      exact absurd hs (by simp [NoteState.release])
    · rw [hpt, if_neg hr] at hs ⊢
      exact List.mem_filter.2 ⟨hlive.1 hm i hi hi' hs, by simpa using hr⟩
  · intro hm hs hnil
    rw [stopNote_p] at hm
    rw [hheld] at hnil
    rw [stopNote_arpOff env k nn h0 h1 ha] at hs
    have h := turnOffKey_mono_release env
      { k with heldNoteNumbers := k.heldNoteNumbers.filter (fun n => n ≠ nn) } nn he.1.1 h0 h1 hm
      (Or.inl (by show (List.filter _ _).length = 0; rw [hnil]; rfl))
    rw [h] at hs
    exact absurd hs (by simp [playingNotesDidChange, heldNotesDidChange])

theorem roundTripInvariant_pressNotes (env : Env A) (notes : List (Int × Int))
    (k : AKSynthOneDSPKernel A) (h : RoundTripInvariant k) :
    RoundTripInvariant (pressNotes env k notes) :=
  foldl_preserves RoundTripInvariant _ (fun b a hb => liveInvariant_startNote2 env b a.1 a.2 hb)
    notes k h

theorem roundTripInvariant_releaseNotes (env : Env A) (notes : List Int)
    (k : AKSynthOneDSPKernel A) (h : RoundTripInvariant k) :
    RoundTripInvariant (releaseNotes env k notes) :=
  foldl_preserves RoundTripInvariant _ (fun b a hb => liveInvariant_stopNote env b a hb)
    notes k h

theorem mem_pressNotes (env : Env A) (notes : List (Int × Int)) :
    ∀ (k : AKSynthOneDSPKernel A) (n : Int), n ∈ (pressNotes env k notes).heldNoteNumbers →
      n ∈ k.heldNoteNumbers ∨ ∃ note ∈ notes, note.1 = n := by
  induction notes with
  | nil => intro k n hn; exact Or.inl hn
  | cons a l ih =>
    intro k n hn
    have hn' : n ∈ (pressNotes env (startNote2 env k a.1 a.2) l).heldNoteNumbers := hn
    rcases ih _ n hn' with h | ⟨note, hnote, rfl⟩
    · by_cases hg : a.1 < 0 ∨ a.1 ≥ NUM_MIDI_NOTES
      · rw [startNote2_of_invalid env k a.1 a.2 hg] at h; exact Or.inl h
      · rw [startNote2_heldNoteNumbers env k a.1 a.2 (by omega) (by omega)] at h
        rcases List.mem_cons.1 h with h | h
        · exact Or.inr ⟨a, List.mem_cons_self _ _, h.symm⟩
        · exact Or.inl (List.mem_filter.1 h).1
    · exact Or.inr ⟨note, List.mem_cons_of_mem _ hnote, rfl⟩

theorem mem_releaseNotes (env : Env A) (notes : List Int) :
    ∀ (k : AKSynthOneDSPKernel A) (n : Int), n ∈ (releaseNotes env k notes).heldNoteNumbers →
      n ∈ k.heldNoteNumbers ∧ (n ∈ notes → n < 0 ∨ n ≥ NUM_MIDI_NOTES) := by
  induction notes with
  | nil => intro k n hn; exact ⟨hn, fun h => absurd h (List.not_mem_nil n)⟩
  | cons a l ih =>
    intro k n hn
    have hn' : n ∈ (releaseNotes env (stopNote env k a) l).heldNoteNumbers := hn
    obtain ⟨h1, h2⟩ := ih _ n hn'
    by_cases hg : a < 0 ∨ a ≥ NUM_MIDI_NOTES
    · rw [stopNote_of_invalid env k a hg] at h1
      refine ⟨h1, fun hm => ?_⟩
      rcases List.mem_cons.1 hm with rfl | hm
      · exact hg
      · exact h2 hm
    · rw [stopNote_heldNoteNumbers env k a (by omega) (by omega)] at h1
      obtain ⟨h3, h4⟩ := List.mem_filter.1 h1
      refine ⟨h3, fun hm => ?_⟩
      rcases List.mem_cons.1 hm with rfl | hm
      · simp at h4
      · exact h2 hm

/-- With the invariant of the round trip, an empty registry means that no voice is
on. -/
theorem quiet_of_roundTripInvariant (k : AKSynthOneDSPKernel A) (h : RoundTripInvariant k)
    (hh : k.heldNoteNumbers = []) : Quiet k := by
  obtain ⟨-, hmode, -, hlive, -⟩ := h
  refine ⟨hh, ?_, ?_⟩
  · intro i hi hi' hs
    by_cases hm : k.p isMono = 1
    · rw [hmode.2.1 hm i hi hi'] at hs
      exact absurd hs (by decide)
    · have := hlive.1 hm i hi hi' hs
      rw [hh] at this
      exact absurd this (List.not_mem_nil _)
  · intro hs
    by_cases hm : k.p isMono = 1
    · exact hlive.2 hm hs hh
    · rw [hmode.2.2 hm] at hs
      exact absurd hs (by decide)

/-! ### `process` while no note is held -/

theorem quiet_of_stages {k k' : AKSynthOneDSPKernel A} (h : Quiet k)
    (hh : k'.heldNoteNumbers = k.heldNoteNumbers)
    (hpool : ∀ i : Int, 0 ≤ i → i < polyphony →
      (k'.noteStates i).stage = (k.noteStates i).stage ∨ (k'.noteStates i).stage ≠ stageOn)
    (hmono : k'.monoNote.stage = k.monoNote.stage ∨ k'.monoNote.stage ≠ stageOn) :
    Quiet k' := by
  refine ⟨by rw [hh]; exact h.1, ?_, ?_⟩
  · intro i hi hi'
    rcases hpool i hi hi' with h1 | h1
    · rw [h1]; exact h.2.1 i hi hi'
    · exact h1
  · rcases hmono with h1 | h1
    · rw [h1]; exact h.2.2
    · exact h1

theorem quiet_turnOffKey (env : Env A) (k : AKSynthOneDSPKernel A) (nn : Int)
    (hinit : k.initializedNoteStates = true) (h : Quiet k) :
    Quiet (turnOffKey env k nn) := by
  by_cases hg : nn < 0 ∨ nn ≥ NUM_MIDI_NOTES
  · rw [turnOffKey_of_invalid env k nn hg]; exact h
  have h0 : 0 ≤ nn := by omega
  have h1 : nn < NUM_MIDI_NOTES := by omega
  by_cases hm : k.p isMono = 1
  · rw [turnOffKey_mono_release env k nn hinit h0 h1 hm (Or.inl (by simp [h.1]))]
    exact quiet_of_stages h rfl (fun i _ _ => Or.inl rfl) (Or.inr (by
      simp [playingNotesDidChange, heldNotesDidChange]))
  · rw [turnOffKey_poly env k nn hinit h0 h1 hm]
    split_ifs with hidx
    · refine quiet_of_stages h rfl (fun i _ _ => ?_) (Or.inl rfl)
      by_cases hi2 : i = indexOfNote k nn
      · right
        show (Function.update k.noteStates _ _ i).stage ≠ stageOn
        rw [hi2, Function.update_same]
        simp
      · left
        show (Function.update k.noteStates _ _ i).stage = _
        rw [Function.update_noteq hi2]
    · exact quiet_of_stages h rfl (fun i _ _ => Or.inl rfl) (Or.inl rfl)

theorem turnOffKey_initialized (env : Env A) (k : AKSynthOneDSPKernel A) (nn : Int)
    (hinit : k.initializedNoteStates = true) :
    (turnOffKey env k nn).initializedNoteStates = true := by
  simp only [turnOffKey]
  split_ifs <;>
    simp [playingNotesDidChange, heldNotesDidChange, hinit,
      initializeNoteStates_of_initialized env k hinit]

theorem quiet_transitionToOff (k : AKSynthOneDSPKernel A) (h : Quiet k) :
    Quiet (transitionToOff k) := by
  have hclear : ∀ (c : Prop) [Decidable c] (n : NoteState A),
      (if c then n.clear else n).stage = n.stage ∨ (if c then n.clear else n).stage ≠ stageOn := by
    intro c _ n
    by_cases hc : c
    · rw [if_pos hc]; right; simp [NoteState.clear]
    · rw [if_neg hc]; left; rfl
  refine quiet_of_stages h (by simp) (fun i hi hi' => ?_) ?_
  · simp only [transitionToOff]
    split_ifs
    · exact Or.inl rfl
    · exact Or.inl rfl
    · exact hclear _ _
    · exact hclear _ _
  · simp only [transitionToOff]
    split_ifs
    · right; simp [playingNotesDidChange, NoteState.clear]
    · exact Or.inl rfl
    · exact Or.inl rfl
    · exact Or.inl rfl

theorem quiet_monoPolySwitch (k : AKSynthOneDSPKernel A) (h : Quiet k) :
    Quiet (monoPolySwitch k) := by
  simp only [monoPolySwitch]
  split_ifs
  · refine quiet_of_stages h rfl (fun i hi hi' => Or.inr ?_) (Or.inr ?_)
    · have := (reset_stage { k with previousProcessMonoPolyStatus := k.p isMono }).1 i hi hi'
      show ((reset { k with previousProcessMonoPolyStatus := k.p isMono }).noteStates i).stage
        ≠ stageOn
      rw [this]; decide
    · show (reset { k with previousProcessMonoPolyStatus := k.p isMono }).monoNote.stage
        ≠ stageOn
      rw [(reset_stage _).2]; decide
  · exact h

theorem quiet_renderNoteStates (env : Env A) (k : AKSynthOneDSPKernel A) (h : Quiet k) :
    Quiet (renderNoteStates env k) := by
  refine quiet_of_stages h (by simp) (fun i hi hi' => Or.inl ?_) (Or.inl ?_)
  · simp only [renderNoteStates]
    split_ifs
    · rfl
    · rfl
    · show ((if _ then _ else _ : NoteState A)).stage = _
      split_ifs <;> rfl
  · simp only [renderNoteStates]
    split_ifs <;> rfl

theorem quiet_arpSeqStep (env : Env A) (b : AKSynthOneDSPKernel A)
    (hb : b.initializedNoteStates = true ∧ Quiet b) :
    (arpSeqStep env b).1.initializedNoteStates = true ∧ Quiet (arpSeqStep env b).1 := by
  have hlen : b.heldNoteNumbers.length = 0 := by rw [hb.2.1]; rfl
  simp only [arpSeqStep, if_pos hlen]
  split_ifs
  · exact ⟨hb.1, quiet_of_stages hb.2 rfl (fun i _ _ => Or.inl rfl) (Or.inl rfl)⟩
  · exact hb

/-- The invariant of a quiet engine, kept by the scheduler and the render loop. -/
theorem quiet_arpSeq (env : Env A) (s : ℚ) (k : AKSynthOneDSPKernel A)
    (hinit : k.initializedNoteStates = true) (h : Quiet k) :
    (arpSeq env s k).1.initializedNoteStates = true ∧ Quiet (arpSeq env s k).1 := by
  have hoff : ∀ (l : List Int) (b : AKSynthOneDSPKernel A),
      b.initializedNoteStates = true ∧ Quiet b →
      (l.foldl (fun k note => turnOffKey env k note) b).initializedNoteStates = true
        ∧ Quiet (l.foldl (fun k note => turnOffKey env k note) b) := fun l b hb =>
    foldl_preserves (fun b : AKSynthOneDSPKernel A => b.initializedNoteStates = true ∧ Quiet b) _
      (fun b a hb => ⟨turnOffKey_initialized env b a hb.1, quiet_turnOffKey env b a hb.1 hb.2⟩)
      l b hb
  have hbeat : ∀ b : AKSynthOneDSPKernel A, b.initializedNoteStates = true ∧ Quiet b →
      (arpSeqBeat env b).1.initializedNoteStates = true ∧ Quiet (arpSeqBeat env b).1 := by
    intro b hb
    have h1 : (if b.p arpIsOn = 1 then arpSeqRebuild env b else b).initializedNoteStates = true
        ∧ Quiet (if b.p arpIsOn = 1 then arpSeqRebuild env b else b) := by
      split_ifs
      · simp only [arpSeqRebuild]
        split_ifs
        all_goals exact ⟨hb.1, quiet_of_stages hb.2 rfl (fun i _ _ => Or.inl rfl) (Or.inl rfl)⟩
      · exact hb
    have h2 := hoff (if b.p arpIsOn = 1 then arpSeqRebuild env b else b).arpSeqLastNotes _ h1
    have h3 : (arpSeqTurnOffLastNotes env
          (if b.p arpIsOn = 1 then arpSeqRebuild env b else b)).initializedNoteStates = true
        ∧ Quiet (arpSeqTurnOffLastNotes env
          (if b.p arpIsOn = 1 then arpSeqRebuild env b else b)) :=
      ⟨h2.1, quiet_of_stages h2.2 rfl (fun i _ _ => Or.inl rfl) (Or.inl rfl)⟩
    exact quiet_arpSeqStep env _ h3
  simp only [arpSeq]
  split_ifs
  · exact hbeat _ ⟨hinit, quiet_of_stages h rfl (fun i _ _ => Or.inl rfl) (Or.inl rfl)⟩
  · exact ⟨hinit, quiet_of_stages h rfl (fun i _ _ => Or.inl rfl) (Or.inl rfl)⟩
  · exact ⟨hinit, h⟩

theorem monoPolySwitch_initialized (k : AKSynthOneDSPKernel A) :
    (monoPolySwitch k).initializedNoteStates = k.initializedNoteStates := by
  simp only [monoPolySwitch]
  split_ifs <;> rfl

theorem renderNoteStates_initialized (env : Env A) (k : AKSynthOneDSPKernel A) :
    (renderNoteStates env k).initializedNoteStates = k.initializedNoteStates := by
  simp only [renderNoteStates]
  split_ifs <;> rfl

theorem quiet_processFrame (env : Env A) (s : ℚ) (k : AKSynthOneDSPKernel A) (lfo : ℚ × ℚ)
    (h : k.initializedNoteStates = true ∧ Quiet k) :
    (processFrame env s k lfo).initializedNoteStates = true
      ∧ Quiet (processFrame env s k lfo) := by
  have h1 := quiet_arpSeq env s (monoPolySwitch k)
    (by rw [monoPolySwitch_initialized]; exact h.1) (quiet_monoPolySwitch k h.2)
  simp only [processFrame]
  split_ifs
  · exact h1
  · refine ⟨by rw [renderNoteStates_initialized]; exact h1.1, quiet_renderNoteStates env _ ?_⟩
    exact quiet_of_stages h1.2 rfl (fun i _ _ => Or.inl rfl) (Or.inl rfl)

theorem quiet_process (env : Env A) (k : AKSynthOneDSPKernel A) (n : Nat) (lfo : Nat → ℚ × ℚ)
    (h : k.initializedNoteStates = true ∧ Quiet k) :
    (process env k n lfo).initializedNoteStates = true ∧ Quiet (process env k n lfo) := by
  simp only [process]
  refine foldl_preserves
    (fun b : AKSynthOneDSPKernel A => b.initializedNoteStates = true ∧ Quiet b) _
    (fun b a hb => quiet_processFrame env _ b _ hb) _ _ ?_
  rw [initializeNoteStates_of_initialized env k h.1]
  exact ⟨by rw [(transitionToOff_status k).2]; exact h.1, quiet_transitionToOff k h.2⟩

/-- When no voice is on and every envelope is below the threshold, the preamble of
`process` leaves every voice off with no note. -/
theorem allOff_transitionToOff (k : AKSynthOneDSPKernel A) (he : EngineInvariant k)
    (hmode : ModeInvariant k) (hq : Quiet k) (hs : Silent k) : AllOff (transitionToOff k) := by
  have hstage : ∀ n : NoteState A, n.stage ≠ stageOn → n.stage ≠ stageOff →
      n.stage = stageRelease := by
    intro n h1 h2
    cases hn : n.stage
    · exact absurd hn h2
    · exact absurd hn h1
    · rfl
  by_cases hm : k.p isMono = 1
  · have hpool : ∀ i : Int, 0 ≤ i → i < polyphony →
        (k.noteStates i).stage = stageOff ∧ (k.noteStates i).rootNoteNumber = -1 :=
      fun i hi hi' => ⟨hmode.2.1 hm i hi hi', (he.2.1 i hi hi').1.1 (hmode.2.1 hm i hi hi')⟩
    simp only [transitionToOff, if_pos hm]
    split_ifs with hrel
    · exact ⟨hpool, rfl, rfl⟩
    · refine ⟨hpool, ?_⟩
      have hoff : k.monoNote.stage = stageOff := by
        by_contra hne
        apply hrel
        simp [NoteState.isReleased, hstage _ hq.2.2 hne, hs.2]
      exact ⟨hoff, he.2.2 hoff⟩
  · have hmono : k.monoNote.stage = stageOff ∧ k.monoNote.rootNoteNumber = -1 :=
      ⟨hmode.2.2 hm, he.2.2 (hmode.2.2 hm)⟩
    have hpool : ∀ i : Int, 0 ≤ i → i < polyphony →
        ((if 0 ≤ i ∧ i < polyphony ∧ (k.noteStates i).isReleased then (k.noteStates i).clear
          else k.noteStates i).stage = stageOff
        ∧ (if 0 ≤ i ∧ i < polyphony ∧ (k.noteStates i).isReleased then (k.noteStates i).clear
          else k.noteStates i).rootNoteNumber = -1) := by
      intro i hi hi'
      split_ifs with hrel
      · exact ⟨rfl, rfl⟩
      · have hoff : (k.noteStates i).stage = stageOff := by
          by_contra hne
          apply hrel
          refine ⟨hi, hi', ?_⟩
          simp [NoteState.isReleased, hstage _ (hq.2.1 i hi hi') hne, hs.1 i hi hi']
        exact ⟨hoff, (he.2.1 i hi hi').1.1 hoff⟩
    simp only [transitionToOff, if_neg hm]
    split_ifs
    · exact ⟨hpool, hmono⟩
    · exact ⟨hpool, hmono⟩

theorem rendered_invariants (env : Env A) {k k' : AKSynthOneDSPKernel A}
    (hr : Rendered env k k') (he : EngineInvariant k) (hmode : ModeInvariant k) (hq : Quiet k) :
    EngineInvariant k' ∧ ModeInvariant k' ∧ Quiet k' := by
  induction hr with
  | refl => exact ⟨he, hmode, hq⟩
  | tail _ hs ih =>
    obtain ⟨n, lfo, rfl⟩ := hs
    exact ⟨voiceInvariant_process (engineInvariant_voiceInvariant env) _ n lfo ih.1,
      voiceInvariant_process (modeInvariant_voiceInvariant env) _ n lfo ih.2.1,
      (quiet_process env _ n lfo ⟨ih.1.1.1, ih.2.2⟩).2⟩

theorem setAK1Parameter_sameVoices (k : AKSynthOneDSPKernel A) (i : Nat) (v : ℚ) :
    SameVoices k (setAK1Parameter k i v) := by
  simp only [setAK1Parameter]
  split_ifs
  · exact ⟨rfl, rfl, rfl, rfl⟩
  · exact ⟨rfl, rfl, rfl, rfl⟩

theorem allOff_initialised (env : Env A) (malloc : Int → NoteState A) :
    AllOff (initialised env malloc) := by
  refine ⟨?_, rfl, rfl⟩
  intro i hi hi'
  have : 0 ≤ i ∧ i < MAX_POLYPHONY := ⟨hi, hi'⟩
  simp [initialised, initializeNoteStates, init, forEachNoteState, this]

/-- The initialised engine, put in either mode by a write to `p[isMono]`, satisfies
the invariant of the round trip. -/
theorem roundTripInvariant_initialised (env : Env A) (malloc : Int → NoteState A) (m : ℚ) :
    RoundTripInvariant (setAK1Parameter (initialised env malloc) isMono m) := by
  obtain ⟨hn, hmono, -, hini⟩ := setAK1Parameter_sameVoices (initialised env malloc) isMono m
  have hoff := allOff_initialised env malloc
  refine ⟨voiceInvariant_setAK1Parameter (engineInvariant_voiceInvariant env) _ _ _
      (fun h => h.elim) (engineInvariant_initialised env malloc), ⟨?_, ?_, ?_⟩,
    registryInvariant_of_nil (by simp [initialised, init]), ⟨?_, ?_⟩, ?_⟩
  · rw [hini]; rfl
  · intro _ i hi hi'
    rw [hn]; exact (hoff.1 i hi hi').1
  · intro _
    rw [hmono]; exact hoff.2.1
  · intro _ i hi hi' hs
    rw [hn, (hoff.1 i hi hi').1] at hs
    exact absurd hs (by decide)
  · intro _ hs
    rw [hmono, hoff.2.1] at hs
    exact absurd hs (by decide)
  · rw [setAK1Parameter_p_ne _ _ _ _ (by decide), initialised_p_arpIsOn]
    norm_num

/-- The round trip from any state that satisfies the invariant. -/
theorem roundTrip_of_invariant (env : Env A) (k : AKSynthOneDSPKernel A)
    (notes : List (Int × Int)) (offs : List Int) (h : RoundTripInvariant k)
    (hheld : ∀ n ∈ k.heldNoteNumbers, n ∈ offs) (hoff : ∀ note ∈ notes, note.1 ∈ offs) :
    Quiet (releaseNotes env (pressNotes env k notes) offs)
      ∧ ∀ k' : AKSynthOneDSPKernel A,
          Rendered env (releaseNotes env (pressNotes env k notes) offs) k' → Silent k' →
            AllOff (transitionToOff k') := by
  have h1 := roundTripInvariant_pressNotes env notes k h
  have h2 := roundTripInvariant_releaseNotes env offs _ h1
  have hnil : (releaseNotes env (pressNotes env k notes) offs).heldNoteNumbers = [] := by
    rw [List.eq_nil_iff_forall_not_mem]
    intro n hn
    obtain ⟨h3, h4⟩ := mem_releaseNotes env offs _ n hn
    have hvalid := h1.2.2.1.2 n h3
    have hmem : n ∈ offs := by
      rcases mem_pressNotes env notes k n h3 with h5 | ⟨note, h5, rfl⟩
      · exact hheld n h5
      · exact hoff note h5
    have := h4 hmem
    omega
  have hq := quiet_of_roundTripInvariant _ h2 hnil
  refine ⟨hq, fun k' hr hs => ?_⟩
  obtain ⟨he, hmode, hq'⟩ := rendered_invariants env hr h2.1 h2.2.1 hq
  exact allOff_transitionToOff k' he hmode hq' hs

/-- C12. Round trip.  On the initialised engine in either mode (`p[isMono]` written
to any value `m`, the arp off), after any sequence of note-ons through `startNote`
followed by note-offs through `stopNote` that cover every pressed note, the
registry is empty and none of the seven voices is on; and after any number of
calls of `process`, a buffer start (the release-to-off block of `process`) at
which the amplitude envelope of every voice is below `RELEASE_AMPLITUDE_THRESHOLD`
leaves every voice off with `rootNoteNumber = -1`. -/
theorem round_trip (env : Env A) (malloc : Int → NoteState A) (m : ℚ)
    (notes : List (Int × Int)) (offs : List Int) (hoff : ∀ note ∈ notes, note.1 ∈ offs) :
    Quiet (releaseNotes env
        (pressNotes env (setAK1Parameter (initialised env malloc) isMono m) notes) offs)
      ∧ ∀ k' : AKSynthOneDSPKernel A,
          Rendered env (releaseNotes env
            (pressNotes env (setAK1Parameter (initialised env malloc) isMono m) notes) offs) k' →
          Silent k' → AllOff (transitionToOff k') := by
  refine roundTrip_of_invariant env _ notes offs (roundTripInvariant_initialised env malloc m)
    ?_ hoff
  intro n hn
  have : (setAK1Parameter (initialised env malloc) isMono m).heldNoteNumbers = [] := by
    simp [initialised, init]
  rw [this] at hn
  exact absurd hn (List.not_mem_nil n)

theorem round_trip_witness :
    (∀ note ∈ sevenNotes, note.1 ∈ sevenNotes.map Prod.fst)
      ∧ Quiet (releaseNotes testEnv
          (pressNotes testEnv (setAK1Parameter (initialised testEnv zeroMalloc) isMono 0)
            sevenNotes) (sevenNotes.map Prod.fst))
      ∧ ∀ k' : AKSynthOneDSPKernel ℚ,
          Rendered testEnv (releaseNotes testEnv
            (pressNotes testEnv (setAK1Parameter (initialised testEnv zeroMalloc) isMono 0)
              sevenNotes) (sevenNotes.map Prod.fst)) k' →
          Silent k' → AllOff (transitionToOff k') :=
  ⟨by decide, round_trip testEnv zeroMalloc 0 sevenNotes (sevenNotes.map Prod.fst) (by decide)⟩

/-! ### The arp patterns -/

theorem foldl_step_flatMap {β : Type} (r : β → List SeqNoteNumber)
    (step : List SeqNoteNumber × Nat → β → List SeqNoteNumber × Nat)
    (hstep : ∀ acc x, acc.2 = acc.1.length →
      step acc x = (acc.1 ++ r x, acc.2 + (r x).length)) :
    ∀ (xs : List β) (acc : List SeqNoteNumber × Nat), acc.2 = acc.1.length →
      xs.foldl step acc = (acc.1 ++ xs.flatMap r, acc.2 + (xs.flatMap r).length) := by
  intro xs
  induction xs with
  | nil => intro acc _; simp
  | cons x xs ih =>
    intro acc hacc
    rw [List.foldl_cons, hstep acc x hacc, ih _ (by simp [hacc])]
    simp [List.flatMap_cons, List.append_assoc, Nat.add_assoc]

theorem foldl_flatMap_eq {α β γ : Type} (f : α → List β) (g : γ → β → γ) :
    ∀ (l : List α) (init : γ),
      (l.flatMap f).foldl g init = l.foldl (fun acc x => (f x).foldl g acc) init := by
  intro l
  induction l with
  | nil => intro init; rfl
  | cons a l ih => intro init; simp [List.flatMap_cons, List.foldl_append, ih]

theorem flatMap_ite_singleton {β γ : Type} (q : β → Bool) (f : β → γ) :
    ∀ l : List β, l.flatMap (fun x => if q x then [] else [f x])
      = (l.filter (fun x => !q x)).map f := by
  intro l
  induction l with
  | nil => rfl
  | cons a l ih =>
    rw [List.flatMap_cons, ih]
    by_cases h : q a = true
    · simp [h]
    · simp [h]

/-- The step of the arp loops at the position `x`, with the test of "down, minus
head and tail". -/
theorem arpUp_eq_foldl (notes : List Int) (O U : Int) (acc : List SeqNoteNumber × Nat) :
    arpUp notes O U acc
      = (arpPositions O notes.length).foldl
          (fun acc x => (vectorInsert acc.1 acc.2 (arpEntry notes U x), acc.2 + 1)) acc := by
  unfold arpUp arpPositions List.product
  rw [foldl_flatMap_eq]
  congr 1
  funext acc octave
  rw [List.foldl_map]
  rfl

theorem arpDown_eq_foldl (skipEnds : Bool) (notes : List Int) (O U : Int)
    (acc : List SeqNoteNumber × Nat) :
    arpDown skipEnds notes O U acc
      = (List.product (loopIndices O).reverse (loopIndices notes.length).reverse).foldl
          (fun acc x =>
            if skipEnds && (decide (x.2 = (notes.length : Int) - 1 ∧ x.1 = O - 1)
                || decide (x.2 = 0 ∧ x.1 = 0)) then acc
            else (vectorInsert acc.1 acc.2 (arpEntry notes U x), acc.2 + 1)) acc := by
  unfold arpDown List.product
  rw [foldl_flatMap_eq]
  simp only [List.foldl_map]
  rfl

theorem arpUp_eq (notes : List Int) (O U : Int) (acc : List SeqNoteNumber × Nat)
    (hacc : acc.2 = acc.1.length) :
    arpUp notes O U acc
      = (acc.1 ++ (arpPositions O notes.length).map (arpEntry notes U),
          acc.2 + ((arpPositions O notes.length).map (arpEntry notes U)).length) := by
  rw [arpUp_eq_foldl, foldl_step_flatMap (fun x => [arpEntry notes U x]) _ ?_ _ acc hacc]
  · have : (arpPositions O notes.length).flatMap (fun x => [arpEntry notes U x])
        = (arpPositions O notes.length).map (arpEntry notes U) := by
      have := flatMap_ite_singleton (fun _ => false) (arpEntry notes U)
        (arpPositions O notes.length)
      simpa using this
    rw [this]
  · intro acc x hacc
    simp only [vectorInsert, hacc, List.insertIdx_length_self, List.length_singleton]

theorem arpDown_eq (skipEnds : Bool) (notes : List Int) (O U : Int)
    (acc : List SeqNoteNumber × Nat) (hacc : acc.2 = acc.1.length) :
    (arpDown skipEnds notes O U acc).1
      = acc.1 ++ ((List.product (loopIndices O).reverse (loopIndices notes.length).reverse).filter
          (fun x => !(skipEnds && (decide (x.2 = (notes.length : Int) - 1 ∧ x.1 = O - 1)
                || decide (x.2 = 0 ∧ x.1 = 0))))).map (arpEntry notes U) := by
  rw [arpDown_eq_foldl, foldl_step_flatMap
    (fun x => if skipEnds && (decide (x.2 = (notes.length : Int) - 1 ∧ x.1 = O - 1)
                || decide (x.2 = 0 ∧ x.1 = 0)) then [] else [arpEntry notes U x]) _ ?_ _ acc hacc]
  · rw [flatMap_ite_singleton]
  · intro acc x hacc
    by_cases hsk : (skipEnds && (decide (x.2 = (notes.length : Int) - 1 ∧ x.1 = O - 1)
                || decide (x.2 = 0 ∧ x.1 = 0))) = true
    · simp only [if_pos hsk, List.append_nil, List.length_nil, Nat.add_zero]
    · simp only [if_neg hsk, vectorInsert, hacc, List.insertIdx_length_self,
        List.length_singleton]

theorem loopIndices_natCast (n : Nat) :
    loopIndices (n : Int) = (List.range n).map Int.ofNat := by
  unfold loopIndices
  rw [Int.toNat_natCast]

theorem loopIndices_eq_toNat (n : Int) : loopIndices n = loopIndices (n.toNat : Int) := by
  rw [loopIndices_natCast]; rfl

theorem loopIndices_succ (n : Nat) :
    loopIndices ((n + 1 : Nat) : Int) = loopIndices (n : Int) ++ [(n : Int)] := by
  rw [loopIndices_natCast, loopIndices_natCast, List.range_succ, List.map_append]
  rfl

theorem loopIndices_succ_cons (n : Nat) :
    ∃ l, loopIndices ((n + 1 : Nat) : Int) = 0 :: l := by
  rw [loopIndices_natCast, List.range_succ_eq_map]
  exact ⟨_, rfl⟩

theorem loopIndices_nodup (n : Int) : (loopIndices n).Nodup := by
  unfold loopIndices
  exact List.Nodup.map (fun a b h => Int.ofNat.inj h) (List.nodup_range _)

theorem loopIndices_length (n : Int) : (loopIndices n).length = n.toNat := by
  unfold loopIndices
  simp

theorem map_getD_loopIndices {γ : Type} (l : List Int) (g : Int → γ) :
    (loopIndices (l.length : Int)).map (fun i => g (l.getD i.toNat 0)) = l.map g := by
  rw [loopIndices_natCast, List.map_map]
  apply List.ext_getElem
  · simp
  · intro n h1 h2
    have hn : n < l.length := by simpa using h2
    simp [List.getElem?_eq_getElem hn]

theorem arpPositions_map_arpEntry (notes : List Int) (O U : Int) :
    (arpPositions O notes.length).map (arpEntry notes U) = upPass notes O U := by
  unfold arpPositions List.product upPass
  rw [List.map_flatMap]
  congr 1
  funext oct
  rw [List.map_map]
  exact map_getD_loopIndices notes (fun n => (⟨n + oct * U, 1⟩ : SeqNoteNumber))

theorem product_reverse {α β : Type} (l₁ : List α) (l₂ : List β) :
    List.product l₁.reverse l₂.reverse = (List.product l₁ l₂).reverse := by
  unfold List.product
  rw [List.reverse_flatMap]
  congr 1
  funext a
  simp [List.map_reverse]

theorem arpPositions_nodup (O H : Int) : (arpPositions O H).Nodup :=
  List.Nodup.product (loopIndices_nodup O) (loopIndices_nodup H)

theorem arpPositions_length (O H : Int) : (arpPositions O H).length = O.toNat * H.toNat := by
  unfold arpPositions
  exact (List.length_product _ _).trans (by rw [loopIndices_length, loopIndices_length])

theorem arpPositions_head (O H : Int) (x : Int × Int)
    (h : (arpPositions O H).head? = some x) : x = (0, 0) := by
  unfold arpPositions at h
  rw [loopIndices_eq_toNat O, loopIndices_eq_toNat H] at h
  cases hn : O.toNat with
  | zero => rw [hn] at h; simp [loopIndices, List.product] at h
  | succ n =>
    cases hm : H.toNat with
    | zero =>
      rw [hm] at h
      have hnil : loopIndices ((0 : Nat) : Int) = [] := rfl
      rw [hnil] at h
      have hp : List.product (loopIndices (O.toNat : Int)) ([] : List Int) = [] :=
        List.product_nil _
      rw [hp] at h
      simp at h
    | succ m =>
      rw [hn, hm] at h
      obtain ⟨l1, h1⟩ := loopIndices_succ_cons n
      obtain ⟨l2, h2⟩ := loopIndices_succ_cons m
      rw [h1, h2] at h
      simp [List.product, List.flatMap_cons] at h
      exact h.symm

theorem arpPositions_getLast (O H : Int) (x : Int × Int)
    (h : (arpPositions O H).getLast? = some x) : x = (O - 1, H - 1) := by
  unfold arpPositions at h
  rw [loopIndices_eq_toNat O, loopIndices_eq_toNat H] at h
  cases hn : O.toNat with
  | zero => rw [hn] at h; simp [loopIndices, List.product] at h
  | succ n =>
    cases hm : H.toNat with
    | zero =>
      rw [hm] at h
      have hnil : loopIndices ((0 : Nat) : Int) = [] := rfl
      rw [hnil] at h
      have hp : List.product (loopIndices (O.toNat : Int)) ([] : List Int) = [] :=
        List.product_nil _
      rw [hp] at h
      simp at h
    | succ m =>
      rw [hn, hm, loopIndices_succ n, loopIndices_succ m] at h
      have hprod : List.product (loopIndices (n : Int) ++ [(n : Int)])
            (loopIndices (m : Int) ++ [(m : Int)])
          = (List.product (loopIndices (n : Int)) (loopIndices (m : Int) ++ [(m : Int)])
              ++ (loopIndices (m : Int)).map (Prod.mk (n : Int))) ++ [((n : Int), (m : Int))] := by
        simp [List.product, List.flatMap_append]
      rw [hprod, List.getLast?_append] at h
      simp at h
      have hO : O = n + 1 := by omega
      have hH : H = m + 1 := by omega
      rw [← h, hO, hH]
      simp

/-- Removing from a list without duplicates its first and its last element. -/
theorem filter_ends {α : Type} [DecidableEq α] (L : List α) (a b : α) (hn : L.Nodup)
    (ha : ∀ x, L.head? = some x → x = a) (hb : ∀ x, L.getLast? = some x → x = b) :
    L.filter (fun x => !(decide (x = a) || decide (x = b))) = L.tail.dropLast := by
  cases L with
  | nil => rfl
  | cons c rest =>
    have hc : c = a := ha c rfl
    subst hc
    obtain ⟨hnot, hrest⟩ := List.nodup_cons.1 hn
    rw [List.filter_cons]
    simp only [decide_True, Bool.true_or, Bool.not_true, List.tail_cons]
    by_cases hr : rest = []
    · subst hr; rfl
    · have hlast : rest.getLast hr = b := by
        apply hb
        rw [List.getLast?_cons, List.getLast?_eq_getLast rest hr]
        rfl
      have hsplit := List.dropLast_append_getLast hr
      rw [hlast] at hsplit
      have hnd : (rest.dropLast ++ [b]).Nodup := by rw [hsplit]; exact hrest
      have hbnot : b ∉ rest.dropLast := by
        intro hmem
        have := (List.nodup_append.1 hnd).2.2
        exact this hmem (List.mem_singleton_self b)
      have hanot : c ∉ rest.dropLast := fun hmem => hnot (List.mem_of_mem_dropLast hmem)
      conv_lhs => rw [← hsplit]
      rw [List.filter_append]
      have h1 : rest.dropLast.filter (fun x => !(decide (x = c) || decide (x = b)))
          = rest.dropLast := by
        rw [List.filter_eq_self]
        intro x hx
        have hxa : x ≠ c := fun h => hanot (h ▸ hx)
        have hxb : x ≠ b := fun h => hbnot (h ▸ hx)
        simp [hxa, hxb]
      rw [h1]
      simp

theorem reversedHeldNotes_eq (held : List Int) : reversedHeldNotes held = held.reverse := by
  have h : ∀ (l acc : List Int),
      l.foldl (fun arpSeqNotes2 note => vectorInsert arpSeqNotes2 0 note) acc
        = l.reverse ++ acc := by
    intro l
    induction l with
    | nil => intro acc; rfl
    | cons a l ih =>
      intro acc
      rw [List.foldl_cons, ih]
      simp [vectorInsert]
  unfold reversedHeldNotes
  rw [h]
  simp

theorem arpSeqRebuild_arp (env : Env A) (k : AKSynthOneDSPKernel A)
    (hs : k.p arpIsSequencer ≠ 1) :
    (arpSeqRebuild env k).arpSeqNotes2 = k.heldNoteNumbers.reverse
      ∧ (arpSeqRebuild env k).arpSeqNotes
          = arpeggiatorPattern k.p (tuningNotesPerOctave env) k.heldNoteNumbers.reverse := by
  simp only [arpSeqRebuild, if_neg hs, reversedHeldNotes_eq, tuningNotesPerOctave]
  exact ⟨trivial, trivial⟩

theorem arpeggiatorPattern_up (p : Nat → ℚ) (npo : Int) (notes : List Int)
    (hd : p arpDirection = 0) :
    arpeggiatorPattern p npo notes = upPass notes (arpOctaves p) (arpIntervalUp p npo) := by
  simp only [arpeggiatorPattern, if_pos hd]
  rw [arpUp_eq _ _ _ _ rfl, arpPositions_map_arpEntry]
  rfl

theorem arpeggiatorPattern_down (p : Nat → ℚ) (npo : Int) (notes : List Int)
    (hd : p arpDirection = 2) :
    arpeggiatorPattern p npo notes
      = (upPass notes (arpOctaves p) (arpIntervalUp p npo)).reverse := by
  have h0 : p arpDirection ≠ 0 := by rw [hd]; norm_num
  have h1 : p arpDirection ≠ 1 := by rw [hd]; norm_num
  simp only [arpeggiatorPattern, if_neg h0, if_neg h1, if_pos hd]
  rw [arpDown_eq _ _ _ _ _ rfl, product_reverse]
  simp only [Bool.false_and, Bool.not_false, List.filter_true, List.nil_append]
  rw [← arpPositions_map_arpEntry, List.map_reverse]
  rfl

theorem arpeggiatorPattern_upDown (p : Nat → ℚ) (npo : Int) (notes : List Int)
    (hd : p arpDirection = 1) :
    arpeggiatorPattern p npo notes
      = upPass notes (arpOctaves p) (arpIntervalUp p npo)
        ++ (upPass notes (arpOctaves p) (arpIntervalUp p npo)).reverse.tail.dropLast := by
  have h0 : p arpDirection ≠ 0 := by rw [hd]; norm_num
  simp only [arpeggiatorPattern, if_neg h0, if_pos hd]
  rw [arpUp_eq _ _ _ _ rfl]
  rw [arpDown_eq _ _ _ _ _ (by simp), product_reverse]
  have hfilter : (List.product (loopIndices (toInt (p arpOctave) + 1))
        (loopIndices (notes.length : Int))).reverse.filter
        (fun x => !(true && (decide (x.2 = (notes.length : Int) - 1
            ∧ x.1 = toInt (p arpOctave) + 1 - 1) || decide (x.2 = 0 ∧ x.1 = 0))))
      = (arpPositions (arpOctaves p) notes.length).reverse.tail.dropLast := by
    rw [← filter_ends (arpPositions (arpOctaves p) notes.length).reverse
      (arpOctaves p - 1, (notes.length : Int) - 1) (0, 0)
      (List.nodup_reverse.2 (arpPositions_nodup _ _))
      (fun x hx => arpPositions_getLast _ _ x (by rwa [List.head?_reverse] at hx))
      (fun x hx => arpPositions_head _ _ x (by rwa [List.getLast?_reverse] at hx))]
    apply List.filter_congr
    intro x _
    simp [Prod.ext_iff, arpOctaves, and_comm]
  rw [hfilter, List.map_dropLast, List.map_tail, List.map_reverse]
  simp only [List.nil_append]
  have he : List.map (arpEntry notes (toInt (p arpInterval * ((npo : ℚ) / 12))))
      (arpPositions (arpOctaves p) notes.length)
      = upPass notes (arpOctaves p) (arpIntervalUp p npo) :=
    arpPositions_map_arpEntry notes (arpOctaves p) (arpIntervalUp p npo)
  rw [he]
  exact congrArg
    (fun l => l ++ (upPass notes (arpOctaves p) (arpIntervalUp p npo)).reverse.tail.dropLast) he

theorem upPass_length (notes : List Int) (O U : Int) :
    (upPass notes O U).length = O.toNat * notes.length := by
  rw [← arpPositions_map_arpEntry, List.length_map, arpPositions_length]
  simp

/-- C18. Arp Up and Down.  When the rebuild runs in arp mode, `arpSeqNotes2` is the
registry reversed, i.e. the held notes in press order; with direction 0 the
pattern is the sequence `note[i] + oct * U` for `oct = 0..O-1` (outer) and
`i = 0..H-1` (inner), every entry with `onOff = 1`; with direction 2 it is the
reverse of that sequence.  `U` is `p[arpInterval] * npof` converted to `int` and
`O` is `(int)p[arpOctave] + 1`. -/
theorem arp_up_and_down_patterns (env : Env A) (k : AKSynthOneDSPKernel A)
    (hs : k.p arpIsSequencer ≠ 1) :
    (arpSeqRebuild env k).arpSeqNotes2 = k.heldNoteNumbers.reverse
      ∧ (k.p arpDirection = 0 → (arpSeqRebuild env k).arpSeqNotes
          = upPass k.heldNoteNumbers.reverse (arpOctaves k.p)
              (arpIntervalUp k.p (tuningNotesPerOctave env)))
      ∧ (k.p arpDirection = 2 → (arpSeqRebuild env k).arpSeqNotes
          = (upPass k.heldNoteNumbers.reverse (arpOctaves k.p)
              (arpIntervalUp k.p (tuningNotesPerOctave env))).reverse)
      ∧ ∀ s ∈ upPass k.heldNoteNumbers.reverse (arpOctaves k.p)
            (arpIntervalUp k.p (tuningNotesPerOctave env)), s.onOff = 1 := by
  obtain ⟨h2, h3⟩ := arpSeqRebuild_arp env k hs
  refine ⟨h2, fun hd => ?_, fun hd => ?_, ?_⟩
  · rw [h3, arpeggiatorPattern_up _ _ _ hd]
  · rw [h3, arpeggiatorPattern_down _ _ _ hd]
  · intro s hs
    unfold upPass at hs
    simp only [List.mem_flatMap, List.mem_map] at hs
    obtain ⟨_, _, _, _, rfl⟩ := hs
    rfl

/-- C17. Arp Up+Down.  When the rebuild runs in arp mode with direction 1, the
pattern is the up pass followed by the down pass (the reverse of the up pass)
without its first and its last entry; the up pass has `H * O` entries and, when
`H * O > 1`, the pattern has `2 * H * O - 2` entries, where `H` is the number of
held notes and `O = (int)p[arpOctave] + 1`. -/
theorem arp_upDown_pattern (env : Env A) (k : AKSynthOneDSPKernel A)
    (hs : k.p arpIsSequencer ≠ 1) (hd : k.p arpDirection = 1) :
    (arpSeqRebuild env k).arpSeqNotes
        = upPass k.heldNoteNumbers.reverse (arpOctaves k.p)
            (arpIntervalUp k.p (tuningNotesPerOctave env))
          ++ (upPass k.heldNoteNumbers.reverse (arpOctaves k.p)
            (arpIntervalUp k.p (tuningNotesPerOctave env))).reverse.tail.dropLast
      ∧ ((k.heldNoteNumbers.length : Int) * arpOctaves k.p > 1 →
          ((upPass k.heldNoteNumbers.reverse (arpOctaves k.p)
              (arpIntervalUp k.p (tuningNotesPerOctave env))).length : Int)
            = k.heldNoteNumbers.length * arpOctaves k.p
          ∧ ((arpSeqRebuild env k).arpSeqNotes.length : Int)
            = 2 * k.heldNoteNumbers.length * arpOctaves k.p - 2) := by
  obtain ⟨-, h3⟩ := arpSeqRebuild_arp env k hs
  have hpat := arpeggiatorPattern_upDown k.p (tuningNotesPerOctave env)
    k.heldNoteNumbers.reverse hd
  refine ⟨by rw [h3, hpat], fun hHO => ?_⟩
  have hlen := upPass_length k.heldNoteNumbers.reverse (arpOctaves k.p)
    (arpIntervalUp k.p (tuningNotesPerOctave env))
  rw [List.length_reverse] at hlen
  have hH : (0 : Int) ≤ k.heldNoteNumbers.length := Int.ofNat_nonneg _
  have hO : 0 < arpOctaves k.p := by
    by_contra hneg
    have : (k.heldNoteNumbers.length : Int) * arpOctaves k.p ≤ 0 :=
      mul_nonpos_of_nonneg_of_nonpos hH (by omega)
    omega
  have hcast : ((arpOctaves k.p).toNat : Int) = arpOctaves k.p := Int.toNat_of_nonneg hO.le
  have hup : ((upPass k.heldNoteNumbers.reverse (arpOctaves k.p)
      (arpIntervalUp k.p (tuningNotesPerOctave env))).length : Int)
      = k.heldNoteNumbers.length * arpOctaves k.p := by
    rw [hlen]; push_cast; rw [hcast]; ring
  refine ⟨hup, ?_⟩
  rw [h3, hpat, List.length_append, List.length_dropLast, List.length_tail,
    List.length_reverse]
  have h2 : 2 ≤ (upPass k.heldNoteNumbers.reverse (arpOctaves k.p)
      (arpIntervalUp k.p (tuningNotesPerOctave env))).length := by
    have : (1 : Int) < ((upPass k.heldNoteNumbers.reverse (arpOctaves k.p)
      (arpIntervalUp k.p (tuningNotesPerOctave env))).length : Int) := by rw [hup]; exact hHO
    omega
  have hmul : (2 : Int) * k.heldNoteNumbers.length * arpOctaves k.p
      = 2 * ((upPass k.heldNoteNumbers.reverse (arpOctaves k.p)
      (arpIntervalUp k.p (tuningNotesPerOctave env))).length : Int) := by rw [hup]; ring
  rw [hmul]
  omega

theorem testKernel_p (i : Nat) :
    testKernel.p i = if i < AKSynthOneParameterCount then parameterDefault i else 0 := rfl

theorem arpKernel_p (d : ℚ) : (arpKernel d).p
    = (setAK1Parameter (setAK1Parameter (setAK1Parameter testKernel arpIsOn 1) arpOctave 1)
        arpDirection d).p := by
  simp [arpKernel, startNote2_p]

theorem arpKernel_heldNoteNumbers (d : ℚ) : (arpKernel d).heldNoteNumbers = [64, 60] := by
  unfold arpKernel
  simp only []
  rw [startNote2_heldNoteNumbers _ _ _ _ (by decide) (by decide),
    startNote2_heldNoteNumbers _ _ _ _ (by decide) (by decide)]
  simp only [setAK1Parameter_heldNoteNumbers]
  have : testKernel.heldNoteNumbers = [] := rfl
  rw [this]
  decide

theorem arpKernel_arpIsSequencer (d : ℚ) : (arpKernel d).p arpIsSequencer ≠ 1 := by
  rw [arpKernel_p, setAK1Parameter_p_ne _ _ _ _ (by decide),
    setAK1Parameter_p_ne _ _ _ _ (by decide), setAK1Parameter_p_ne _ _ _ _ (by decide),
    testKernel_p, if_pos (by decide)]
  decide

theorem arpKernel_arpDirection (d : ℚ) (h0 : 0 ≤ d) (h2 : d ≤ 2) :
    (arpKernel d).p arpDirection = d := by
  rw [arpKernel_p, setAK1Parameter_p_self]
  simp [parameterClamp, aks1pAt, aks1p, arpDirection, h0, h2]

theorem arpKernel_arpOctaves (d : ℚ) : arpOctaves (arpKernel d).p = 2 := by
  unfold arpOctaves
  rw [arpKernel_p, setAK1Parameter_p_ne _ _ _ _ (by decide), setAK1Parameter_p_self]
  have : parameterClamp arpOctave 1 = 1 := by
    simp [parameterClamp, aks1pAt, aks1p, arpOctave]
  rw [this]
  simp [toInt]

theorem arp_up_and_down_patterns_witness :
    (arpKernel 0).p arpIsSequencer ≠ 1
      ∧ (arpSeqRebuild testEnv (arpKernel 0)).arpSeqNotes2 = (arpKernel 0).heldNoteNumbers.reverse
      ∧ ((arpKernel 0).p arpDirection = 0 → (arpSeqRebuild testEnv (arpKernel 0)).arpSeqNotes
          = upPass (arpKernel 0).heldNoteNumbers.reverse (arpOctaves (arpKernel 0).p)
              (arpIntervalUp (arpKernel 0).p (tuningNotesPerOctave testEnv)))
      ∧ ((arpKernel 0).p arpDirection = 2 → (arpSeqRebuild testEnv (arpKernel 0)).arpSeqNotes
          = (upPass (arpKernel 0).heldNoteNumbers.reverse (arpOctaves (arpKernel 0).p)
              (arpIntervalUp (arpKernel 0).p (tuningNotesPerOctave testEnv))).reverse)
      ∧ ∀ s ∈ upPass (arpKernel 0).heldNoteNumbers.reverse (arpOctaves (arpKernel 0).p)
            (arpIntervalUp (arpKernel 0).p (tuningNotesPerOctave testEnv)), s.onOff = 1 :=
  ⟨arpKernel_arpIsSequencer 0,
    arp_up_and_down_patterns testEnv (arpKernel 0) (arpKernel_arpIsSequencer 0)⟩

theorem arp_upDown_pattern_witness :
    (arpKernel 1).p arpIsSequencer ≠ 1 ∧ (arpKernel 1).p arpDirection = 1
      ∧ ((arpKernel 1).heldNoteNumbers.length : Int) * arpOctaves (arpKernel 1).p > 1
      ∧ ((arpSeqRebuild testEnv (arpKernel 1)).arpSeqNotes.length : Int)
          = 2 * (arpKernel 1).heldNoteNumbers.length * arpOctaves (arpKernel 1).p - 2 :=
  ⟨arpKernel_arpIsSequencer 1, arpKernel_arpDirection 1 (by norm_num) (by norm_num),
    by rw [arpKernel_heldNoteNumbers, arpKernel_arpOctaves]; decide,
    ((arp_upDown_pattern testEnv (arpKernel 1) (arpKernel_arpIsSequencer 1)
      (arpKernel_arpDirection 1 (by norm_num) (by norm_num))).2
      (by rw [arpKernel_heldNoteNumbers, arpKernel_arpOctaves]; decide)).2⟩

/-- C24. After `reset` each of the six voices of the pool and the mono voice has
`stage = stageOff`, `rootNoteNumber = -1`, `amp = 0` and `internalGate = 0` (each is
its `clear`), while the registry and the parameter vector are unchanged. -/
theorem reset_clears_every_voice (k : AKSynthOneDSPKernel A) :
    (∀ i : Int, 0 ≤ i → i < MAX_POLYPHONY →
        (reset k).noteStates i = (k.noteStates i).clear
        ∧ ((reset k).noteStates i).stage = stageOff
        ∧ ((reset k).noteStates i).rootNoteNumber = -1
        ∧ ((reset k).noteStates i).amp = 0
        ∧ ((reset k).noteStates i).internalGate = 0)
      ∧ (reset k).monoNote = k.monoNote.clear
      ∧ (reset k).monoNote.stage = stageOff
      ∧ (reset k).monoNote.rootNoteNumber = -1
      ∧ (reset k).monoNote.amp = 0
      ∧ (reset k).monoNote.internalGate = 0
      ∧ (reset k).heldNoteNumbers = k.heldNoteNumbers
      ∧ (reset k).p = k.p := by
  refine ⟨?_, rfl, rfl, rfl, rfl, rfl, rfl, rfl⟩
  intro i hi hi'
  have h : (reset k).noteStates i = (k.noteStates i).clear := by
    show forEachNoteState NoteState.clear k.noteStates i = _
    unfold forEachNoteState
    rw [if_pos ⟨hi, hi'⟩]
  rw [h]
  exact ⟨rfl, rfl, rfl, rfl, rfl⟩

/-- C27. Voice slot consistency.  In every state reachable from the initialised
engine by calls of the member functions, each of the six voices of the pool has
`stage = stageOff` if and only if its `rootNoteNumber = -1`; so the idle test of
`turnOnKey` and the render test of `process` agree, and a voice in release is not
idle. -/
theorem voice_slot_consistency (env : Env A) (malloc : Int → NoteState A)
    (k : AKSynthOneDSPKernel A) (hr : Reachable env (initialised env malloc) k) :
    ∀ i : Int, 0 ≤ i → i < polyphony →
      ((k.noteStates i).stage = stageOff ↔ (k.noteStates i).rootNoteNumber = -1)
      ∧ ((k.noteStates i).isRendered = true ↔ (k.noteStates i).rootNoteNumber ≠ -1)
      ∧ ((k.noteStates i).stage = stageRelease → (k.noteStates i).rootNoteNumber ≠ -1) := by
  intro i hi hi'
  have h := ((engineInvariant_reachable env malloc hr).2.1 i hi hi').1
  refine ⟨h, ?_, ?_⟩
  · simp only [NoteState.isRendered, decide_eq_true_eq]
    constructor
    · exact fun hh => hh.1
    · exact fun hh => ⟨hh, fun hs => hh (h.1 hs)⟩
  · intro hs hroot
    rw [h.2 hroot] at hs
    exact absurd hs (by decide)

theorem voice_slot_consistency_witness :
    Reachable testEnv (initialised testEnv zeroMalloc)
        (stopNote testEnv (startNote2 testEnv testKernel 60 127) 60)
      ∧ ∀ i : Int, 0 ≤ i → i < polyphony →
        (((stopNote testEnv (startNote2 testEnv testKernel 60 127) 60).noteStates i).stage
            = stageOff
          ↔ ((stopNote testEnv (startNote2 testEnv testKernel 60 127) 60).noteStates
              i).rootNoteNumber = -1)
        ∧ (((stopNote testEnv (startNote2 testEnv testKernel 60 127) 60).noteStates
              i).isRendered = true
          ↔ ((stopNote testEnv (startNote2 testEnv testKernel 60 127) 60).noteStates
              i).rootNoteNumber ≠ -1)
        ∧ (((stopNote testEnv (startNote2 testEnv testKernel 60 127) 60).noteStates i).stage
            = stageRelease
          → ((stopNote testEnv (startNote2 testEnv testKernel 60 127) 60).noteStates
              i).rootNoteNumber ≠ -1) :=
  ⟨(Relation.ReflTransGen.single (Step.startNote2 _ 60 127)).tail (Step.stopNote _ 60),
    voice_slot_consistency testEnv zeroMalloc _
      ((Relation.ReflTransGen.single (Step.startNote2 _ 60 127)).tail (Step.stopNote _ 60))⟩

/-- C28. While `p[arpIsOn] = 1`, `startNote` and `stopNote` change only the
registry: the result is the state with `heldNoteNumbers` replaced, so no voice,
`playingNoteStatesIndex` or `monoFrequency` changes. -/
theorem arpOn_note_entry_points_only_registry (env : Env A) (k : AKSynthOneDSPKernel A)
    (nn vel : Int) (f : ℚ) (ha : k.p arpIsOn = 1) :
    startNote env k nn vel f
        = { k with heldNoteNumbers := (startNote env k nn vel f).heldNoteNumbers }
      ∧ startNote2 env k nn vel
        = { k with heldNoteNumbers := (startNote2 env k nn vel).heldNoteNumbers }
      ∧ stopNote env k nn = { k with heldNoteNumbers := (stopNote env k nn).heldNoteNumbers }
      ∧ (startNote env k nn vel f).noteStates = k.noteStates
      ∧ (startNote env k nn vel f).monoNote = k.monoNote
      ∧ (startNote env k nn vel f).playingNoteStatesIndex = k.playingNoteStatesIndex
      ∧ (startNote env k nn vel f).monoFrequency = k.monoFrequency
      ∧ (stopNote env k nn).noteStates = k.noteStates
      ∧ (stopNote env k nn).monoNote = k.monoNote
      ∧ (stopNote env k nn).playingNoteStatesIndex = k.playingNoteStatesIndex
      ∧ (stopNote env k nn).monoFrequency = k.monoFrequency := by
  have h1 : ∀ f : ℚ, startNote env k nn vel f
      = { k with heldNoteNumbers := (startNote env k nn vel f).heldNoteNumbers } := by
    intro f
    simp only [startNote]
    split_ifs
    · rfl
    · rfl
  have h2 : startNote2 env k nn vel
      = { k with heldNoteNumbers := (startNote2 env k nn vel).heldNoteNumbers } := by
    simp only [startNote2]
    split_ifs
    · rfl
    · exact h1 _
  have h3 : stopNote env k nn
      = { k with heldNoteNumbers := (stopNote env k nn).heldNoteNumbers } := by
    simp only [stopNote]
    split_ifs
    · rfl
    · rfl
  refine ⟨h1 f, h2, h3, ?_, ?_, ?_, ?_, ?_, ?_, ?_, ?_⟩
  · rw [h1 f]
  · rw [h1 f]
  · rw [h1 f]
  · rw [h1 f]
  · rw [h3]
  · rw [h3]
  · rw [h3]
  · rw [h3]

theorem arpOn_note_entry_points_only_registry_witness :
    liveVoiceArpOn.p arpIsOn = 1
      ∧ (startNote2 testEnv liveVoiceArpOn 64 127).noteStates = liveVoiceArpOn.noteStates
      ∧ (stopNote testEnv liveVoiceArpOn 60).noteStates = liveVoiceArpOn.noteStates :=
  ⟨liveVoiceArpOn_arpIsOn,
    by
      rw [(arpOn_note_entry_points_only_registry testEnv liveVoiceArpOn 64 127 0
        liveVoiceArpOn_arpIsOn).2.1],
    (arpOn_note_entry_points_only_registry testEnv liveVoiceArpOn 60 127 0
        liveVoiceArpOn_arpIsOn).2.2.2.2.2.2.2.1⟩

/-- C30. Voice index safety.  In every state reachable from the initialised engine
`playingNoteStatesIndex` lies in `[0, MAX_POLYPHONY)`, and the voice that a poly
note-on selects (revoice, idle slot or steal), which is the next value of
`playingNoteStatesIndex`, is a valid index into the pool of six voices. -/
theorem voice_index_safety (env : Env A) (malloc : Int → NoteState A)
    (k : AKSynthOneDSPKernel A) (hr : Reachable env (initialised env malloc) k) :
    0 ≤ k.playingNoteStatesIndex ∧ k.playingNoteStatesIndex < MAX_POLYPHONY
      ∧ ∀ nn : Int, 0 ≤ selectedVoice k nn ∧ selectedVoice k nn < MAX_POLYPHONY
        ∧ ∀ (vel : Int) (f : ℚ), 0 ≤ nn → nn < NUM_MIDI_NOTES → k.p isMono ≠ 1 →
          (turnOnKey env k nn vel f).playingNoteStatesIndex = selectedVoice k nn := by
  have h := poolInvariant_reachable env malloc k hr
  refine ⟨h.2.1, h.2.2.1, fun nn => ?_⟩
  have hs := selectedVoice_spec k nn h.2.1 h.2.2.1
  refine ⟨hs.1, hs.2.1, fun vel f h0 h1 hm => ?_⟩
  rw [turnOnKey_poly env k nn vel f h.1 h0 h1 hm]
  rfl

theorem voice_index_safety_witness :
    Reachable testEnv (initialised testEnv zeroMalloc)
        (pressNotes testEnv testKernel sevenNotes)
      ∧ 0 ≤ (pressNotes testEnv testKernel sevenNotes).playingNoteStatesIndex
      ∧ (pressNotes testEnv testKernel sevenNotes).playingNoteStatesIndex < MAX_POLYPHONY :=
  have hr : Reachable testEnv (initialised testEnv zeroMalloc)
      (pressNotes testEnv testKernel sevenNotes) :=
    ((((((Relation.ReflTransGen.single (Step.startNote2 _ 60 127)).tail
      (Step.startNote2 _ 62 127)).tail (Step.startNote2 _ 64 127)).tail
      (Step.startNote2 _ 65 127)).tail (Step.startNote2 _ 67 127)).tail
      (Step.startNote2 _ 69 127)).tail (Step.startNote2 _ 71 127)
  ⟨hr, (voice_index_safety testEnv zeroMalloc _ hr).1,
    (voice_index_safety testEnv zeroMalloc _ hr).2.1⟩

/-! ### The scheduler data is not written by the voice operations -/

theorem sameSchedule_refl (k : AKSynthOneDSPKernel A) : SameSchedule k k :=
  ⟨rfl, rfl, rfl, rfl, rfl, rfl, rfl, rfl⟩

theorem sameSchedule_trans {k₁ k₂ k₃ : AKSynthOneDSPKernel A} (h : SameSchedule k₁ k₂)
    (h' : SameSchedule k₂ k₃) : SameSchedule k₁ k₃ :=
  ⟨h'.1.trans h.1, h'.2.1.trans h.2.1, h'.2.2.1.trans h.2.2.1, h'.2.2.2.1.trans h.2.2.2.1,
    h'.2.2.2.2.1.trans h.2.2.2.2.1, h'.2.2.2.2.2.1.trans h.2.2.2.2.2.1,
    h'.2.2.2.2.2.2.1.trans h.2.2.2.2.2.2.1, h'.2.2.2.2.2.2.2.trans h.2.2.2.2.2.2.2⟩

theorem sameSchedule_initializeNoteStates (env : Env A) (k : AKSynthOneDSPKernel A) :
    SameSchedule k (initializeNoteStates env k) := by
  unfold initializeNoteStates
  split_ifs
  · exact ⟨rfl, rfl, rfl, rfl, rfl, rfl, rfl, rfl⟩
  · exact sameSchedule_refl k

theorem sameSchedule_turnOnKey (env : Env A) (k : AKSynthOneDSPKernel A) (nn vel : Int)
    (f : ℚ) : SameSchedule k (turnOnKey env k nn vel f) := by
  have h := sameSchedule_initializeNoteStates env k
  simp only [turnOnKey]
  split_ifs
  · exact sameSchedule_refl k
  all_goals exact sameSchedule_trans h ⟨rfl, rfl, rfl, rfl, rfl, rfl, rfl, rfl⟩

theorem sameSchedule_turnOnKey2 (env : Env A) (k : AKSynthOneDSPKernel A) (nn vel : Int) :
    SameSchedule k (turnOnKey2 env k nn vel) := by
  simp only [turnOnKey2]
  split_ifs
  · exact sameSchedule_refl k
  · exact sameSchedule_turnOnKey env k nn vel _

theorem sameSchedule_turnOffKey (env : Env A) (k : AKSynthOneDSPKernel A) (nn : Int) :
    SameSchedule k (turnOffKey env k nn) := by
  have h := sameSchedule_initializeNoteStates env k
  simp only [turnOffKey]
  split_ifs
  · exact sameSchedule_refl k
  all_goals exact sameSchedule_trans h ⟨rfl, rfl, rfl, rfl, rfl, rfl, rfl, rfl⟩

theorem sameSchedule_foldl_turnOffKey (env : Env A) (l : List Int)
    (k : AKSynthOneDSPKernel A) :
    SameSchedule k (l.foldl (fun k note => turnOffKey env k note) k) :=
  foldl_preserves (fun b : AKSynthOneDSPKernel A => SameSchedule k b) _
    (fun b a hb => sameSchedule_trans hb (sameSchedule_turnOffKey env b a)) l k
    (sameSchedule_refl k)

/-! ### The blocks of the scheduler -/

/-- The rebuild writes the pattern, `arpSeqNotes2` and `notesPerOctave` only. -/
theorem arpSeqRebuild_frame (env : Env A) (k : AKSynthOneDSPKernel A) :
    SameVoices k (arpSeqRebuild env k)
      ∧ (arpSeqRebuild env k).arpSeqLastNotes = k.arpSeqLastNotes
      ∧ (arpSeqRebuild env k).arpBeatCounter = k.arpBeatCounter
      ∧ (arpSeqRebuild env k).p = k.p
      ∧ (arpSeqRebuild env k).heldNoteNumbers = k.heldNoteNumbers
      ∧ (arpSeqRebuild env k).arpTime = k.arpTime
      ∧ (arpSeqRebuild env k).arpSampleCounter = k.arpSampleCounter
      ∧ (arpSeqRebuild env k).messageQueue = k.messageQueue := by
  simp only [arpSeqRebuild]
  split_ifs
  all_goals exact ⟨⟨rfl, rfl, rfl, rfl⟩, rfl, rfl, rfl, rfl, rfl, rfl, rfl⟩

/-- The release of the notes of the previous beat leaves the scheduler data as it
is, except for `arpSeqLastNotes`, which is emptied. -/
theorem arpSeqTurnOffLastNotes_frame (env : Env A) (k : AKSynthOneDSPKernel A) :
    (arpSeqTurnOffLastNotes env k).arpSeqLastNotes = []
      ∧ (arpSeqTurnOffLastNotes env k).arpSeqNotes = k.arpSeqNotes
      ∧ (arpSeqTurnOffLastNotes env k).arpSeqNotes2 = k.arpSeqNotes2
      ∧ (arpSeqTurnOffLastNotes env k).arpBeatCounter = k.arpBeatCounter
      ∧ (arpSeqTurnOffLastNotes env k).p = k.p
      ∧ (arpSeqTurnOffLastNotes env k).heldNoteNumbers = k.heldNoteNumbers
      ∧ (arpSeqTurnOffLastNotes env k).arpTime = k.arpTime
      ∧ (arpSeqTurnOffLastNotes env k).arpSampleCounter = k.arpSampleCounter := by
  obtain ⟨h1, h2, -, h4, h5, h6, h7, h8⟩ := sameSchedule_foldl_turnOffKey env k.arpSeqLastNotes k
  exact ⟨rfl, h1, h2, h4, h5, h6, h7, h8⟩

/-- The frame of the scheduler in three cases: the scheduler does not run; it runs
off a beat boundary and only advances the clock; it runs on a beat boundary. -/
theorem arpSeq_cases (env : Env A) (s : ℚ) (k : AKSynthOneDSPKernel A) :
    (¬ schedulerRuns k → arpSeq env s k = (k, false))
      ∧ (schedulerRuns k → ¬ beatBoundary s k → arpSeq env s k = (advanceArpTime k, false))
      ∧ (schedulerRuns k → beatBoundary s k →
          arpSeq env s k = arpSeqBeat env (advanceArpTime k)) := by
  refine ⟨fun h => ?_, fun h hb => ?_, fun h hb => ?_⟩
  · have h' : ¬ (k.p arpIsOn = 1 ∨ k.arpSeqLastNotes.length ≠ 0) := h
    simp only [arpSeq]
    rw [if_neg h']
  · have h' : k.p arpIsOn = 1 ∨ k.arpSeqLastNotes.length ≠ 0 := h
    have hb' : ¬ (fmod (k.arpSampleCounter / SAMPLE_RATE) s < fmod k.arpTime s
        ∨ k.arpTime ≥ k.arpSampleCounter / SAMPLE_RATE) := hb
    simp only [arpSeq]
    rw [if_pos h', if_neg hb']
    rfl
  · have h' : k.p arpIsOn = 1 ∨ k.arpSeqLastNotes.length ≠ 0 := h
    have hb' : fmod (k.arpSampleCounter / SAMPLE_RATE) s < fmod k.arpTime s
        ∨ k.arpTime ≥ k.arpSampleCounter / SAMPLE_RATE := hb
    simp only [arpSeq]
    rw [if_pos h', if_pos hb']
    rfl

/-! ### The "NOP" guards and the firing of a step -/

theorem arpSeqStep_of_empty_registry (env : Env A) (k : AKSynthOneDSPKernel A)
    (hh : k.heldNoteNumbers = []) :
    arpSeqStep env k
      = (if k.arpBeatCounter > 0 then beatCounterDidChange { k with arpBeatCounter := 0 } else k,
          true) := by
  have hlen : k.heldNoteNumbers.length = 0 := by rw [hh]; rfl
  simp only [arpSeqStep, if_pos hlen]
  split_ifs <;> rfl

theorem arpSeqStep_of_empty_pattern (env : Env A) (k : AKSynthOneDSPKernel A)
    (hh : k.heldNoteNumbers ≠ []) (hp : k.arpSeqNotes = []) : arpSeqStep env k = (k, true) := by
  have hlen : ¬ k.heldNoteNumbers.length = 0 := fun h => hh (List.length_eq_zero.1 h)
  have hlen' : k.arpSeqNotes.length = 0 := by rw [hp]; rfl
  simp only [arpSeqStep, if_neg hlen, if_pos hlen']

theorem arpSeqStep_fire (env : Env A) (k : AKSynthOneDSPKernel A)
    (hh : k.heldNoteNumbers ≠ []) (hp : k.arpSeqNotes ≠ []) :
    arpSeqStep env k = (arpSeqFire env k, false) := by
  have hlen : ¬ k.heldNoteNumbers.length = 0 := fun h => hh (List.length_eq_zero.1 h)
  have hlen' : ¬ k.arpSeqNotes.length = 0 := fun h => hp (List.length_eq_zero.1 h)
  simp only [arpSeqStep, if_neg hlen, if_neg hlen']

theorem arpSeqTurnOn_eq (env : Env A) (k : AKSynthOneDSPKernel A) (note : Int) :
    arpSeqTurnOn env k note
      = if 0 ≤ note ∧ note < NUM_MIDI_NOTES then turnOnAndRecord env k note else k := by
  simp only [arpSeqTurnOn, turnOnAndRecord, ge_iff_le]

theorem foldl_arpSeqTurnOn (env : Env A) (g : Int → Int) (l : List Int) :
    ∀ k : AKSynthOneDSPKernel A,
      l.foldl (fun k x => arpSeqTurnOn env k (g x)) k
        = ((l.map g).filter (fun note => decide (0 ≤ note ∧ note < NUM_MIDI_NOTES))).foldl
            (turnOnAndRecord env) k := by
  induction l with
  | nil => intro k; rfl
  | cons a l ih =>
    intro k
    rw [List.foldl_cons, ih, arpSeqTurnOn_eq, List.map_cons, List.filter_cons]
    by_cases h : 0 ≤ g a ∧ g a < NUM_MIDI_NOTES
    · simp [h]
    · simp [h]

/-- The firing of the step at the position computed by the source. -/
theorem arpSeqFire_eq_notesOfStep (env : Env A) (k : AKSynthOneDSPKernel A) :
    arpSeqFire env k
      = (notesOfStep k (k.arpSeqNotes.getD
            (k.arpBeatCounter.tmod k.arpSeqNotes.length).toNat ⟨0, 0⟩)).foldl
          (turnOnAndRecord env)
          (beatCounterDidChange { k with arpBeatCounter := k.arpBeatCounter + 1 }) := by
  have hstep : (beatCounterDidChange { k with arpBeatCounter := k.arpBeatCounter + 1 }).arpSeqNotes.getD
      (k.arpBeatCounter.tmod k.arpSeqNotes.length).toNat ⟨0, 0⟩
      = k.arpSeqNotes.getD (k.arpBeatCounter.tmod k.arpSeqNotes.length).toNat ⟨0, 0⟩ := rfl
  simp only [arpSeqFire]
  rw [hstep]
  generalize k.arpSeqNotes.getD (k.arpBeatCounter.tmod k.arpSeqNotes.length).toNat ⟨0, 0⟩ = step
  unfold notesOfStep
  by_cases hs : k.p arpIsSequencer = 1
  · have hs' : (beatCounterDidChange { k with arpBeatCounter := k.arpBeatCounter + 1 }).p
        arpIsSequencer = 1 := hs
    rw [if_pos hs', if_pos hs]
    by_cases ho : step.onOff = 1
    · rw [if_pos ho, if_pos ho]
      exact foldl_arpSeqTurnOn env (fun baseNote => baseNote + step.noteNumber) _ _
    · rw [if_neg ho, if_neg ho]
      rfl
  · have hs' : ¬ (beatCounterDidChange { k with arpBeatCounter := k.arpBeatCounter + 1 }).p
        arpIsSequencer = 1 := hs
    rw [if_neg hs', if_neg hs, arpSeqTurnOn_eq]
    by_cases hr : 0 ≤ step.noteNumber ∧ step.noteNumber < NUM_MIDI_NOTES
    · rw [if_pos hr, if_pos hr]; rfl
    · rw [if_neg hr, if_neg hr]; rfl

/-- The firing of a step: the beat counter advances by one and the notes of the
step are turned on and recorded, in order. -/
theorem arpSeqFire_eq (env : Env A) (k : AKSynthOneDSPKernel A) (hc : 0 ≤ k.arpBeatCounter) :
    arpSeqFire env k
      = (firedNotes k).foldl (turnOnAndRecord env)
          (beatCounterDidChange { k with arpBeatCounter := k.arpBeatCounter + 1 }) := by
  have hpos : k.arpBeatCounter.tmod k.arpSeqNotes.length
      = k.arpBeatCounter % k.arpSeqNotes.length :=
    Int.tmod_eq_emod hc (Int.ofNat_nonneg _)
  rw [arpSeqFire_eq_notesOfStep, hpos]
  rfl

theorem foldl_turnOnAndRecord (env : Env A) (l : List Int) :
    ∀ k : AKSynthOneDSPKernel A,
      (l.foldl (turnOnAndRecord env) k).arpSeqLastNotes = k.arpSeqLastNotes ++ l
      ∧ (l.foldl (turnOnAndRecord env) k).arpBeatCounter = k.arpBeatCounter
      ∧ (l.foldl (turnOnAndRecord env) k).heldNoteNumbers = k.heldNoteNumbers
      ∧ (l.foldl (turnOnAndRecord env) k).p = k.p
      ∧ (l.foldl (turnOnAndRecord env) k).arpSeqNotes = k.arpSeqNotes
      ∧ (l.foldl (turnOnAndRecord env) k).arpSeqNotes2 = k.arpSeqNotes2 := by
  induction l with
  | nil => intro k; simp
  | cons a l ih =>
    intro k
    obtain ⟨h1, h2, h3, h4, h5, h6, -, -⟩ := sameSchedule_turnOnKey2 env k a 127
    obtain ⟨i1, i2, i3, i4, i5, i6⟩ := ih (turnOnAndRecord env k a)
    rw [List.foldl_cons]
    refine ⟨?_, ?_, ?_, ?_, ?_, ?_⟩
    · rw [i1]
      show ((turnOnKey2 env k a 127).arpSeqLastNotes ++ [a]) ++ l = _
      rw [h3]; simp
    · rw [i2]; exact h4
    · rw [i3]; exact h6
    · rw [i4]; exact h5
    · rw [i5]; exact h1
    · rw [i6]; exact h2

theorem notesOfStep_range (k : AKSynthOneDSPKernel A) (step : SeqNoteNumber) :
    ∀ note ∈ notesOfStep k step, 0 ≤ note ∧ note < NUM_MIDI_NOTES := by
  intro note hn
  unfold notesOfStep at hn
  split_ifs at hn with h1 h2 h3
  · simpa using (List.mem_filter.1 hn).2
  · exact absurd hn (List.not_mem_nil _)
  · rw [List.mem_singleton] at hn
    rw [hn]; exact h3
  · exact absurd hn (List.not_mem_nil _)

theorem notesOfStep_length (k : AKSynthOneDSPKernel A) (step : SeqNoteNumber) :
    (notesOfStep k step).length ≤ max k.heldNoteNumbers.length 1 := by
  unfold notesOfStep
  split_ifs
  · refine le_trans (List.length_filter_le _ _) ?_
    rw [List.length_map]
    exact le_max_left _ _
  · simp
  · simp
  · simp

theorem firedNotes_range (k : AKSynthOneDSPKernel A) :
    ∀ note ∈ firedNotes k, 0 ≤ note ∧ note < NUM_MIDI_NOTES :=
  notesOfStep_range k (currentStep k)

theorem beatPrelude_frame (env : Env A) (k : AKSynthOneDSPKernel A) :
    (beatPrelude env k).arpSeqLastNotes = []
      ∧ (beatPrelude env k).arpBeatCounter = k.arpBeatCounter
      ∧ (beatPrelude env k).p = k.p
      ∧ (beatPrelude env k).heldNoteNumbers = k.heldNoteNumbers
      ∧ (k.p arpIsOn ≠ 1 → (beatPrelude env k).arpSeqNotes = k.arpSeqNotes) := by
  unfold beatPrelude
  obtain ⟨h1, h2, -, h4, h5, h6, -, -⟩ := arpSeqTurnOffLastNotes_frame env
    (if k.p arpIsOn = 1 then arpSeqRebuild env k else k)
  obtain ⟨-, -, r2, r3, r4, -, -, -⟩ := arpSeqRebuild_frame env k
  refine ⟨h1, ?_, ?_, ?_, ?_⟩
  · rw [h4]; split_ifs
    · exact r2
    · rfl
  · rw [h5]; split_ifs
    · exact r3
    · rfl
  · rw [h6]; split_ifs
    · exact r4
    · rfl
  · intro ha
    rw [h2, if_neg ha]

theorem arpSeqBeat_eq (env : Env A) (k : AKSynthOneDSPKernel A) :
    arpSeqBeat env k = arpSeqStep env (beatPrelude env k) := rfl

/-- C20. Fire current step.  On a beat with a non-empty registry and a non-empty
pattern (and a beat counter that is not negative) the step used is
`arpSeqNotes[arpBeatCounter mod |arpSeqNotes|]`, the beat counter increases by
exactly 1, the frame does not end with `continue`, and the notes turned on, each by
`turnOnKey(note, 127)` followed by its recording in `arpSeqLastNotes`, are exactly
the notes `firedNotes`: in sequencer mode `baseNote + step.noteNumber` for each held
`baseNote` with the sum in `[0, 128)` when `step.onOff = 1` and none otherwise, in
arp mode `step.noteNumber` when it is in `[0, 128)`. -/
theorem fire_current_step (env : Env A) (k : AKSynthOneDSPKernel A)
    (hh : k.heldNoteNumbers ≠ []) (hp : k.arpSeqNotes ≠ []) (hc : 0 ≤ k.arpBeatCounter) :
    arpSeqStep env k = (arpSeqFire env k, false)
      ∧ arpSeqFire env k
          = (firedNotes k).foldl (turnOnAndRecord env)
              (beatCounterDidChange { k with arpBeatCounter := k.arpBeatCounter + 1 })
      ∧ (arpSeqFire env k).arpBeatCounter = k.arpBeatCounter + 1
      ∧ (arpSeqFire env k).arpSeqLastNotes = k.arpSeqLastNotes ++ firedNotes k
      ∧ (∀ note ∈ firedNotes k, 0 ≤ note ∧ note < NUM_MIDI_NOTES)
      ∧ 0 ≤ k.arpBeatCounter % (k.arpSeqNotes.length : Int)
      ∧ k.arpBeatCounter % (k.arpSeqNotes.length : Int) < k.arpSeqNotes.length := by
  have hfire := arpSeqFire_eq env k hc
  have hf := foldl_turnOnAndRecord env (firedNotes k)
    (beatCounterDidChange { k with arpBeatCounter := k.arpBeatCounter + 1 })
  have hlen : (0 : Int) < k.arpSeqNotes.length := by
    have : k.arpSeqNotes.length ≠ 0 := fun h => hp (List.length_eq_zero.1 h)
    omega
  refine ⟨arpSeqStep_fire env k hh hp, hfire, ?_, ?_, firedNotes_range k,
    Int.emod_nonneg _ (by omega), Int.emod_lt_of_pos _ hlen⟩
  · rw [hfire, hf.2.1]; rfl
  · rw [hfire, hf.1]; rfl

set_option maxRecDepth 100000 in
theorem fire_current_step_witness :
    (beatPrelude testEnv seqKernel).heldNoteNumbers ≠ []
      ∧ (beatPrelude testEnv seqKernel).arpSeqNotes = [⟨0, 1⟩, ⟨7, 0⟩, ⟨12, 1⟩]
      ∧ (arpSeqFire testEnv (beatPrelude testEnv seqKernel)).arpSeqLastNotes
          = (beatPrelude testEnv seqKernel).arpSeqLastNotes
            ++ firedNotes (beatPrelude testEnv seqKernel)
      ∧ (arpSeqBeat testEnv seqKernel).1.arpSeqLastNotes = [60]
      ∧ (arpSeqBeat testEnv (arpSeqBeat testEnv seqKernel).1).1.arpSeqLastNotes = []
      ∧ (arpSeqBeat testEnv (arpSeqBeat testEnv (arpSeqBeat testEnv seqKernel).1).1).1.arpSeqLastNotes
          = [72] :=
  ⟨by decide!, by decide!,
    (fire_current_step testEnv (beatPrelude testEnv seqKernel) (by decide!) (by decide!)
      (by decide!)).2.2.2.1,
    by decide!, by decide!, by decide!⟩

/-- C21. Empty-registry guard.  Every beat is the rebuild (when the arp is on),
then `turnOffKey` for each note of `arpSeqLastNotes` in order and the emptying of
that list, then the guards.  When the registry is empty the frame ends with
`continue`: the beat counter is set to 0 with a beat notification exactly when it
was greater than 0, no note is turned on (the voices are as the note-offs left
them), and `arpSeqLastNotes` is empty. -/
theorem empty_registry_guard (env : Env A) (k : AKSynthOneDSPKernel A)
    (hh : k.heldNoteNumbers = []) :
    beatPrelude env k
        = { (if k.p arpIsOn = 1 then arpSeqRebuild env k else k).arpSeqLastNotes.foldl
              (fun k note => turnOffKey env k note)
              (if k.p arpIsOn = 1 then arpSeqRebuild env k else k) with arpSeqLastNotes := [] }
      ∧ arpSeqBeat env k
        = (if k.arpBeatCounter > 0 then
            beatCounterDidChange { (beatPrelude env k) with arpBeatCounter := 0 }
          else beatPrelude env k, true)
      ∧ (0 ≤ k.arpBeatCounter → (arpSeqBeat env k).1.arpBeatCounter = 0)
      ∧ (arpSeqBeat env k).1.arpSeqLastNotes = []
      ∧ SameVoices (beatPrelude env k) (arpSeqBeat env k).1
      ∧ (arpSeqBeat env k).1.messageQueue
        = (beatPrelude env k).messageQueue
          ++ (if k.arpBeatCounter > 0 then [Notification.arpBeatCounterDidChange] else []) := by
  obtain ⟨f1, f2, -, f4, -⟩ := beatPrelude_frame env k
  have hbeat : arpSeqBeat env k
      = (if k.arpBeatCounter > 0 then
            beatCounterDidChange { (beatPrelude env k) with arpBeatCounter := 0 }
          else beatPrelude env k, true) := by
    rw [arpSeqBeat_eq, arpSeqStep_of_empty_registry env _ (by rw [f4]; exact hh), f2]
  refine ⟨rfl, hbeat, ?_, ?_, ?_, ?_⟩
  · intro hc
    rw [hbeat]
    by_cases h : k.arpBeatCounter > 0
    · simp only [if_pos h]; rfl
    · simp only [if_neg h]; rw [f2]; omega
  · rw [hbeat]
    by_cases h : k.arpBeatCounter > 0
    · simp only [if_pos h]; exact f1
    · simp only [if_neg h]; exact f1
  · rw [hbeat]
    by_cases h : k.arpBeatCounter > 0
    · simp only [if_pos h]; exact ⟨rfl, rfl, rfl, rfl⟩
    · simp only [if_neg h]; exact ⟨rfl, rfl, rfl, rfl⟩
  · rw [hbeat]
    by_cases h : k.arpBeatCounter > 0
    · simp only [if_pos h]; rfl
    · simp only [if_neg h]; simp

set_option maxRecDepth 100000 in
theorem empty_registry_guard_witness :
    (stopNote testEnv (arpSeqBeat testEnv seqKernel).1 60).heldNoteNumbers = []
      ∧ (stopNote testEnv (arpSeqBeat testEnv seqKernel).1 60).arpBeatCounter = 1
      ∧ (stopNote testEnv (arpSeqBeat testEnv seqKernel).1 60).arpSeqLastNotes = [60]
      ∧ (arpSeqBeat testEnv (stopNote testEnv (arpSeqBeat testEnv seqKernel).1 60)).1.arpBeatCounter
          = 0
      ∧ (arpSeqBeat testEnv
          (stopNote testEnv (arpSeqBeat testEnv seqKernel).1 60)).1.arpSeqLastNotes = [] :=
  ⟨by decide!, by decide!, by decide!,
    (empty_registry_guard testEnv (stopNote testEnv (arpSeqBeat testEnv seqKernel).1 60)
      (by decide!)).2.2.1 (by decide!),
    (empty_registry_guard testEnv (stopNote testEnv (arpSeqBeat testEnv seqKernel).1 60)
      (by decide!)).2.2.2.1⟩

/-! ### The scheduler with the arp off -/

theorem foldl_turnOffKey_poly (env : Env A) (l : List Int)
    (hl : ∀ n ∈ l, 0 ≤ n ∧ n < NUM_MIDI_NOTES) :
    ∀ (k : AKSynthOneDSPKernel A), PoolInvariant k → k.p isMono ≠ 1 →
      ∀ i : Int, 0 ≤ i → i < polyphony →
        (l.foldl (fun k n => turnOffKey env k n) k).noteStates i
          = if (k.noteStates i).rootNoteNumber ∈ l then (k.noteStates i).release
            else k.noteStates i := by
  induction l with
  | nil => intro k _ _ i _ _; simp
  | cons a l ih =>
    intro k hinv hm i hi hi'
    have hav := hl a (List.mem_cons_self a l)
    have hinv1 : PoolInvariant (turnOffKey env k a) := poolInvariant_turnOffKey env k a hinv
    have hstep := turnOffKey_poly_pointwise env k a hinv hav.1 hav.2 hm i hi hi'
    rw [List.foldl_cons, ih (fun n hn => hl n (List.mem_cons_of_mem a hn)) (turnOffKey env k a)
      hinv1 (by rw [turnOffKey_p]; exact hm) i hi hi', hstep]
    by_cases hroot : (k.noteStates i).rootNoteNumber = a
    · rw [if_pos hroot]
      have hmem : (k.noteStates i).rootNoteNumber ∈ a :: l := by
        rw [hroot]; exact List.mem_cons_self a l
      have hrhs : (if (k.noteStates i).rootNoteNumber ∈ a :: l then (k.noteStates i).release
          else k.noteStates i) = (k.noteStates i).release := if_pos hmem
      rw [hrhs]
      by_cases hl2 : (k.noteStates i).release.rootNoteNumber ∈ l
      · rw [if_pos hl2]; rfl
      · rw [if_neg hl2]
    · rw [if_neg hroot]
      have hiff : (k.noteStates i).rootNoteNumber ∈ a :: l
          ↔ (k.noteStates i).rootNoteNumber ∈ l := by
        rw [List.mem_cons]
        exact ⟨fun h => h.resolve_left hroot, Or.inr⟩
      by_cases hmem : (k.noteStates i).rootNoteNumber ∈ l
      · rw [if_pos hmem, if_pos (hiff.2 hmem)]
      · rw [if_neg hmem, if_neg (fun h => hmem (hiff.1 h))]

theorem transitionToOff_of_no_release (k : AKSynthOneDSPKernel A)
    (hpool : ∀ i : Int, 0 ≤ i → i < polyphony → (k.noteStates i).stage ≠ stageRelease)
    (hmono : k.monoNote.stage ≠ stageRelease) : transitionToOff k = k := by
  have hm : k.monoNote.isReleased = false := by
    simp [NoteState.isReleased, hmono]
  have hp : ∀ i : Int, ¬ (0 ≤ i ∧ i < polyphony ∧ (k.noteStates i).isReleased = true) := by
    rintro i ⟨hi, hi', hr⟩
    rw [NoteState.isReleased_iff] at hr
    exact hpool i hi hi' hr.1
  have hany : (loopIndices polyphony).any (fun i => (k.noteStates i).isReleased) = false := by
    rw [Bool.eq_false_iff]
    intro h
    obtain ⟨i, hi, hi', hr⟩ := (any_loopIndices_polyphony _).1 h
    exact hp i ⟨hi, hi', hr⟩
  have hfun : (fun i => if 0 ≤ i ∧ i < polyphony ∧ (k.noteStates i).isReleased = true
      then (k.noteStates i).clear else k.noteStates i) = k.noteStates := by
    funext i
    rw [if_neg (hp i)]
  simp only [transitionToOff, hm, hany, hfun]
  split_ifs
  all_goals first | rfl | (exfalso; assumption)

/-- C26 (as worded, refuted). The arp is disabled after the first beat of an arp on
the held notes 60 and 64: `p[arpIsOn] = 0` and `arpSeqLastNotes = [60]`.  The next
beat releases 60, but it also turns the note 64 on (voice 1) and records it, so
that `arpSeqLastNotes` is not empty and the scheduler runs again. -/
theorem arp_disabled_still_fires :
    arpDisabledHeld.p arpIsOn = 0 ∧ arpDisabledHeld.arpSeqLastNotes = [60]
      ∧ arpDisabledHeld.heldNoteNumbers = [64, 60]
      ∧ (arpSeqBeat testEnv arpDisabledHeld).1.arpSeqLastNotes = [64]
      ∧ ((arpDisabledHeld).noteStates 1).stage = stageOff
      ∧ ((arpSeqBeat testEnv arpDisabledHeld).1.noteStates 1).stage = stageOn
      ∧ ((arpSeqBeat testEnv arpDisabledHeld).1.noteStates 1).rootNoteNumber = 64
      ∧ schedulerRuns (arpSeqBeat testEnv arpDisabledHeld).1 := by
  refine ⟨by decide!, by decide!, by decide!, by decide!, by decide!, by decide!, by decide!, ?_⟩
  right
  decide!

/-- C26 (amended). With `p[arpIsOn]` other than 1 a beat does not rebuild the
pattern: it calls `turnOffKey` on each note of `arpSeqLastNotes`, empties the list
and goes through the guards.  When the registry is empty or the stored pattern is
empty, no note is turned on, `arpSeqLastNotes` stays empty and the scheduler does
not run in the next frame.  When both are non-empty the current step of the stored
pattern is fired: its notes `firedNotes`, which may be none, are turned on and
recorded in `arpSeqLastNotes`, and the scheduler runs in the next frame if and only
if at least one note was fired. -/
theorem arp_disabled_beat (env : Env A) (k : AKSynthOneDSPKernel A) (ha : k.p arpIsOn ≠ 1) :
    beatPrelude env k
        = { k.arpSeqLastNotes.foldl (fun k note => turnOffKey env k note) k with
            arpSeqLastNotes := [] }
      ∧ arpSeqBeat env k = arpSeqStep env (beatPrelude env k)
      ∧ (k.heldNoteNumbers = [] ∨ k.arpSeqNotes = [] →
          (arpSeqBeat env k).2 = true
          ∧ SameVoices (beatPrelude env k) (arpSeqBeat env k).1
          ∧ (arpSeqBeat env k).1.arpSeqLastNotes = []
          ∧ ¬ schedulerRuns (arpSeqBeat env k).1)
      ∧ (k.heldNoteNumbers ≠ [] → k.arpSeqNotes ≠ [] → 0 ≤ k.arpBeatCounter →
          arpSeqBeat env k
            = ((firedNotes (beatPrelude env k)).foldl (turnOnAndRecord env)
                (beatCounterDidChange
                  { (beatPrelude env k) with arpBeatCounter := k.arpBeatCounter + 1 }), false)
          ∧ (arpSeqBeat env k).1.arpSeqLastNotes = firedNotes (beatPrelude env k)
          ∧ (schedulerRuns (arpSeqBeat env k).1 ↔ firedNotes (beatPrelude env k) ≠ [])) := by
  obtain ⟨f1, f2, f3, f4, f5⟩ := beatPrelude_frame env k
  have hprel : beatPrelude env k
      = { k.arpSeqLastNotes.foldl (fun k note => turnOffKey env k note) k with
          arpSeqLastNotes := [] } := by
    unfold beatPrelude
    rw [if_neg ha]
    rfl
  refine ⟨hprel, rfl, ?_, ?_⟩
  · intro hnop
    have hstep : arpSeqBeat env k
          = (if k.arpBeatCounter > 0 then
              beatCounterDidChange { (beatPrelude env k) with arpBeatCounter := 0 }
            else beatPrelude env k, true)
        ∨ arpSeqBeat env k = (beatPrelude env k, true) := by
      by_cases hh : k.heldNoteNumbers = []
      · left
        rw [arpSeqBeat_eq, arpSeqStep_of_empty_registry env _ (by rw [f4]; exact hh), f2]
      · right
        rw [arpSeqBeat_eq, arpSeqStep_of_empty_pattern env _ (by rw [f4]; exact hh)
          (by rw [f5 ha]; exact hnop.resolve_left hh)]
    have hres : (arpSeqBeat env k).2 = true
        ∧ SameVoices (beatPrelude env k) (arpSeqBeat env k).1
        ∧ (arpSeqBeat env k).1.arpSeqLastNotes = []
        ∧ (arpSeqBeat env k).1.p = k.p := by
      rcases hstep with h | h
      · rw [h]
        by_cases hc : k.arpBeatCounter > 0
        · rw [if_pos hc]; exact ⟨rfl, ⟨rfl, rfl, rfl, rfl⟩, f1, f3⟩
        · rw [if_neg hc]; exact ⟨rfl, ⟨rfl, rfl, rfl, rfl⟩, f1, f3⟩
      · rw [h]; exact ⟨rfl, ⟨rfl, rfl, rfl, rfl⟩, f1, f3⟩
    refine ⟨hres.1, hres.2.1, hres.2.2.1, ?_⟩
    rintro (h | h)
    · rw [hres.2.2.2] at h; exact ha h
    · rw [hres.2.2.1] at h; exact h rfl
  · intro hh hp hc
    have hfire : arpSeqBeat env k
        = ((firedNotes (beatPrelude env k)).foldl (turnOnAndRecord env)
            (beatCounterDidChange
              { (beatPrelude env k) with arpBeatCounter := k.arpBeatCounter + 1 }), false) := by
      rw [arpSeqBeat_eq, arpSeqStep_fire env _ (by rw [f4]; exact hh) (by rw [f5 ha]; exact hp),
        arpSeqFire_eq env _ (by rw [f2]; exact hc), f2]
    have hlast : (arpSeqBeat env k).1.arpSeqLastNotes = firedNotes (beatPrelude env k) := by
      rw [hfire]
      rw [(foldl_turnOnAndRecord env _ _).1]
      show (beatPrelude env k).arpSeqLastNotes ++ _ = _
      rw [f1]; rfl
    have hparam : (arpSeqBeat env k).1.p = k.p := by
      rw [hfire]
      rw [(foldl_turnOnAndRecord env _ _).2.2.2.1]
      exact f3
    refine ⟨hfire, hlast, ?_⟩
    unfold schedulerRuns
    rw [hparam, hlast]
    constructor
    · rintro (h | h)
      · exact absurd h ha
      · exact fun hnil => h (by rw [hnil]; rfl)
    · exact fun h => Or.inr (fun hlen => h (List.length_eq_zero.1 hlen))

set_option maxRecDepth 100000 in
theorem arp_disabled_beat_witness :
    arpDisabledHeld.p arpIsOn ≠ 1
      ∧ (stopNote testEnv (stopNote testEnv arpDisabledHeld 60) 64).p arpIsOn ≠ 1
      ∧ (stopNote testEnv (stopNote testEnv arpDisabledHeld 60) 64).arpSeqLastNotes = [60]
      ∧ (arpSeqBeat testEnv
          (stopNote testEnv (stopNote testEnv arpDisabledHeld 60) 64)).1.arpSeqLastNotes = []
      ∧ (arpSeqBeat testEnv arpDisabledHeld).1.arpSeqLastNotes
          = firedNotes (beatPrelude testEnv arpDisabledHeld)
      ∧ firedNotes (beatPrelude testEnv arpDisabledHeld) = [64]
      ∧ schedulerRuns (arpSeqBeat testEnv arpDisabledHeld).1
      ∧ seqDisabledHeld.heldNoteNumbers = [60]
      ∧ firedNotes (beatPrelude testEnv seqDisabledHeld) = []
      ∧ ¬ schedulerRuns (arpSeqBeat testEnv seqDisabledHeld).1 :=
  ⟨by decide!, by decide!, by decide!,
    ((arp_disabled_beat testEnv (stopNote testEnv (stopNote testEnv arpDisabledHeld 60) 64)
      (by decide!)).2.2.1 (Or.inl (by decide!))).2.2.1,
    ((arp_disabled_beat testEnv arpDisabledHeld (by decide!)).2.2.2 (by decide!) (by decide!)
      (by decide!)).2.1,
    by decide!,
    ((arp_disabled_beat testEnv arpDisabledHeld (by decide!)).2.2.2 (by decide!) (by decide!)
      (by decide!)).2.2.2 (by decide!),
    by decide!, by decide!,
    fun h => (((arp_disabled_beat testEnv seqDisabledHeld (by decide!)).2.2.2 (by decide!)
      (by decide!) (by decide!)).2.2.1 h) (by decide!)⟩

/-! ### The first frame after `init` -/

theorem process_one (env : Env A) (k : AKSynthOneDSPKernel A) (lfo : Nat → ℚ × ℚ) :
    process env k 1 lfo
      = processFrame env ((1 / 2) * (1 / 2) * 60 / k.p arpRate)
          (transitionToOff (initializeNoteStates env k)) (lfo 0) := by
  simp only [process]
  rw [transitionToOff_p, initializeNoteStates_p]
  rfl

theorem processFrame_of_continue (env : Env A) (s : ℚ) (k : AKSynthOneDSPKernel A)
    (lfo : ℚ × ℚ) (h : (arpSeq env s (monoPolySwitch k)).2 = true) :
    processFrame env s k lfo = (arpSeq env s (monoPolySwitch k)).1 := by
  simp only [processFrame, if_pos h]

/-- A first frame in poly mode with the arp off, a non-empty `arpSeqLastNotes`, an
empty pattern and a held note: the frame is a beat that releases every voice that
holds a note of `arpSeqLastNotes` and ends with `continue`. -/
theorem process_one_releases (env : Env A) (k : AKSynthOneDSPKernel A)
    (hpool : PoolInvariant k) (hprev : k.p isMono = k.previousProcessMonoPolyStatus)
    (hm : k.p isMono ≠ 1) (ha : k.p arpIsOn ≠ 1)
    (hlast : ∀ n ∈ k.arpSeqLastNotes, 0 ≤ n ∧ n < NUM_MIDI_NOTES)
    (hne : k.arpSeqLastNotes.length ≠ 0)
    (htime : k.arpTime ≥ k.arpSampleCounter / SAMPLE_RATE)
    (hheld : k.heldNoteNumbers ≠ []) (hpat : k.arpSeqNotes = [])
    (hrel : ∀ i : Int, 0 ≤ i → i < polyphony → (k.noteStates i).stage ≠ stageRelease)
    (hmono : k.monoNote.stage ≠ stageRelease) (lfo : Nat → ℚ × ℚ)
    (i : Int) (hi : 0 ≤ i) (hi' : i < polyphony)
    (hroot : (k.noteStates i).rootNoteNumber ∈ k.arpSeqLastNotes) :
    (process env k 1 lfo).noteStates i = (k.noteStates i).release
      ∧ (process env k 1 lfo).heldNoteNumbers = k.heldNoteNumbers := by
  have hpre : transitionToOff (initializeNoteStates env k) = k := by
    rw [initializeNoteStates_of_initialized env _ hpool.1]
    exact transitionToOff_of_no_release _ hrel hmono
  have hswitch : monoPolySwitch k = k := by
    simp only [monoPolySwitch]
    rw [if_neg (by rw [hprev]; exact fun h => h rfl)]
  have hrun : schedulerRuns k := Or.inr hne
  have hbeat : ∀ s : ℚ, beatBoundary s k := fun s => Or.inr htime
  have ha' : (advanceArpTime k).p arpIsOn ≠ 1 := ha
  obtain ⟨f1, f2, f3, f4, f5⟩ := beatPrelude_frame env (advanceArpTime k)
  have hseq : ∀ s : ℚ, arpSeq env s k = (beatPrelude env (advanceArpTime k), true) := by
    intro s
    rw [(arpSeq_cases env s _).2.2 hrun (hbeat s), arpSeqBeat_eq]
    exact arpSeqStep_of_empty_pattern env _ (by rw [f4]; exact hheld) (by rw [f5 ha']; exact hpat)
  have hproc : process env k 1 lfo = beatPrelude env (advanceArpTime k) := by
    rw [process_one, hpre, processFrame_of_continue _ _ _ _ (by rw [hswitch, hseq]),
      hswitch, hseq]
  have hpool' : PoolInvariant (advanceArpTime k) :=
    voiceInvariant_update (poolInvariant_voiceInvariant env) k _ ⟨rfl, rfl, rfl, rfl⟩ rfl hpool
  rw [hproc]
  refine ⟨?_, by rw [f4]; rfl⟩
  unfold beatPrelude
  rw [if_neg ha']
  show (k.arpSeqLastNotes.foldl
    (fun k note => turnOffKey env k note) (advanceArpTime k)).noteStates i = _
  rw [foldl_turnOffKey_poly env _ hlast _ hpool' hm i hi hi']
  exact if_pos hroot

set_option maxRecDepth 100000 in
theorem noteZeroHeld_facts :
    noteZeroHeld.p isMono = noteZeroHeld.previousProcessMonoPolyStatus
      ∧ noteZeroHeld.p isMono ≠ 1 ∧ noteZeroHeld.p arpIsOn ≠ 1
      ∧ (∀ n ∈ noteZeroHeld.arpSeqLastNotes, 0 ≤ n ∧ n < NUM_MIDI_NOTES)
      ∧ noteZeroHeld.arpSeqLastNotes.length ≠ 0
      ∧ noteZeroHeld.arpTime ≥ noteZeroHeld.arpSampleCounter / SAMPLE_RATE
      ∧ noteZeroHeld.heldNoteNumbers = [0] ∧ noteZeroHeld.arpSeqNotes = []
      ∧ (noteZeroHeld.noteStates 0).rootNoteNumber ∈ noteZeroHeld.arpSeqLastNotes
      ∧ (noteZeroHeld.noteStates 0).rootNoteNumber = 0
      ∧ (noteZeroHeld.noteStates 0).stage = stageOn
      ∧ noteZeroHeld.monoNote.stage ≠ stageRelease
      ∧ ((noteZeroHeld.noteStates 0).stage ≠ stageRelease
        ∧ (noteZeroHeld.noteStates 1).stage ≠ stageRelease
        ∧ (noteZeroHeld.noteStates 2).stage ≠ stageRelease
        ∧ (noteZeroHeld.noteStates 3).stage ≠ stageRelease
        ∧ (noteZeroHeld.noteStates 4).stage ≠ stageRelease
        ∧ (noteZeroHeld.noteStates 5).stage ≠ stageRelease) := by
  refine ⟨by decide!, by decide!, by decide!, by decide!, by decide!, by decide!, by decide!,
    by decide!, by decide!, by decide!, by decide!, by decide!, by decide!⟩

/-- C25 (the code against its comment "Reserve arp note cache").  `init` reserves
capacity for `arpSeqNotes` and `arpSeqNotes2`, which stay empty, but it calls
`resize(maxArpSeqNotes)` on the list `arpSeqLastNotes`, which then holds 1024
zeros.  So with `p[arpIsOn] = 0` the scheduler does run in the first frame after
`init`, that frame is a beat, and `turnOffKey(0)` is issued 1024 times: with the
note 0 pressed before the first call of `process`, the voice that holds it is in
release when the call returns, although the note is still held. -/
theorem init_resizes_arpSeqLastNotes (env : Env A) (malloc : Int → NoteState A) :
    (init env malloc).arpSeqNotes = [] ∧ (init env malloc).arpSeqNotes2 = []
      ∧ (init env malloc).arpSeqLastNotes = List.replicate maxArpSeqNotes 0
      ∧ (initialised env malloc).p arpIsOn = 0
      ∧ schedulerRuns (initialised env malloc)
      ∧ (∀ s : ℚ, beatBoundary s (initialised env malloc))
      ∧ (∀ s : ℚ, arpSeq env s (initialised env malloc)
          = arpSeqStep env
            { (List.replicate maxArpSeqNotes (0 : Int)).foldl
                (fun k note => turnOffKey env k note)
                (advanceArpTime (initialised env malloc)) with arpSeqLastNotes := [] })
      ∧ (noteZeroHeld.noteStates 0).stage = stageOn
      ∧ noteZeroHeld.p arpIsOn = 0
      ∧ ∀ lfo : Nat → ℚ × ℚ,
          ((process testEnv noteZeroHeld 1 lfo).noteStates 0).stage = stageRelease
          ∧ ((process testEnv noteZeroHeld 1 lfo).noteStates 0).rootNoteNumber = 0
          ∧ (process testEnv noteZeroHeld 1 lfo).heldNoteNumbers = [0] := by
  have hrun : schedulerRuns (initialised env malloc) := by
    right
    show (List.replicate maxArpSeqNotes (0 : Int)).length ≠ 0
    rw [List.length_replicate]
    decide
  have hbeat : ∀ s : ℚ, beatBoundary s (initialised env malloc) := by
    intro s
    right
    show (0 : ℚ) ≥ 0 / SAMPLE_RATE
    simp
  have harp := initialised_p_arpIsOn env malloc
  refine ⟨rfl, rfl, rfl, harp, hrun, hbeat, ?_, ?_, ?_, ?_⟩
  · intro s
    rw [(arpSeq_cases env s _).2.2 hrun (hbeat s), arpSeqBeat_eq]
    have ha : (advanceArpTime (initialised env malloc)).p arpIsOn ≠ 1 := by
      show (initialised env malloc).p arpIsOn ≠ 1
      rw [harp]; norm_num
    unfold beatPrelude
    rw [if_neg ha]
    rfl
  · exact noteZeroHeld_facts.2.2.2.2.2.2.2.2.2.2.1
  · show (startNote2 testEnv testKernel 0 127).p arpIsOn = 0
    rw [startNote2_p]
    exact initialised_p_arpIsOn testEnv zeroMalloc
  · intro lfo
    obtain ⟨hprev, hm, ha, hlast, hne, htime, hheld, hpat, hmem, hroot, hstage, hmono, hrel⟩ :=
      noteZeroHeld_facts
    have hpool : PoolInvariant noteZeroHeld :=
      poolInvariant_reachable testEnv zeroMalloc _
        (Relation.ReflTransGen.single (Step.startNote2 _ 0 127))
    obtain ⟨h1, h2⟩ := process_one_releases testEnv noteZeroHeld hpool hprev hm ha hlast hne
      htime (by rw [hheld]; simp) hpat ((forall_polyphony _).2 hrel) hmono lfo 0 (by decide)
      (by decide) hmem
    refine ⟨by rw [h1]; rfl, by rw [h1]; exact hroot, by rw [h2]; exact hheld⟩

/-- C29. A frame on a beat boundary in which the registry is empty or the pattern
(after the rebuild) is empty ends with `continue`: both output samples of the frame
stay at the 0 written at the top of the frame, whatever the effects chain would
have produced, and the frame ends right after the scheduler, so that the LFO
values of the frame are not taken and no voice is rendered (the voices are as the
note-offs of the beat left them). -/
theorem nop_beat_frame_silent (env : Env A) (s : ℚ) (k : AKSynthOneDSPKernel A)
    (lfo compressorOut : ℚ × ℚ)
    (hrun : schedulerRuns (monoPolySwitch k)) (hbeat : beatBoundary s (monoPolySwitch k))
    (hnop : k.heldNoteNumbers = []
      ∨ (beatPrelude env (advanceArpTime (monoPolySwitch k))).arpSeqNotes = []) :
    frameOutput env s k compressorOut = (0, 0)
      ∧ (arpSeq env s (monoPolySwitch k)).2 = true
      ∧ processFrame env s k lfo = (arpSeqBeat env (advanceArpTime (monoPolySwitch k))).1
      ∧ SameVoices (beatPrelude env (advanceArpTime (monoPolySwitch k)))
          (processFrame env s k lfo)
      ∧ ∀ lfo' : ℚ × ℚ, processFrame env s k lfo' = processFrame env s k lfo := by
  obtain ⟨f1, f2, f3, f4, f5⟩ := beatPrelude_frame env (advanceArpTime (monoPolySwitch k))
  have hheld : (beatPrelude env (advanceArpTime (monoPolySwitch k))).heldNoteNumbers
      = k.heldNoteNumbers := by
    rw [f4]
    show (monoPolySwitch k).heldNoteNumbers = _
    exact monoPolySwitch_heldNoteNumbers k
  have hseq : arpSeq env s (monoPolySwitch k)
      = arpSeqStep env (beatPrelude env (advanceArpTime (monoPolySwitch k))) := by
    rw [(arpSeq_cases env s _).2.2 hrun hbeat, arpSeqBeat_eq]
  have hstep : (arpSeqStep env (beatPrelude env (advanceArpTime (monoPolySwitch k)))).2 = true
      ∧ SameVoices (beatPrelude env (advanceArpTime (monoPolySwitch k)))
          (arpSeqStep env (beatPrelude env (advanceArpTime (monoPolySwitch k)))).1 := by
    by_cases hh : k.heldNoteNumbers = []
    · rw [arpSeqStep_of_empty_registry env _ (by rw [hheld]; exact hh)]
      refine ⟨rfl, ?_⟩
      show SameVoices _ (if _ then _ else _)
      split_ifs
      · exact ⟨rfl, rfl, rfl, rfl⟩
      · exact ⟨rfl, rfl, rfl, rfl⟩
    · rw [arpSeqStep_of_empty_pattern env _ (by rw [hheld]; exact hh) (hnop.resolve_left hh)]
      exact ⟨rfl, ⟨rfl, rfl, rfl, rfl⟩⟩
  have hflag : (arpSeq env s (monoPolySwitch k)).2 = true := by rw [hseq]; exact hstep.1
  have hframe : ∀ l : ℚ × ℚ, processFrame env s k l = (arpSeq env s (monoPolySwitch k)).1 :=
    fun l => processFrame_of_continue env s k l hflag
  refine ⟨?_, hflag, ?_, ?_, fun l => ?_⟩
  · simp only [frameOutput, if_pos hflag]
  · rw [hframe, (arpSeq_cases env s _).2.2 hrun hbeat]
  · rw [hframe, hseq]; exact hstep.2
  · rw [hframe, hframe]

theorem nop_beat_frame_silent_witness :
    schedulerRuns (monoPolySwitch arpOnIdle) ∧ beatBoundary (15 / 64) (monoPolySwitch arpOnIdle)
      ∧ arpOnIdle.heldNoteNumbers = []
      ∧ frameOutput testEnv (15 / 64) arpOnIdle (1, 1) = (0, 0) :=
  have hrun : schedulerRuns (monoPolySwitch arpOnIdle) := Or.inl (by decide!)
  have hbeat : beatBoundary (15 / 64) (monoPolySwitch arpOnIdle) := Or.inr (by decide!)
  ⟨hrun, hbeat, by decide!,
    (nop_beat_frame_silent testEnv (15 / 64) arpOnIdle (0, 0) (1, 1) hrun hbeat
      (Or.inl (by decide!))).1⟩

/-! ### The sequencer pattern -/

theorem foldl_append_singleton {α β : Type} (f : α → β) (l : List α) :
    ∀ acc : List β, l.foldl (fun acc x => acc ++ [f x]) acc = acc ++ l.map f := by
  induction l with
  | nil => intro acc; simp
  | cons a l ih => intro acc; rw [List.foldl_cons, ih]; simp

theorem sequencerPattern_eq (p : Nat → ℚ) (notesPerOctave : Int) :
    sequencerPattern p notesPerOctave
      = (loopIndices (numSteps p)).map (sequencerStep p notesPerOctave) := by
  have h := foldl_append_singleton (sequencerStep p notesPerOctave) (loopIndices (numSteps p)) []
  rw [List.nil_append] at h
  rw [← h]
  rfl

theorem toInt_le (x : ℚ) (n : Int) (hn : 0 ≤ n) (h : x ≤ n) : toInt x ≤ n := by
  unfold toInt
  split_ifs with h0
  · exact Int.floor_le_iff.2 (lt_of_le_of_lt h (by exact_mod_cast Int.lt_succ_self n))
  · have : ⌈x⌉ ≤ 0 := Int.ceil_le.2 (by push_neg at h0; exact_mod_cast h0.le)
    omega

theorem toInt_intCast (z : Int) : toInt (z : ℚ) = z := by
  unfold toInt
  split_ifs
  · exact Int.floor_intCast z
  · exact Int.ceil_intCast z

theorem numSteps_le (p : Nat → ℚ) : numSteps p ≤ 16 := by
  unfold numSteps
  split_ifs with h
  · exact le_refl _
  · exact toInt_le _ 16 (by norm_num) (by push_neg at h; exact_mod_cast h)

theorem sequencerPattern_length (p : Nat → ℚ) (notesPerOctave : Int) :
    (sequencerPattern p notesPerOctave).length = (numSteps p).toNat
      ∧ (sequencerPattern p notesPerOctave).length ≤ 16 := by
  rw [sequencerPattern_eq, List.length_map, loopIndices_length]
  refine ⟨rfl, ?_⟩
  have := numSteps_le p
  omega

theorem arpSeqRebuild_sequencer (env : Env A) (k : AKSynthOneDSPKernel A)
    (hs : k.p arpIsSequencer = 1) :
    (arpSeqRebuild env k).arpSeqNotes = sequencerPattern k.p (tuningNotesPerOctave env)
      ∧ (arpSeqRebuild env k).arpSeqNotes2 = [] := by
  simp only [arpSeqRebuild, if_pos hs, tuningNotesPerOctave]
  exact ⟨trivial, trivial⟩

/-- C19 (as worded, refuted). With `p[arpIsSequencer] = 1`, one step and
`p[arpSeqPattern00] = 7/4` (12 notes per octave, so `npof = 1`) the rebuilt
pattern holds the note offset 1, the value truncated toward zero, while the offset
rounded to the nearest integer is 2. -/
theorem sequencer_truncates_not_rounds :
    fractionalSeqKernel.p arpIsSequencer = 1
      ∧ fractionalSeqKernel.p arpSeqPattern00 = 7 / 4
      ∧ (arpSeqRebuild testEnv fractionalSeqKernel).arpSeqNotes = [⟨1, 0⟩]
      ∧ round (fractionalSeqKernel.p arpSeqPattern00 * ((12 : ℚ) / 12)) = 2
      ∧ roundedStep fractionalSeqKernel.p 12 0 = ⟨2, 0⟩ := by
  have hp : fractionalSeqKernel.p arpSeqPattern00 = 7 / 4 := by decide!
  have hr : round (fractionalSeqKernel.p arpSeqPattern00 * ((12 : ℚ) / 12)) = 2 := by
    rw [hp, round_eq, Int.floor_eq_iff]
    norm_num
  have hb : fractionalSeqKernel.p (0 + arpSeqOctBoost00) = 0 := by decide!
  have ho : fractionalSeqKernel.p (0 + arpSeqNoteOn00) = 0 := by decide!
  refine ⟨by decide!, hp, by decide!, hr, ?_⟩
  unfold roundedStep
  simp only []
  have hr' : round (fractionalSeqKernel.p ((0 : Int).toNat + arpSeqPattern00)
      * (((12 : Int) : ℚ) / 12)) = 2 := by
    have : ((0 : Int).toNat + arpSeqPattern00) = arpSeqPattern00 := by decide
    rw [this]
    exact_mod_cast hr
  have hb' : toInt (fractionalSeqKernel.p ((0 : Int).toNat + arpSeqOctBoost00)) = 0 := by
    have : ((0 : Int).toNat + arpSeqOctBoost00) = 0 + arpSeqOctBoost00 := by decide
    rw [this, hb]
    exact toInt_intCast 0
  have ho' : toInt (fractionalSeqKernel.p ((0 : Int).toNat + arpSeqNoteOn00)) = 0 := by
    have : ((0 : Int).toNat + arpSeqNoteOn00) = 0 + arpSeqNoteOn00 := by decide
    rw [this, ho]
    exact toInt_intCast 0
  rw [hr', hb', ho']
  decide

/-- C19 (amended). With `p[arpIsSequencer] = 1` the rebuilt pattern has
`numSteps` entries, where `numSteps` is 16 when `p[arpTotalSteps] > 16` and
`p[arpTotalSteps]` truncated toward zero otherwise, so never more than 16 and
exactly `p[arpTotalSteps]` when that is an integer in `[0, 16]`.  Entry `i` has
the note number `nn + octBoost * npo` when `nn >= 0` and `nn - octBoost * npo` when
`nn < 0`, where `nn` is `p[pattern_i] * npof` truncated toward zero and `octBoost`
is `p[octBoost_i]` truncated toward zero, and `onOff` is `p[noteOn_i]` truncated
toward zero.  When `p[pattern_i] * npof` is an integer the entry is the one with
the rounded offset. -/
theorem sequencer_expansion (env : Env A) (k : AKSynthOneDSPKernel A)
    (hs : k.p arpIsSequencer = 1) :
    (arpSeqRebuild env k).arpSeqNotes
        = (loopIndices (numSteps k.p)).map (sequencerStep k.p (tuningNotesPerOctave env))
      ∧ (arpSeqRebuild env k).arpSeqNotes.length = (numSteps k.p).toNat
      ∧ (arpSeqRebuild env k).arpSeqNotes.length ≤ 16
      ∧ (∀ z : Int, 0 ≤ z → z ≤ 16 → k.p arpTotalSteps = z →
          ((arpSeqRebuild env k).arpSeqNotes.length : Int) = z)
      ∧ (∀ (i z : Int), k.p (i.toNat + arpSeqPattern00)
            * (((tuningNotesPerOctave env : Int) : ℚ) / 12) = z →
          sequencerStep k.p (tuningNotesPerOctave env) i
            = roundedStep k.p (tuningNotesPerOctave env) i) := by
  obtain ⟨h1, -⟩ := arpSeqRebuild_sequencer env k hs
  obtain ⟨h2, h3⟩ := sequencerPattern_length k.p (tuningNotesPerOctave env)
  refine ⟨by rw [h1, sequencerPattern_eq], by rw [h1, h2], by rw [h1]; exact h3, ?_, ?_⟩
  · intro z hz hz' hp
    rw [h1, h2]
    have : numSteps k.p = z := by
      unfold numSteps
      rw [hp, if_neg (by push_neg; exact_mod_cast hz'), toInt_intCast]
    rw [this]
    omega
  · intro i z hz
    unfold sequencerStep roundedStep
    simp only []
    rw [hz, toInt_intCast, round_intCast]

theorem sequencer_expansion_witness :
    seqKernel.p arpIsSequencer = 1
      ∧ (arpSeqRebuild testEnv seqKernel).arpSeqNotes
        = (loopIndices (numSteps seqKernel.p)).map
            (sequencerStep seqKernel.p (tuningNotesPerOctave testEnv))
      ∧ (arpSeqRebuild testEnv seqKernel).arpSeqNotes = [⟨0, 1⟩, ⟨7, 0⟩, ⟨12, 1⟩] :=
  ⟨by decide!, (sequencer_expansion testEnv seqKernel (by decide!)).1, by decide!⟩

/-! ### The capacity of the arp sequences -/

theorem length_le_of_nodup_range (l : List Int) (hn : l.Nodup)
    (hr : ∀ n ∈ l, 0 ≤ n ∧ n < NUM_MIDI_NOTES) : l.length ≤ 128 := by
  have hsub : l.toFinset ⊆ Finset.Ico (0 : Int) 128 := by
    intro n hn'
    rw [List.mem_toFinset] at hn'
    rw [Finset.mem_Ico]
    exact hr n hn'
  have hcard := Finset.card_le_card hsub
  rw [List.toFinset_card_of_nodup hn, Int.card_Ico] at hcard
  simpa using hcard

theorem arpeggiatorPattern_length_le (p : Nat → ℚ) (npo : Int) (notes : List Int) :
    (arpeggiatorPattern p npo notes).length ≤ 2 * ((arpOctaves p).toNat * notes.length) := by
  have hup := upPass_length notes (arpOctaves p) (arpIntervalUp p npo)
  by_cases h0 : p arpDirection = 0
  · rw [arpeggiatorPattern_up p npo notes h0, hup]; omega
  by_cases h1 : p arpDirection = 1
  · rw [arpeggiatorPattern_upDown p npo notes h1, List.length_append, List.length_dropLast,
      List.length_tail, List.length_reverse, hup]
    omega
  by_cases h2 : p arpDirection = 2
  · rw [arpeggiatorPattern_down p npo notes h2, List.length_reverse, hup]; omega
  · simp only [arpeggiatorPattern, if_neg h0, if_neg h1, if_neg h2]
    simp

theorem parameterMax_arpOctave : parameterMax arpOctave = 3 := by
  simp [parameterMax, aks1pAt, aks1p, arpOctave]

theorem arpOctaves_toNat_le (p : Nat → ℚ) (h : p arpOctave ≤ 3) : (arpOctaves p).toNat ≤ 4 := by
  have := toInt_le (p arpOctave) 3 (by norm_num) (by exact_mod_cast h)
  unfold arpOctaves
  omega

theorem arpSeqRebuild_capacity (env : Env A) (k : AKSynthOneDSPKernel A)
    (hreg : RegistryInvariant k) (hoct : k.p arpOctave ≤ 3) :
    (arpSeqRebuild env k).arpSeqNotes.length ≤ 1024
      ∧ (arpSeqRebuild env k).arpSeqNotes2.length ≤ 128 := by
  have hH := length_le_of_nodup_range k.heldNoteNumbers hreg.1 hreg.2
  by_cases hs : k.p arpIsSequencer = 1
  · obtain ⟨h1, h2⟩ := arpSeqRebuild_sequencer env k hs
    rw [h1, h2]
    have := (sequencerPattern_length k.p (tuningNotesPerOctave env)).2
    exact ⟨by omega, by simp⟩
  · obtain ⟨h1, h2⟩ := arpSeqRebuild_arp env k hs
    rw [h1, h2, List.length_reverse]
    refine ⟨?_, hH⟩
    have hlen := arpeggiatorPattern_length_le k.p (tuningNotesPerOctave env)
      k.heldNoteNumbers.reverse
    rw [List.length_reverse] at hlen
    have hO := arpOctaves_toNat_le k.p hoct
    have : (arpOctaves k.p).toNat * k.heldNoteNumbers.length ≤ 4 * 128 :=
      Nat.mul_le_mul hO hH
    omega

theorem arpSeqStep_capacity (env : Env A) (k : AKSynthOneDSPKernel A)
    (hlast : k.arpSeqLastNotes = []) :
    (arpSeqStep env k).1.arpSeqNotes = k.arpSeqNotes
      ∧ (arpSeqStep env k).1.arpSeqNotes2 = k.arpSeqNotes2
      ∧ (arpSeqStep env k).1.arpSeqLastNotes.length ≤ max k.heldNoteNumbers.length 1 := by
  by_cases hh : k.heldNoteNumbers = []
  · rw [arpSeqStep_of_empty_registry env k hh]
    by_cases hc : k.arpBeatCounter > 0
    · rw [if_pos hc]
      refine ⟨rfl, rfl, ?_⟩
      show k.arpSeqLastNotes.length ≤ _
      rw [hlast]; simp
    · rw [if_neg hc]
      refine ⟨rfl, rfl, ?_⟩
      rw [hlast]; simp
  by_cases hp : k.arpSeqNotes = []
  · rw [arpSeqStep_of_empty_pattern env k hh hp]
    refine ⟨rfl, rfl, ?_⟩
    rw [hlast]; simp
  · rw [arpSeqStep_fire env k hh hp, arpSeqFire_eq_notesOfStep]
    obtain ⟨f1, -, -, -, f5, f6⟩ := foldl_turnOnAndRecord env
      (notesOfStep k (k.arpSeqNotes.getD
        (k.arpBeatCounter.tmod k.arpSeqNotes.length).toNat ⟨0, 0⟩))
      (beatCounterDidChange { k with arpBeatCounter := k.arpBeatCounter + 1 })
    refine ⟨f5, f6, ?_⟩
    rw [f1]
    show (k.arpSeqLastNotes ++ _).length ≤ _
    rw [hlast, List.nil_append]
    exact notesOfStep_length k _

/-- C22. Arp capacity.  For a registry of pairwise distinct notes in `0..127` and a
parameter vector within the declared ranges, a rebuild leaves at most 1024 entries
in `arpSeqNotes` (at most 16 in sequencer mode, at most `2 * 128 * 4` in arp mode)
and at most 128 in `arpSeqNotes2`, and after the beat none of the three arp
sequences holds more than the reserved `maxArpSeqNotes = 1024` entries;
`arpSeqLastNotes` holds at most 128. -/
theorem arp_capacity (env : Env A) (k : AKSynthOneDSPKernel A) (hreg : RegistryInvariant k)
    (hp : ∀ i, i < AKSynthOneParameterCount → parameterMin i ≤ k.p i ∧ k.p i ≤ parameterMax i)
    (hcap : k.arpSeqNotes.length ≤ maxArpSeqNotes ∧ k.arpSeqNotes2.length ≤ maxArpSeqNotes) :
    (arpSeqRebuild env k).arpSeqNotes.length ≤ maxArpSeqNotes
      ∧ (arpSeqRebuild env k).arpSeqNotes2.length ≤ maxArpSeqNotes
      ∧ (arpSeqBeat env k).1.arpSeqNotes.length ≤ maxArpSeqNotes
      ∧ (arpSeqBeat env k).1.arpSeqNotes2.length ≤ maxArpSeqNotes
      ∧ (arpSeqBeat env k).1.arpSeqLastNotes.length ≤ maxArpSeqNotes
      ∧ (arpSeqBeat env k).1.arpSeqLastNotes.length ≤ 128 := by
  have hoct : k.p arpOctave ≤ 3 := by
    have := (hp arpOctave (by decide)).2
    rwa [parameterMax_arpOctave] at this
  have hH := length_le_of_nodup_range k.heldNoteNumbers hreg.1 hreg.2
  obtain ⟨r1, r2⟩ := arpSeqRebuild_capacity env k hreg hoct
  have hmax : maxArpSeqNotes = 1024 := rfl
  rw [hmax] at hcap ⊢
  obtain ⟨t1, t2, t3, -, -, t6, -, -⟩ := arpSeqTurnOffLastNotes_frame env
    (if k.p arpIsOn = 1 then arpSeqRebuild env k else k)
  obtain ⟨-, -, -, -, q4, -, -, -⟩ := arpSeqRebuild_frame env k
  obtain ⟨s1, s2, s3⟩ := arpSeqStep_capacity env (beatPrelude env k) t1
  have hheld : (beatPrelude env k).heldNoteNumbers = k.heldNoteNumbers :=
    (beatPrelude_frame env k).2.2.2.1
  have hpat : (beatPrelude env k).arpSeqNotes.length ≤ 1024
      ∧ (beatPrelude env k).arpSeqNotes2.length ≤ 1024 := by
    unfold beatPrelude
    rw [t2, t3]
    split_ifs
    · exact ⟨r1, by omega⟩
    · exact hcap
  rw [hheld] at s3
  have hlast : (arpSeqBeat env k).1.arpSeqLastNotes.length ≤ 128 := by
    rw [arpSeqBeat_eq]
    refine le_trans s3 ?_
    exact max_le hH (by norm_num)
  refine ⟨r1, by omega, ?_, ?_, by omega, hlast⟩
  · rw [arpSeqBeat_eq, s1]; exact hpat.1
  · rw [arpSeqBeat_eq, s2]; exact hpat.2

theorem setAK1Parameter_range (k : AKSynthOneDSPKernel A) (j : Nat) (v : ℚ)
    (h : ∀ i, i < AKSynthOneParameterCount → parameterMin i ≤ k.p i ∧ k.p i ≤ parameterMax i) :
    ∀ i, i < AKSynthOneParameterCount →
      parameterMin i ≤ (setAK1Parameter k j v).p i ∧ (setAK1Parameter k j v).p i ≤ parameterMax i := by
  intro i hi
  by_cases hij : i = j
  · subst hij
    rw [setAK1Parameter_p_self]
    exact parameterClamp_mem i v
  · rw [setAK1Parameter_p_ne k j i v hij]
    exact h i hi

theorem testKernel_range :
    ∀ i, i < AKSynthOneParameterCount →
      parameterMin i ≤ testKernel.p i ∧ testKernel.p i ≤ parameterMax i := by
  intro i hi
  rw [testKernel_p, if_pos hi]
  exact parameterClamp_mem i _

theorem arp_capacity_witness :
    RegistryInvariant (arpKernel 1)
      ∧ (arpSeqBeat testEnv (arpKernel 1)).1.arpSeqNotes.length ≤ maxArpSeqNotes
      ∧ (arpSeqBeat testEnv (arpKernel 1)).1.arpSeqNotes2.length ≤ maxArpSeqNotes
      ∧ (arpSeqBeat testEnv (arpKernel 1)).1.arpSeqLastNotes.length ≤ maxArpSeqNotes :=
  have hreg : RegistryInvariant (arpKernel 1) := by
    unfold RegistryInvariant
    rw [arpKernel_heldNoteNumbers]
    decide
  have hp : ∀ i, i < AKSynthOneParameterCount →
      parameterMin i ≤ (arpKernel 1).p i ∧ (arpKernel 1).p i ≤ parameterMax i := by
    rw [arpKernel_p]
    exact setAK1Parameter_range _ _ _ (setAK1Parameter_range _ _ _
      (setAK1Parameter_range _ _ _ testKernel_range))
  have hcap : (arpKernel 1).arpSeqNotes.length ≤ maxArpSeqNotes
      ∧ (arpKernel 1).arpSeqNotes2.length ≤ maxArpSeqNotes := by
    constructor <;> decide!
  ⟨hreg, (arp_capacity testEnv (arpKernel 1) hreg hp hcap).2.2.1,
    (arp_capacity testEnv (arpKernel 1) hreg hp hcap).2.2.2.1,
    (arp_capacity testEnv (arpKernel 1) hreg hp hcap).2.2.2.2.1⟩

/-! ### Beat timing -/

theorem parameterClampFloat_finite (i : Nat) (v : ℚ) :
    parameterClampFloat i (FloatValue.finite v) = FloatValue.finite (parameterClamp i v) := by
  simp only [parameterClampFloat, parameterClamp, stdMax, stdMin, FloatValue.lt,
    decide_eq_true_eq]
  by_cases h1 : v < (aks1pAt i).min
  · rw [if_pos h1, max_eq_right h1.le]
    simp only [FloatValue.lt, decide_eq_true_eq]
    by_cases h2 : (aks1pAt i).max < (aks1pAt i).min
    · rw [if_pos h2, min_eq_right h2.le]
    · rw [if_neg h2, min_eq_left (not_lt.1 h2)]
  · rw [if_neg h1, max_eq_left (not_lt.1 h1)]
    simp only [FloatValue.lt, decide_eq_true_eq]
    by_cases h2 : (aks1pAt i).max < v
    · rw [if_pos h2, min_eq_right h2.le]
    · rw [if_neg h2, min_eq_left (not_lt.1 h2)]

theorem parameterClampFloat_nan (i : Nat) :
    parameterClampFloat i FloatValue.nan = FloatValue.nan := by
  simp [parameterClampFloat, stdMax, stdMin, FloatValue.lt]

theorem parameterClampFloat_posInf (i : Nat) :
    parameterClampFloat i FloatValue.posInf = FloatValue.finite (parameterMax i) := by
  simp [parameterClampFloat, stdMax, stdMin, FloatValue.lt, parameterMax]

theorem parameterClampFloat_negInf (i : Nat) :
    parameterClampFloat i FloatValue.negInf = FloatValue.finite (parameterMin i) := by
  have h := parameterMin_le_parameterMax i
  have h' : ¬ (aks1pAt i).max < (aks1pAt i).min := not_lt.2 h
  simp [parameterClampFloat, stdMax, stdMin, FloatValue.lt, parameterMin, h']

theorem setAK1ParameterSlot_eq (old : FloatValue) (i : Nat) (v : FloatValue) :
    setAK1ParameterSlot old i v = parameterClampFloat i v := by
  simp only [setAK1ParameterSlot]
  split_ifs with h
  · rfl
  · cases hold : old <;> cases hval : parameterClampFloat i v <;>
      simp_all [FloatValue.ne]

/-- C1 (the code against its comment "return clamped value").  `parameterClamp`
is `std::min(std::max(inputValue, paramMin), paramMax)`, and every comparison with
NaN is false: for the argument NaN it returns NaN, `p[param] != value` is true and
`setAK1Parameter` stores NaN, whatever the slot held, so the value that
`getAK1Parameter` returns is not between `min_i` and `max_i`.  For every other
argument the stored value is the clamped one: `min (max v min_i) max_i` for a
finite `v`, `max_i` for `+inf` and `min_i` for `-inf`, always between `min_i` and
`max_i`. -/
theorem setAK1Parameter_stores_nan :
    (∀ (i : Nat) (old : FloatValue),
        parameterClampFloat i FloatValue.nan = FloatValue.nan
        ∧ setAK1ParameterSlot old i FloatValue.nan = FloatValue.nan
        ∧ ∀ q : ℚ, setAK1ParameterSlot old i FloatValue.nan ≠ FloatValue.finite q)
      ∧ (∀ (i : Nat) (old : FloatValue) (v : ℚ),
          setAK1ParameterSlot old i (FloatValue.finite v)
              = FloatValue.finite (min (max v (parameterMin i)) (parameterMax i))
            ∧ parameterMin i ≤ min (max v (parameterMin i)) (parameterMax i)
            ∧ min (max v (parameterMin i)) (parameterMax i) ≤ parameterMax i)
      ∧ (∀ (i : Nat) (old : FloatValue),
          setAK1ParameterSlot old i FloatValue.posInf = FloatValue.finite (parameterMax i)
            ∧ setAK1ParameterSlot old i FloatValue.negInf = FloatValue.finite (parameterMin i)
            ∧ parameterMin i ≤ parameterMax i)
      ∧ (∀ (k : AKSynthOneDSPKernel A) (i : Nat) (v : ℚ),
          FloatValue.finite ((setAK1Parameter k i v).p i)
            = setAK1ParameterSlot (FloatValue.finite (k.p i)) i (FloatValue.finite v)) := by
  refine ⟨fun i old => ?_, fun i old v => ?_, fun i old => ?_, fun k i v => ?_⟩
  · refine ⟨parameterClampFloat_nan i, ?_, fun q => ?_⟩
    · rw [setAK1ParameterSlot_eq, parameterClampFloat_nan]
    · rw [setAK1ParameterSlot_eq, parameterClampFloat_nan]
      exact fun h => FloatValue.noConfusion h
  · have hm := parameterClamp_mem i v
    rw [parameterClamp_eq] at hm
    refine ⟨?_, hm⟩
    rw [setAK1ParameterSlot_eq, parameterClampFloat_finite, parameterClamp_eq]
  · refine ⟨?_, ?_, parameterMin_le_parameterMax i⟩
    · rw [setAK1ParameterSlot_eq, parameterClampFloat_posInf]
    · rw [setAK1ParameterSlot_eq, parameterClampFloat_negInf]
  · rw [setAK1ParameterSlot_eq, parameterClampFloat_finite, setAK1Parameter_p_self]

/-! ### `stopAllNotes` with the arp on -/

set_option maxRecDepth 100000 in
/-- C11 (the code against its comment "puts all notes in release mode").
`stopAllNotes` sends `stopNote` to the notes, and `stopNote` returns before
`turnOffKey` when `p[arpIsOn] == 1`.  The note 60 is pressed with the arp off and
`p[arpIsOn]` is then written to 1: after `stopAllNotes` the registry is empty but
voice 0 is still in stage On with its gate at 1, and it is not released by the
scheduler either, because the note is not in `arpSeqLastNotes`: it is still On
after the next two beats.  The same holds on the initialised engine. -/
theorem stopAllNotes_arpOn_note_stuck :
    (liveVoiceArpEnabled.noteStates 0).stage = stageOn
      ∧ liveVoiceArpEnabled.p arpIsOn = 1
      ∧ (stopAllNotes testEnv liveVoiceArpEnabled).heldNoteNumbers = []
      ∧ (stopAllNotes testEnv liveVoiceArpEnabled).arpSeqLastNotes = []
      ∧ ((stopAllNotes testEnv liveVoiceArpEnabled).noteStates 0).stage = stageOn
      ∧ ((stopAllNotes testEnv liveVoiceArpEnabled).noteStates 0).internalGate = 1
      ∧ ((stopAllNotes testEnv liveVoiceArpEnabled).noteStates 0).rootNoteNumber = 60
      ∧ ((arpSeqBeat testEnv (stopAllNotes testEnv liveVoiceArpEnabled)).1.noteStates 0).stage
          = stageOn
      ∧ ((arpSeqBeat testEnv
          (arpSeqBeat testEnv (stopAllNotes testEnv liveVoiceArpEnabled)).1).1.noteStates 0).stage
          = stageOn
      ∧ (arpSeqBeat testEnv
          (arpSeqBeat testEnv (stopAllNotes testEnv liveVoiceArpEnabled)).1).1.arpSeqLastNotes = []
      ∧ (liveVoiceArpOn.noteStates 0).stage = stageOn
      ∧ liveVoiceArpOn.p arpIsOn = 1
      ∧ (stopAllNotes testEnv liveVoiceArpOn).heldNoteNumbers = []
      ∧ ((stopAllNotes testEnv liveVoiceArpOn).noteStates 0).stage = stageOn := by
  have hm : ¬ (liveVoiceArpOn.p isMono = 1) := by
    unfold liveVoiceArpOn
    rw [setAK1Parameter_p_ne _ _ _ _ (by decide), startNote2_p]
    decide
  have h := foldl_stopNote_arpOn testEnv (loopIndices NUM_MIDI_NOTES)
    { liveVoiceArpOn with heldNoteNumbers := [] } liveVoiceArpOn_arpIsOn
  refine ⟨by decide!, by decide!, by decide!, by decide!, by decide!, by decide!, by decide!,
    by decide!, by decide!, by decide!, liveVoiceArpOn_stage, liveVoiceArpOn_arpIsOn,
    stopAllNotes_heldNoteNumbers _ _, ?_⟩
  simp only [stopAllNotes, if_neg hm]
  rw [h.1]
  exact liveVoiceArpOn_stage

end AKSynthOne
